import Mathlib

/-!
# Verification development for the mpv video plumbing

Shallow embedding of

* `video/out/vo_xv.c`   : the Xv output driver (format negotiation, double buffering),
* `video/img_format.c`  : the image format name table and descriptor derivation,
* `video/img_format.h`  : the `IMGFMT_*` enumeration and flag constants,
* `core/parser-cfg.c`   : the config file parser,
* `video/filter/vf_mirror.c` : the mirror filter,
* `demux/demux_lavf.c`  : the codec tag of raw video streams and the track switch.

C `int` values are `Int`, unsigned values are `Nat`; C `%` on `int` is `Int.tmod`
(truncating), stores into `int8_t` fields go through `int8`.
-/

namespace Mpv

/-! ## `video/img_format.h` : `enum mp_imgfmt` -/

def IMGFMT_NONE : Nat := 0
def IMGFMT_START : Nat := 1000
def IMGFMT_444P : Nat := 1001
def IMGFMT_422P : Nat := 1002
def IMGFMT_440P : Nat := 1003
def IMGFMT_420P : Nat := 1004
def IMGFMT_411P : Nat := 1005
def IMGFMT_410P : Nat := 1006
def IMGFMT_444P16_LE : Nat := 1007
def IMGFMT_444P16_BE : Nat := 1008
def IMGFMT_444P14_LE : Nat := 1009
def IMGFMT_444P14_BE : Nat := 1010
def IMGFMT_444P12_LE : Nat := 1011
def IMGFMT_444P12_BE : Nat := 1012
def IMGFMT_444P10_LE : Nat := 1013
def IMGFMT_444P10_BE : Nat := 1014
def IMGFMT_444P9_LE : Nat := 1015
def IMGFMT_444P9_BE : Nat := 1016
def IMGFMT_422P16_LE : Nat := 1017
def IMGFMT_422P16_BE : Nat := 1018
def IMGFMT_422P14_LE : Nat := 1019
def IMGFMT_422P14_BE : Nat := 1020
def IMGFMT_422P12_LE : Nat := 1021
def IMGFMT_422P12_BE : Nat := 1022
def IMGFMT_422P10_LE : Nat := 1023
def IMGFMT_422P10_BE : Nat := 1024
def IMGFMT_422P9_LE : Nat := 1025
def IMGFMT_422P9_BE : Nat := 1026
def IMGFMT_420P16_LE : Nat := 1027
def IMGFMT_420P16_BE : Nat := 1028
def IMGFMT_420P14_LE : Nat := 1029
def IMGFMT_420P14_BE : Nat := 1030
def IMGFMT_420P12_LE : Nat := 1031
def IMGFMT_420P12_BE : Nat := 1032
def IMGFMT_420P10_LE : Nat := 1033
def IMGFMT_420P10_BE : Nat := 1034
def IMGFMT_420P9_LE : Nat := 1035
def IMGFMT_420P9_BE : Nat := 1036
def IMGFMT_420AP : Nat := 1037
def IMGFMT_Y8 : Nat := 1038
def IMGFMT_Y16_LE : Nat := 1039
def IMGFMT_Y16_BE : Nat := 1040
def IMGFMT_YUYV : Nat := 1041
def IMGFMT_UYVY : Nat := 1042
def IMGFMT_NV12 : Nat := 1043
def IMGFMT_NV21 : Nat := 1044
def IMGFMT_ARGB : Nat := 1045
def IMGFMT_BGRA : Nat := 1046
def IMGFMT_BGR0 : Nat := 1047
def IMGFMT_ABGR : Nat := 1048
def IMGFMT_RGBA : Nat := 1049
def IMGFMT_BGR24 : Nat := 1050
def IMGFMT_RGB24 : Nat := 1051
def IMGFMT_RGB48_LE : Nat := 1052
def IMGFMT_RGB48_BE : Nat := 1053
def IMGFMT_RGB8 : Nat := 1054
def IMGFMT_BGR8 : Nat := 1055
def IMGFMT_RGB4_BYTE : Nat := 1056
def IMGFMT_BGR4_BYTE : Nat := 1057
def IMGFMT_RGB4 : Nat := 1058
def IMGFMT_BGR4 : Nat := 1059
def IMGFMT_MONO : Nat := 1060
def IMGFMT_RGB12_LE : Nat := 1061
def IMGFMT_RGB12_BE : Nat := 1062
def IMGFMT_RGB15_LE : Nat := 1063
def IMGFMT_RGB15_BE : Nat := 1064
def IMGFMT_RGB16_LE : Nat := 1065
def IMGFMT_RGB16_BE : Nat := 1066
def IMGFMT_BGR12_LE : Nat := 1067
def IMGFMT_BGR12_BE : Nat := 1068
def IMGFMT_BGR15_LE : Nat := 1069
def IMGFMT_BGR15_BE : Nat := 1070
def IMGFMT_BGR16_LE : Nat := 1071
def IMGFMT_BGR16_BE : Nat := 1072
def IMGFMT_PAL8 : Nat := 1073
def IMGFMT_GBRP : Nat := 1074
def IMGFMT_VDPAU_MPEG1 : Nat := 1075
def IMGFMT_VDPAU_MPEG2 : Nat := 1076
def IMGFMT_VDPAU_H264 : Nat := 1077
def IMGFMT_VDPAU_WMV3 : Nat := 1078
def IMGFMT_VDPAU_VC1 : Nat := 1079
def IMGFMT_VDPAU_MPEG4 : Nat := 1080
def IMGFMT_END : Nat := 1081
def IMGFMT_VDPAU_FIRST : Nat := IMGFMT_VDPAU_MPEG1
def IMGFMT_VDPAU_LAST : Nat := IMGFMT_VDPAU_MPEG4

/-! The native-endian aliases; `big_endian` is `BYTE_ORDER == BIG_ENDIAN`. -/

def IMGFMT_RGB32 (big_endian : Bool) : Nat := if big_endian then IMGFMT_ABGR else IMGFMT_RGBA
def IMGFMT_BGR32 (big_endian : Bool) : Nat := if big_endian then IMGFMT_ARGB else IMGFMT_BGRA
def IMGFMT_RGB12 (big_endian : Bool) : Nat := if big_endian then IMGFMT_RGB12_BE else IMGFMT_RGB12_LE
def IMGFMT_RGB15 (big_endian : Bool) : Nat := if big_endian then IMGFMT_RGB15_BE else IMGFMT_RGB15_LE
def IMGFMT_RGB16 (big_endian : Bool) : Nat := if big_endian then IMGFMT_RGB16_BE else IMGFMT_RGB16_LE
def IMGFMT_BGR12 (big_endian : Bool) : Nat := if big_endian then IMGFMT_BGR12_BE else IMGFMT_BGR12_LE
def IMGFMT_BGR15 (big_endian : Bool) : Nat := if big_endian then IMGFMT_BGR15_BE else IMGFMT_BGR15_LE
def IMGFMT_BGR16 (big_endian : Bool) : Nat := if big_endian then IMGFMT_BGR16_BE else IMGFMT_BGR16_LE
def IMGFMT_RGB48 (big_endian : Bool) : Nat := if big_endian then IMGFMT_RGB48_BE else IMGFMT_RGB48_LE
def IMGFMT_444P16 (big_endian : Bool) : Nat := if big_endian then IMGFMT_444P16_BE else IMGFMT_444P16_LE
def IMGFMT_444P14 (big_endian : Bool) : Nat := if big_endian then IMGFMT_444P14_BE else IMGFMT_444P14_LE
def IMGFMT_444P12 (big_endian : Bool) : Nat := if big_endian then IMGFMT_444P12_BE else IMGFMT_444P12_LE
def IMGFMT_444P10 (big_endian : Bool) : Nat := if big_endian then IMGFMT_444P10_BE else IMGFMT_444P10_LE
def IMGFMT_444P9 (big_endian : Bool) : Nat := if big_endian then IMGFMT_444P9_BE else IMGFMT_444P9_LE
def IMGFMT_422P16 (big_endian : Bool) : Nat := if big_endian then IMGFMT_422P16_BE else IMGFMT_422P16_LE
def IMGFMT_422P14 (big_endian : Bool) : Nat := if big_endian then IMGFMT_422P14_BE else IMGFMT_422P14_LE
def IMGFMT_422P12 (big_endian : Bool) : Nat := if big_endian then IMGFMT_422P12_BE else IMGFMT_422P12_LE
def IMGFMT_422P10 (big_endian : Bool) : Nat := if big_endian then IMGFMT_422P10_BE else IMGFMT_422P10_LE
def IMGFMT_422P9 (big_endian : Bool) : Nat := if big_endian then IMGFMT_422P9_BE else IMGFMT_422P9_LE
def IMGFMT_420P16 (big_endian : Bool) : Nat := if big_endian then IMGFMT_420P16_BE else IMGFMT_420P16_LE
def IMGFMT_420P14 (big_endian : Bool) : Nat := if big_endian then IMGFMT_420P14_BE else IMGFMT_420P14_LE
def IMGFMT_420P12 (big_endian : Bool) : Nat := if big_endian then IMGFMT_420P12_BE else IMGFMT_420P12_LE
def IMGFMT_420P10 (big_endian : Bool) : Nat := if big_endian then IMGFMT_420P10_BE else IMGFMT_420P10_LE
def IMGFMT_420P9 (big_endian : Bool) : Nat := if big_endian then IMGFMT_420P9_BE else IMGFMT_420P9_LE
def IMGFMT_Y16 (big_endian : Bool) : Nat := if big_endian then IMGFMT_Y16_BE else IMGFMT_Y16_LE

/-- The `struct mp_imgfmt_entry` of the name table. -/
structure mp_imgfmt_entry where
  name : String
  fmt : Nat
  deriving DecidableEq, Repr

/-- The table `mp_imgfmt_list` with the macros `FMT` and `FMT_ENDIAN` expanded,
without its terminating zero entry (written as four consecutive segments). -/
def mp_imgfmt_list (big_endian : Bool) : List mp_imgfmt_entry :=
  ([ ⟨"y8", IMGFMT_Y8⟩,
     ⟨"y16", IMGFMT_Y16 big_endian⟩,
     ⟨"y16le", IMGFMT_Y16_LE⟩,
     ⟨"y16be", IMGFMT_Y16_BE⟩,
     ⟨"yuyv", IMGFMT_YUYV⟩,
     ⟨"uyvy", IMGFMT_UYVY⟩,
     ⟨"nv12", IMGFMT_NV12⟩,
     ⟨"nv21", IMGFMT_NV21⟩,
     ⟨"444p", IMGFMT_444P⟩,
     ⟨"422p", IMGFMT_422P⟩,
     ⟨"440p", IMGFMT_440P⟩,
     ⟨"420p", IMGFMT_420P⟩,
     ⟨"yv12", IMGFMT_420P⟩,
     ⟨"411p", IMGFMT_411P⟩,
     ⟨"410p", IMGFMT_410P⟩,
     ⟨"444p16", IMGFMT_444P16 big_endian⟩,
     ⟨"444p16le", IMGFMT_444P16_LE⟩,
     ⟨"444p16be", IMGFMT_444P16_BE⟩,
     ⟨"444p14", IMGFMT_444P14 big_endian⟩,
     ⟨"444p14le", IMGFMT_444P14_LE⟩,
     ⟨"444p14be", IMGFMT_444P14_BE⟩,
     ⟨"444p12", IMGFMT_444P12 big_endian⟩,
     ⟨"444p12le", IMGFMT_444P12_LE⟩,
     ⟨"444p12be", IMGFMT_444P12_BE⟩,
     ⟨"444p10", IMGFMT_444P10 big_endian⟩,
     ⟨"444p10le", IMGFMT_444P10_LE⟩,
     ⟨"444p10be", IMGFMT_444P10_BE⟩ ] : List mp_imgfmt_entry)
  ++
  ([ ⟨"444p9", IMGFMT_444P9 big_endian⟩,
     ⟨"444p9le", IMGFMT_444P9_LE⟩,
     ⟨"444p9be", IMGFMT_444P9_BE⟩,
     ⟨"422p16", IMGFMT_422P16 big_endian⟩,
     ⟨"422p16le", IMGFMT_422P16_LE⟩,
     ⟨"422p16be", IMGFMT_422P16_BE⟩,
     ⟨"422p14", IMGFMT_422P14 big_endian⟩,
     ⟨"422p14le", IMGFMT_422P14_LE⟩,
     ⟨"422p14be", IMGFMT_422P14_BE⟩,
     ⟨"422p12", IMGFMT_422P12 big_endian⟩,
     ⟨"422p12le", IMGFMT_422P12_LE⟩,
     ⟨"422p12be", IMGFMT_422P12_BE⟩,
     ⟨"422p10", IMGFMT_422P10 big_endian⟩,
     ⟨"422p10le", IMGFMT_422P10_LE⟩,
     ⟨"422p10be", IMGFMT_422P10_BE⟩,
     ⟨"422p9", IMGFMT_422P9 big_endian⟩,
     ⟨"422p9le", IMGFMT_422P9_LE⟩,
     ⟨"422p9be", IMGFMT_422P9_BE⟩,
     ⟨"420p16", IMGFMT_420P16 big_endian⟩,
     ⟨"420p16le", IMGFMT_420P16_LE⟩,
     ⟨"420p16be", IMGFMT_420P16_BE⟩,
     ⟨"420p14", IMGFMT_420P14 big_endian⟩,
     ⟨"420p14le", IMGFMT_420P14_LE⟩,
     ⟨"420p14be", IMGFMT_420P14_BE⟩,
     ⟨"420p12", IMGFMT_420P12 big_endian⟩,
     ⟨"420p12le", IMGFMT_420P12_LE⟩,
     ⟨"420p12be", IMGFMT_420P12_BE⟩ ] : List mp_imgfmt_entry)
  ++
  ([ ⟨"420p10", IMGFMT_420P10 big_endian⟩,
     ⟨"420p10le", IMGFMT_420P10_LE⟩,
     ⟨"420p10be", IMGFMT_420P10_BE⟩,
     ⟨"420p9", IMGFMT_420P9 big_endian⟩,
     ⟨"420p9le", IMGFMT_420P9_LE⟩,
     ⟨"420p9be", IMGFMT_420P9_BE⟩,
     ⟨"420ap", IMGFMT_420AP⟩,
     ⟨"argb", IMGFMT_ARGB⟩,
     ⟨"bgra", IMGFMT_BGRA⟩,
     ⟨"bgr0", IMGFMT_BGR0⟩,
     ⟨"abgr", IMGFMT_ABGR⟩,
     ⟨"rgba", IMGFMT_RGBA⟩,
     ⟨"rgb32", IMGFMT_RGB32 big_endian⟩,
     ⟨"bgr32", IMGFMT_BGR32 big_endian⟩,
     ⟨"bgr24", IMGFMT_BGR24⟩,
     ⟨"rgb24", IMGFMT_RGB24⟩,
     ⟨"rgb48", IMGFMT_RGB48 big_endian⟩,
     ⟨"rgb48le", IMGFMT_RGB48_LE⟩,
     ⟨"rgb48be", IMGFMT_RGB48_BE⟩,
     ⟨"rgb8", IMGFMT_RGB8⟩,
     ⟨"bgr8", IMGFMT_BGR8⟩,
     ⟨"rgb4_byte", IMGFMT_RGB4_BYTE⟩,
     ⟨"bgr4_byte", IMGFMT_BGR4_BYTE⟩,
     ⟨"rgb4", IMGFMT_RGB4⟩,
     ⟨"bgr4", IMGFMT_BGR4⟩,
     ⟨"mono", IMGFMT_MONO⟩,
     ⟨"rgb12", IMGFMT_RGB12 big_endian⟩ ] : List mp_imgfmt_entry)
  ++
  ([ ⟨"rgb12le", IMGFMT_RGB12_LE⟩,
     ⟨"rgb12be", IMGFMT_RGB12_BE⟩,
     ⟨"rgb15", IMGFMT_RGB15 big_endian⟩,
     ⟨"rgb15le", IMGFMT_RGB15_LE⟩,
     ⟨"rgb15be", IMGFMT_RGB15_BE⟩,
     ⟨"rgb16", IMGFMT_RGB16 big_endian⟩,
     ⟨"rgb16le", IMGFMT_RGB16_LE⟩,
     ⟨"rgb16be", IMGFMT_RGB16_BE⟩,
     ⟨"bgr12", IMGFMT_BGR12 big_endian⟩,
     ⟨"bgr12le", IMGFMT_BGR12_LE⟩,
     ⟨"bgr12be", IMGFMT_BGR12_BE⟩,
     ⟨"bgr15", IMGFMT_BGR15 big_endian⟩,
     ⟨"bgr15le", IMGFMT_BGR15_LE⟩,
     ⟨"bgr15be", IMGFMT_BGR15_BE⟩,
     ⟨"bgr16", IMGFMT_BGR16 big_endian⟩,
     ⟨"bgr16le", IMGFMT_BGR16_LE⟩,
     ⟨"bgr16be", IMGFMT_BGR16_BE⟩,
     ⟨"pal8", IMGFMT_PAL8⟩,
     ⟨"gbrp", IMGFMT_GBRP⟩,
     ⟨"vdpau_mpeg1", IMGFMT_VDPAU_MPEG1⟩,
     ⟨"vdpau_mpeg2", IMGFMT_VDPAU_MPEG2⟩,
     ⟨"vdpau_h264", IMGFMT_VDPAU_H264⟩,
     ⟨"vdpau_wmv3", IMGFMT_VDPAU_WMV3⟩,
     ⟨"vdpau_vc1", IMGFMT_VDPAU_VC1⟩,
     ⟨"vdpau_mpeg4", IMGFMT_VDPAU_MPEG4⟩ ] : List mp_imgfmt_entry)

/-! ## `video/img_format.h` : flags and macros -/

def MP_MAX_PLANES : Nat := 4
def MP_IMGFLAG_BYTE_ALIGNED : Nat := 0x1
def MP_IMGFLAG_ALPHA : Nat := 0x80
def MP_IMGFLAG_PLANAR : Nat := 0x100
def MP_IMGFLAG_YUV : Nat := 0x200
def MP_IMGFLAG_SWAPPED : Nat := 0x400
def MP_IMGFLAG_YUV_P : Nat := 0x1000
def MP_IMGFLAG_NE : Nat := 0x2000

/-- The macro `IMGFMT_IS_VDPAU`. -/
def IMGFMT_IS_VDPAU (fmt : Nat) : Bool :=
  decide (fmt ≥ IMGFMT_VDPAU_FIRST) && decide (fmt ≤ IMGFMT_VDPAU_LAST)

/-- The macro `IMGFMT_IS_HWACCEL`. -/
def IMGFMT_IS_HWACCEL (fmt : Nat) : Bool := IMGFMT_IS_VDPAU fmt

/-- A store into an `int8_t` field. -/
def int8 (x : Int) : Int := (x + 128) % 256 - 128

/-- The struct `mp_imgfmt_desc`; the arrays are functions of the plane index.
`align_x` and `align_y` are the two fields that `get_avutil_fmt` assigns last.  The
field `name` is left out: its initialiser reads `desc.id` while `desc` is still
being initialised, so the C code does not determine its value. -/
structure mp_imgfmt_desc where
  id : Nat
  avformat : Nat
  flags : Nat
  num_planes : Int
  chroma_xs : Int
  chroma_ys : Int
  avg_bpp : Int
  bytes : Nat → Int
  bpp : Nat → Int
  plane_bits : Int
  xs : Nat → Int
  ys : Nat → Int
  align_x : Int
  align_y : Int

/-- The zero value of the descriptor struct. -/
def mp_imgfmt_desc_zero : mp_imgfmt_desc :=
  { id := 0, avformat := 0, flags := 0, num_planes := 0,
    chroma_xs := 0, chroma_ys := 0, avg_bpp := 0, bytes := fun _ => 0,
    bpp := fun _ => 0, plane_bits := 0, xs := fun _ => 0, ys := fun _ => 0,
    align_x := 0, align_y := 0 }

/-! ## `video/img_format.c` -/

/-- Comparison of two character sequences ignoring letter case: `0` when they are
equal up to case, otherwise the sign of the first difference. -/
def casecmp : List Char → List Char → Int
  | [], [] => 0
  | [], _ :: _ => -1
  | _ :: _, [] => 1
  | a :: as, b :: bs =>
    if a.toLower = b.toLower then casecmp as bs
    else if a.toLower < b.toLower then -1 else 1

/-- Modelled from the spec: `bstrcasecmp0` of `core/bstr.c`, which is not among the
sources at hand; the spec calls the lookup a case-insensitive name lookup. -/
def bstrcasecmp0 (str1 str2 : String) : Int := casecmp str1.toList str2.toList

/-- The loop of `mp_imgfmt_from_name` over the entries of the table. -/
def mp_imgfmt_from_name_in : List mp_imgfmt_entry → String → Bool → Nat
  | [], _, _ => 0
  | p :: rest, name, allow_hwaccel =>
    if bstrcasecmp0 name p.name = 0 then
      if !allow_hwaccel && IMGFMT_IS_HWACCEL p.fmt then 0 else p.fmt
    else mp_imgfmt_from_name_in rest name allow_hwaccel

/-- The function `mp_imgfmt_from_name`. -/
def mp_imgfmt_from_name (big_endian : Bool) (name : String) (allow_hwaccel : Bool) : Nat :=
  mp_imgfmt_from_name_in (mp_imgfmt_list big_endian) name allow_hwaccel

/-- The loop of `mp_imgfmt_to_name` over the entries of the table. -/
def mp_imgfmt_to_name_in : List mp_imgfmt_entry → Nat → Option String
  | [], _ => none
  | p :: rest, fmt => if p.fmt = fmt then some p.name else mp_imgfmt_to_name_in rest fmt

/-- The function `mp_imgfmt_to_name`; `none` is the `NULL` result. -/
def mp_imgfmt_to_name (big_endian : Bool) (fmt : Nat) : Option String :=
  mp_imgfmt_to_name_in (mp_imgfmt_list big_endian) fmt

/-- The fields of libavutil's `AVComponentDescriptor` that the derivation reads, with
the ranges of their bit-fields. -/
structure AVComponentDescriptor where
  plane : Fin 4
  step_minus1 : Fin 8
  depth_minus1 : Fin 16
  deriving DecidableEq, Repr

/-- The fields of libavutil's `AVPixFmtDescriptor` that the derivation reads.  `comp`
holds the first `nb_components` component descriptors; each `flag_*` field is the
test `pd->flags & PIX_FMT_*`. -/
structure AVPixFmtDescriptor where
  comp : List AVComponentDescriptor
  log2_chroma_w : Nat
  log2_chroma_h : Nat
  flag_BE : Bool
  flag_BITSTREAM : Bool
  flag_HWACCEL : Bool
  flag_RGB : Bool
  flag_ALPHA : Bool
  deriving DecidableEq, Repr

/-- The component count `nb_components`. -/
def AVPixFmtDescriptor.nb_components (pd : AVPixFmtDescriptor) : Nat := pd.comp.length

/-- What the derivation takes from outside `img_format.c`: libavutil's layout table
and pixel format constants, whether libavutil defines `PIX_FMT_ALPHA`, the two
conversions of `video/fmt-conversion.c` (`none` is `PIX_FMT_NONE`), and the value
of the flag `MP_IMGFLAG_RGB`, which `img_format.h` does not define. -/
structure pixfmt_env where
  av_pix_fmt_descriptors : Nat → AVPixFmtDescriptor
  PIX_FMT_MONOWHITE : Nat
  PIX_FMT_MONOBLACK : Nat
  PIX_FMT_PAL8 : Nat
  PIX_FMT_ALPHA_defined : Bool
  imgfmt2pixfmt : Nat → Option Nat
  pixfmt2imgfmt : Nat → Nat
  MP_IMGFLAG_RGB : Nat

/-- Assignment `a[i] = v` on an array given as a function. -/
def arr_set (a : Nat → Int) (i : Nat) (v : Int) : Nat → Int :=
  fun j => if j = i then v else a j

/-- One round of the component loop of `get_avutil_fmt`, on `(bpp, planedepth)`. -/
def comp_step (el_size : Int) (st : (Nat → Int) × (Nat → Int))
    (d : AVComponentDescriptor) : (Nat → Int) × (Nat → Int) :=
  let bpp := if st.1 d.plane.val = 0
    then arr_set st.1 d.plane.val (int8 ((d.step_minus1.val + 1) * el_size))
    else st.1
  (bpp, arr_set st.2 d.plane.val (st.2 d.plane.val + (d.depth_minus1.val + 1)))

/-- The loop `for (p = 0; p < 4; p++) if (desc.bpp[p]) desc.num_planes++`. -/
def count_planes (bpp : Nat → Int) : Int :=
  [0, 1, 2, 3].foldl (fun n p => if bpp p ≠ 0 then int8 (n + 1) else n) 0

/-- The loop computing `avgbpp16`. -/
def avgbpp16 (bpp : Nat → Int) (xs ys : Nat → Nat) : Int :=
  [0, 1, 2, 3].foldl (fun acc p => acc + (((16 * bpp p) >>> xs p) >>> ys p)) 0

/-- The loop computing `same_depth` over the planes below `num_planes`. -/
def same_depth (bpp planedepth : Nat → Int) (num_planes : Int) : Bool :=
  (List.range num_planes.toNat).foldl
    (fun acc p => acc && (decide (planedepth p = planedepth 0) && decide (bpp p = bpp 0))) true

/-- The function `get_avutil_fmt`. -/
def get_avutil_fmt (E : pixfmt_env) (fmt : Nat) : mp_imgfmt_desc :=
  let pd := E.av_pix_fmt_descriptors fmt
  let mpfmt := E.pixfmt2imgfmt fmt
  if mpfmt = 0 then mp_imgfmt_desc_zero
  else
    let chroma_xs := int8 pd.log2_chroma_w
    let chroma_ys := int8 pd.log2_chroma_h
    let xs : Nat → Nat := fun p => if p = 1 ∨ p = 2 then pd.log2_chroma_w else 0
    let ys : Nat → Nat := fun p => if p = 1 ∨ p = 2 then pd.log2_chroma_h else 0
    let el_size : Int := if pd.flag_BITSTREAM then 1 else 8
    let st := pd.comp.foldl (comp_step el_size) (fun _ => 0, fun _ => 0)
    let bpp := st.1
    let planedepth := st.2
    let avg_bpp := int8 (Int.tdiv (avgbpp16 bpp xs ys) 16)
    let num_planes := count_planes bpp
    let flags : Nat := 0
    let flags := if bpp 0 ≤ 8 ∨ ¬ pd.flag_BE then flags ||| MP_IMGFLAG_NE else flags
    let plane_bits := int8 (planedepth 0)
    let flags :=
      if ¬ pd.flag_RGB ∧ ¬ pd.flag_HWACCEL ∧ fmt ≠ E.PIX_FMT_MONOWHITE
          ∧ fmt ≠ E.PIX_FMT_MONOBLACK ∧ fmt ≠ E.PIX_FMT_PAL8
      then flags ||| MP_IMGFLAG_YUV else flags ||| E.MP_IMGFLAG_RGB
    let flags :=
      if E.PIX_FMT_ALPHA_defined then
        (if pd.flag_ALPHA then flags ||| MP_IMGFLAG_ALPHA else flags)
      else
        (if num_planes > 3 then flags ||| MP_IMGFLAG_ALPHA else flags)
    let flags :=
      if num_planes = pd.nb_components then flags ||| MP_IMGFLAG_PLANAR else flags
    let flags :=
      if flags &&& MP_IMGFLAG_YUV ≠ 0 then
        (if same_depth bpp planedepth num_planes ∧ (pd.nb_components : Int) = num_planes
         then flags ||| MP_IMGFLAG_YUV_P else flags)
      else flags
    let aligned : Bool := !pd.flag_HWACCEL && !pd.flag_BITSTREAM
    let flags := if aligned then flags ||| MP_IMGFLAG_BYTE_ALIGNED else flags
    let bytes : Nat → Int := fun p =>
      if aligned ∧ (p : Int) < num_planes then int8 (Int.tdiv (bpp p) 8) else 0
    let dxs : Nat → Int := fun p =>
      if (p : Int) < num_planes then (if p = 1 ∨ p = 2 then chroma_xs else 0) else 0
    let dys : Nat → Int := fun p =>
      if (p : Int) < num_planes then (if p = 1 ∨ p = 2 then chroma_ys else 0) else 0
    let align_x : Int := 1 * 2 ^ chroma_xs.toNat
    let align_y : Int := 1 * 2 ^ chroma_ys.toNat
    let align_x := if Int.tmod (bpp 0) 8 ≠ 0 then Int.tdiv 8 (bpp 0) else align_x
    { id := mpfmt, avformat := fmt,
      flags := flags, num_planes := num_planes,
      chroma_xs := chroma_xs, chroma_ys := chroma_ys, avg_bpp := avg_bpp,
      bytes := bytes, bpp := bpp, plane_bits := plane_bits,
      xs := dxs, ys := dys, align_x := align_x, align_y := align_y }

/-- The function `mp_imgfmt_get_desc`. -/
def mp_imgfmt_get_desc (E : pixfmt_env) (out_fmt : Nat) : mp_imgfmt_desc :=
  match E.imgfmt2pixfmt out_fmt with
  | some avfmt => get_avutil_fmt E avfmt
  | none => mp_imgfmt_desc_zero

/-- The test in the loop body of `mp_imgfmt_find_yuv_planar`. -/
def yuv_planar_match (desc : mp_imgfmt_desc) (xs ys planes component_bits : Int) : Bool :=
  decide (desc.id ≠ 0) && decide (desc.flags &&& MP_IMGFLAG_YUV_P ≠ 0)
    && (decide (desc.num_planes = planes) && decide (desc.chroma_xs = xs)
        && decide (desc.chroma_ys = ys) && decide (desc.plane_bits = component_bits)
        && decide (desc.flags &&& MP_IMGFLAG_NE ≠ 0))

/-- The loop of `mp_imgfmt_find_yuv_planar` over a list of candidate ids. -/
def find_yuv_planar_in (E : pixfmt_env) (xs ys planes component_bits : Int) :
    List Nat → Nat
  | [] => 0
  | n :: rest =>
    if yuv_planar_match (mp_imgfmt_get_desc E n) xs ys planes component_bits
    then (mp_imgfmt_get_desc E n).id
    else find_yuv_planar_in E xs ys planes component_bits rest

/-- The ids `IMGFMT_START + 1`, ..., `IMGFMT_END - 1` in increasing order. -/
def imgfmt_ids : List Nat := List.range' (IMGFMT_START + 1) (IMGFMT_END - (IMGFMT_START + 1))

/-- The function `mp_imgfmt_find_yuv_planar`. -/
def mp_imgfmt_find_yuv_planar (E : pixfmt_env)
    (xs ys planes component_bits : Int) : Nat :=
  find_yuv_planar_in E xs ys planes component_bits imgfmt_ids

/-- A small layout environment for examples: the three layouts of 8 bit 4:2:0,
16 bit little-endian 4:2:0 and 16 bit big-endian 4:2:0 planar YUV, as pixel
formats 0, 1 and 2, paired with `IMGFMT_420P`, `IMGFMT_420P16_LE`,
`IMGFMT_420P16_BE`. -/
def sample_env : pixfmt_env :=
  { av_pix_fmt_descriptors := fun fmt =>
      { comp := if fmt = 0 then [⟨0, 0, 7⟩, ⟨1, 0, 7⟩, ⟨2, 0, 7⟩]
                else [⟨0, 1, 15⟩, ⟨1, 1, 15⟩, ⟨2, 1, 15⟩],
        log2_chroma_w := 1, log2_chroma_h := 1,
        flag_BE := decide (fmt = 2), flag_BITSTREAM := false, flag_HWACCEL := false,
        flag_RGB := false, flag_ALPHA := false },
    PIX_FMT_MONOWHITE := 9, PIX_FMT_MONOBLACK := 10, PIX_FMT_PAL8 := 11,
    PIX_FMT_ALPHA_defined := true,
    imgfmt2pixfmt := fun n =>
      if n = IMGFMT_420P then some 0
      else if n = IMGFMT_420P16_LE then some 1
      else if n = IMGFMT_420P16_BE then some 2
      else none,
    pixfmt2imgfmt := fun p =>
      if p = 0 then IMGFMT_420P
      else if p = 1 then IMGFMT_420P16_LE
      else if p = 2 then IMGFMT_420P16_BE
      else 0,
    MP_IMGFLAG_RGB := 0x40 }

/-! ## `video/out/vo_xv.c` -/

/-- Modelled from the spec: the fourcc constants of `video/img_fourcc.h` (a header
that is not part of the sources at hand).  The spec names them `YV12`, `I420`,
`YUY2`, `UYVY`; the value is the little-endian packing of the four characters. -/
def MP_FOURCC (a b c d : Char) : Nat :=
  a.toNat + b.toNat * 256 + c.toNat * 65536 + d.toNat * 16777216

def MP_FOURCC_YV12 : Nat := MP_FOURCC 'Y' 'V' '1' '2'
def MP_FOURCC_I420 : Nat := MP_FOURCC 'I' '4' '2' '0'
def MP_FOURCC_YUY2 : Nat := MP_FOURCC 'Y' 'U' 'Y' '2'
def MP_FOURCC_UYVY : Nat := MP_FOURCC 'U' 'Y' 'V' 'Y'

/-- The fields of `struct xvctx` that the driver logic reads or writes.  `fo` is the
list of image format ids advertised by the Xv port (`fo[i].id`, `formats` is its
length).  X11 handles, rectangles and the cached colorspace only flow to and from
the X server and are left out. -/
structure xvctx where
  fo : List Nat
  xv_format : Nat
  current_buf : Int
  current_ip_buf : Int
  num_buffers : Int
  total_buffers : Int
  visible_buf : Int
  image_width : Nat
  image_height : Nat
  image_format : Nat
  is_paused : Int
  max_width : Nat
  max_height : Nat
  deriving DecidableEq, Repr

/-- The `struct fmt_entry` of the driver. -/
structure fmt_entry where
  imgfmt : Nat
  fourcc : Nat
  deriving DecidableEq, Repr

/-- The table `fmt_table`, without its terminating zero entry. -/
def fmt_table : List fmt_entry :=
  [ ⟨IMGFMT_420P, MP_FOURCC_YV12⟩,
    ⟨IMGFMT_420P, MP_FOURCC_I420⟩,
    ⟨IMGFMT_YUYV, MP_FOURCC_YUY2⟩,
    ⟨IMGFMT_UYVY, MP_FOURCC_UYVY⟩ ]

/-- The loop of `find_xv_format` over a table: the fourcc of the first entry whose
`imgfmt` is the requested one, `0` at the end of the table. -/
def find_xv_format_in : List fmt_entry → Nat → Nat
  | [], _ => 0
  | e :: rest, imgfmt =>
    if e.imgfmt = imgfmt then e.fourcc else find_xv_format_in rest imgfmt

/-- The function `find_xv_format`. -/
def find_xv_format (imgfmt : Nat) : Nat :=
  find_xv_format_in fmt_table imgfmt

/-- The format loop of `config`: every advertised id equal to
`find_xv_format(format)` is stored into `xv_format` (which starts at `0`). -/
def config_scan (format : Nat) : List Nat → Nat → Nat
  | [], xv => xv
  | id :: rest, xv =>
    config_scan format rest (if id = find_xv_format format then id else xv)

/-- The function `config`: the new context and the return code. -/
def config (ctx : xvctx) (width height format : Nat) : xvctx × Int :=
  let ctx1 := { ctx with image_height := height, image_width := width,
                         image_format := format }
  if (ctx1.max_width ≠ 0 ∧ ctx1.max_height ≠ 0)
      ∧ (ctx1.image_width > ctx1.max_width ∨ ctx1.image_height > ctx1.max_height) then
    (ctx1, -1)
  else
    let ctx2 := { ctx1 with visible_buf := -1 }
    let ctx3 := { ctx2 with xv_format := config_scan format ctx2.fo 0 }
    if ctx3.xv_format = 0 then
      (ctx3, -1)
    else
      let ctx4 := { ctx3 with num_buffers := 2 }
      let ctx5 := { ctx4 with total_buffers := ctx4.num_buffers }
      ({ ctx5 with current_buf := 0, current_ip_buf := 0 }, 0)

/-- The function `draw_image`: copies into the slot `current_buf`; no field of the
context changes. -/
def draw_image (ctx : xvctx) : xvctx := ctx

/-- The function `draw_osd`: draws onto the slot `current_buf`; no field of the
context changes. -/
def draw_osd (ctx : xvctx) : xvctx := ctx

/-- The function `redraw_frame`. -/
def redraw_frame (ctx : xvctx) : xvctx :=
  { ctx with current_buf := ctx.visible_buf }

/-- The function `flip_page`. -/
def flip_page (ctx : xvctx) : xvctx :=
  let ctx1 := { ctx with visible_buf := ctx.current_buf }
  { ctx1 with current_buf := Int.tmod (ctx1.current_buf + 1) ctx1.num_buffers }

/-- The function `get_screenshot`: copies the slot `visible_buf`; no field of the
context changes. -/
def get_screenshot (ctx : xvctx) : xvctx := ctx

/-- The function `resize`: recomputes the rectangles and the cached colorspace,
none of which is a field of the model. -/
def resize (ctx : xvctx) : xvctx := ctx

/-- The function `check_events`; `expose_or_resize` is the outcome of
`vo_x11_check_events`. -/
def check_events (ctx : xvctx) (expose_or_resize : Bool) : xvctx :=
  if expose_or_resize then resize ctx else ctx

/-- The slot index that `draw_image` and `draw_osd` hand to `get_xv_buffer`. -/
def write_slot (ctx : xvctx) : Int := ctx.current_buf

/-- The function `query_format`: `true` when the capability flags are returned,
`false` when `0` is returned. -/
def query_format (ctx : xvctx) (format : Nat) : Bool :=
  let fourcc := find_xv_format format
  if fourcc ≠ 0 then ctx.fo.any (fun id => id = fourcc) else false

/-- The requests that `control` switches on; `other` is any request without a case. -/
inductive voctrl where
  | VOCTRL_PAUSE
  | VOCTRL_RESUME
  | VOCTRL_GET_PANSCAN
  | VOCTRL_FULLSCREEN
  | VOCTRL_SET_PANSCAN
  | VOCTRL_SET_EQUALIZER
  | VOCTRL_GET_EQUALIZER
  | VOCTRL_SET_YUV_COLORSPACE
  | VOCTRL_GET_YUV_COLORSPACE
  | VOCTRL_ONTOP
  | VOCTRL_UPDATE_SCREENINFO
  | VOCTRL_REDRAW_FRAME
  | VOCTRL_SCREENSHOT
  | other (request : Nat)
  deriving DecidableEq, Repr

/-- The effect of `control` on the context. -/
def control (ctx : xvctx) : voctrl → xvctx
  | .VOCTRL_PAUSE => { ctx with is_paused := 1 }
  | .VOCTRL_RESUME => { ctx with is_paused := 0 }
  | .VOCTRL_GET_PANSCAN => ctx
  | .VOCTRL_FULLSCREEN => resize ctx
  | .VOCTRL_SET_PANSCAN => resize ctx
  | .VOCTRL_SET_EQUALIZER => ctx
  | .VOCTRL_GET_EQUALIZER => ctx
  | .VOCTRL_SET_YUV_COLORSPACE => ctx
  | .VOCTRL_GET_YUV_COLORSPACE => ctx
  | .VOCTRL_ONTOP => ctx
  | .VOCTRL_UPDATE_SCREENINFO => ctx
  | .VOCTRL_REDRAW_FRAME => redraw_frame ctx
  | .VOCTRL_SCREENSHOT => get_screenshot ctx
  | .other _ => ctx

/-- The driver entry points that a playback loop calls after `preinit`. -/
inductive xv_op where
  | op_config (width height format : Nat)
  | op_draw_image
  | op_draw_osd
  | op_flip_page
  | op_redraw_frame
  | op_get_screenshot
  deriving DecidableEq, Repr

/-- One call of a driver entry point. -/
def xv_step (ctx : xvctx) : xv_op → xvctx
  | .op_config w h f => (config ctx w h f).1
  | .op_draw_image => draw_image ctx
  | .op_draw_osd => draw_osd ctx
  | .op_flip_page => flip_page ctx
  | .op_redraw_frame => redraw_frame ctx
  | .op_get_screenshot => get_screenshot ctx

/-- A sequence of calls, first call first. -/
def xv_run (ctx : xvctx) (ops : List xv_op) : xvctx :=
  ops.foldl xv_step ctx

/-- No `config` among the calls. -/
def no_config : List xv_op → Bool
  | [] => true
  | .op_config _ _ _ :: _ => false
  | _ :: rest => no_config rest

/-- The calls made after the last `flip_page` (all calls, when there is no
`flip_page`), latest call first. -/
def since_flip (ops : List xv_op) : List xv_op :=
  ops.reverse.takeWhile (fun o => decide (o ≠ xv_op.op_flip_page))

/-- No `redraw_frame` was called after the last `flip_page`. -/
def no_redraw_since_flip (ops : List xv_op) : Bool :=
  (since_flip ops).all (fun o => decide (o ≠ xv_op.op_redraw_frame))

/-- The context that `preinit` leaves (`talloc_zero`), with the advertised formats
and the maximum dimensions it queried. -/
def preinit_ctx (fo : List Nat) (max_width max_height : Nat) : xvctx :=
  { fo := fo, xv_format := 0, current_buf := 0, current_ip_buf := 0,
    num_buffers := 0, total_buffers := 0, visible_buf := 0,
    image_width := 0, image_height := 0, image_format := 0, is_paused := 0,
    max_width := max_width, max_height := max_height }

/-- The index invariant of a configured driver. -/
def xv_inv (s : xvctx) : Prop :=
  s.num_buffers = 2
    ∧ (s.current_buf = -1 ∨ s.current_buf = 0 ∨ s.current_buf = 1)
    ∧ (s.visible_buf = -1 ∨ s.visible_buf = 0 ∨ s.visible_buf = 1)

/-! ## `video/img_format.h` : the 9 to 16 bit planar YUV tests -/

/-- The state `(bpp, planedepth)` after the component loop of `get_avutil_fmt`. -/
def comp_loop (pd : AVPixFmtDescriptor) : (Nat → Int) × (Nat → Int) :=
  pd.comp.foldl (comp_step (if pd.flag_BITSTREAM then 1 else 8)) (fun _ => 0, fun _ => 0)

/-- The local array `planedepth` of `get_avutil_fmt` after the component loop: the
bits in use per plane. -/
def planedepth (E : pixfmt_env) (fmt : Nat) : Nat → Int :=
  (comp_loop (E.av_pix_fmt_descriptors fmt)).2

/-- The value of `desc.flags` in `get_avutil_fmt` when the test for
`MP_IMGFLAG_YUV_P` is reached (after the `MP_IMGFLAG_PLANAR` step). -/
def flags_before_yuv_p (E : pixfmt_env) (fmt : Nat) : Nat :=
  let pd := E.av_pix_fmt_descriptors fmt
  let bpp := (comp_loop pd).1
  let num_planes := count_planes bpp
  let flags : Nat := 0
  let flags := if bpp 0 ≤ 8 ∨ ¬ pd.flag_BE then flags ||| MP_IMGFLAG_NE else flags
  let flags :=
    if ¬ pd.flag_RGB ∧ ¬ pd.flag_HWACCEL ∧ fmt ≠ E.PIX_FMT_MONOWHITE
        ∧ fmt ≠ E.PIX_FMT_MONOBLACK ∧ fmt ≠ E.PIX_FMT_PAL8
    then flags ||| MP_IMGFLAG_YUV else flags ||| E.MP_IMGFLAG_RGB
  let flags :=
    if E.PIX_FMT_ALPHA_defined then
      (if pd.flag_ALPHA then flags ||| MP_IMGFLAG_ALPHA else flags)
    else
      (if num_planes > 3 then flags ||| MP_IMGFLAG_ALPHA else flags)
  if num_planes = pd.nb_components then flags ||| MP_IMGFLAG_PLANAR else flags

/-- An environment in which every pixel format has the layout `pd` and converts to
the image format `IMGFMT_Y8`; used to run the derivation on one given layout. -/
def layout_env (pd : AVPixFmtDescriptor) : pixfmt_env :=
  { av_pix_fmt_descriptors := fun _ => pd,
    PIX_FMT_MONOWHITE := 9, PIX_FMT_MONOBLACK := 10, PIX_FMT_PAL8 := 11,
    PIX_FMT_ALPHA_defined := true,
    imgfmt2pixfmt := fun _ => some 8,
    pixfmt2imgfmt := fun _ => IMGFMT_Y8,
    MP_IMGFLAG_RGB := 0x40 }

/-- The layout of 8 bit gray: one component of 8 bits, one byte per pixel, plane 0. -/
def layout_gray8 : AVPixFmtDescriptor :=
  { comp := [⟨0, 0, 7⟩], log2_chroma_w := 0, log2_chroma_h := 0,
    flag_BE := false, flag_BITSTREAM := false, flag_HWACCEL := false,
    flag_RGB := false, flag_ALPHA := false }

/-- The layout of NV12: 8 bit luma on plane 0, the two chroma components interleaved
on plane 1, chroma subsampled by two in both directions. -/
def layout_nv12 : AVPixFmtDescriptor :=
  { comp := [⟨0, 0, 7⟩, ⟨1, 1, 7⟩, ⟨1, 1, 7⟩], log2_chroma_w := 1, log2_chroma_h := 1,
    flag_BE := false, flag_BITSTREAM := false, flag_HWACCEL := false,
    flag_RGB := false, flag_ALPHA := false }

/-! ## `core/parser-cfg.c` -/

def MAX_RECURSION_DEPTH : Int := 8
def MAX_LINE_LEN : Nat := 10000
def MAX_OPT_LEN : Nat := 1000
def MAX_PARAM_LEN : Nat := 1500

/-- The terminating character of a C string. -/
def NUL : Char := Char.ofNat 0

/-- The double quote character. -/
def DQUOTE : Char := Char.ofNat 34

/-- The single quote character. -/
def SQUOTE : Char := Char.ofNat 39

/-- The libc function `isspace` in the "C" locale: space, `\t`, `\n`, `\v`, `\f`, `\r`. -/
def isspace (c : Char) : Bool := decide (c = ' ') || (decide (9 ≤ c.toNat) && decide (c.toNat ≤ 13))

/-- The libc function `isprint` in the "C" locale: the characters 0x20 to 0x7e. -/
def isprint (c : Char) : Bool := decide (32 ≤ c.toNat) && decide (c.toNat ≤ 126)

/-- The character `line[line_pos]`, the line pointer being the list of characters
from `line_pos` on; past the modelled memory the character reads as `NUL`. -/
def at0 (l : List Char) : Char := l.headD NUL

/-- The loop `while (isspace(line[line_pos])) ++line_pos`. -/
def skip_ws (l : List Char) : List Char := l.dropWhile isspace

/-- A C string as its callee sees it: the characters before the first `NUL`. -/
def cstr (l : List Char) : List Char := l.takeWhile (fun c => decide (c ≠ NUL))

/-- The errors that the parser reports with `mp_msg`. -/
inductive cfg_error where
  | too_deep
  | too_many_errors
  | too_long_option
  | parse_error
  | needs_parameter
  | too_long_parameter
  | extra_characters
  | unknown_option
  | setting_failed
  deriving DecidableEq, Repr

/-- The loop that reads the option name; the arguments are the line from `line_pos`
on and the characters stored in `opt` so far (`opt_pos` is their number).  `none`
is the exit through `too long option`, otherwise the name and the rest of the line. -/
def read_opt : List Char → List Char → Option (List Char × List Char)
  | [], opt => some (opt, [])
  | c :: rest, opt =>
    if isprint c && decide (c ≠ ' ') && decide (c ≠ '#') && decide (c ≠ '=') then
      if opt.length + 1 ≥ MAX_OPT_LEN then none
      else read_opt rest (opt ++ [c])
    else some (opt, c :: rest)

/-- The loop that reads a quoted parameter up to the quote character `c`; it does
not test for the end of the line.  `none` is the exit through `too long parameter`
(also taken when the loop runs past the modelled memory, which reads as `NUL`),
otherwise the parameter and the line from the closing quote on. -/
def read_quoted (c : Char) : List Char → List Char → Option (List Char × List Char)
  | [], _ => none
  | x :: rest, param =>
    if x ≠ c then
      if param.length + 1 ≥ MAX_PARAM_LEN then none
      else read_quoted c rest (param ++ [x])
    else some (param, x :: rest)

/-- The loop that reads an unquoted parameter. -/
def read_unquoted : List Char → List Char → Option (List Char × List Char)
  | [], param => some (param, [])
  | x :: rest, param =>
    if isprint x && !isspace x && decide (x ≠ '#') then
      if param.length + 1 ≥ MAX_PARAM_LEN then none
      else read_unquoted rest (param ++ [x])
    else some (param, x :: rest)

/-- What the body of the `while` loop finds on one line, before anything is applied. -/
inductive line_result where
  | skip
  | err (e : cfg_error)
  | profile_decl (name : List Char)
  | option (opt param : List Char) (extra : Bool)
  deriving DecidableEq, Repr

/-- The scanning part of the loop body of `m_config_parse_config_file` on the buffer
`line` (the characters that `fgets` stored, the terminating `NUL`, and whatever the
buffer held behind it).  `skip` is the `continue` on an empty line or comment,
`err e` an exit with `errors++` and `ret = -1`, `profile_decl` a profile
declaration, `option opt param extra` a line that reaches the setter calls, with
`extra` telling whether `extra characters` was reported. -/
def parse_line (line : List Char) : line_result :=
  let l1 := skip_ws line
  if at0 l1 = NUL ∨ at0 l1 = '#' then line_result.skip
  else
    match read_opt l1 [] with
    | none => line_result.err cfg_error.too_long_option
    | some (opt, l2) =>
      if opt.length = 0 then line_result.err cfg_error.parse_error
      else if opt.length > 2 ∧ opt.head? = some '[' ∧ opt.getLast? = some ']' then
        line_result.profile_decl (opt.drop 1).dropLast
      else
        let l3 := skip_ws l2
        if at0 l3 ≠ '=' then line_result.err cfg_error.needs_parameter
        else
          let l4 := skip_ws (l3.drop 1)
          let r :=
            if at0 l4 = DQUOTE ∨ at0 l4 = SQUOTE then
              (read_quoted (at0 l4) (l4.drop 1) []).map (fun pr => (pr.1, pr.2.drop 1))
            else read_unquoted l4 []
          match r with
          | none => line_result.err cfg_error.too_long_parameter
          | some (param, l5) =>
            if param.length = 0 then line_result.err cfg_error.needs_parameter
            else
              let l6 := skip_ws l5
              line_result.option opt (cstr param)
                (decide (at0 l6 ≠ NUL) && decide (at0 l6 ≠ '#'))

/-- The calls into `m_config.c` that the parser makes. -/
inductive cfg_action where
  | add_profile (name : List Char)
  | set_desc (profile param : List Char)
  | set_profile_option (profile opt param : List Char)
  | set_option0 (opt param : List Char)
  deriving DecidableEq, Repr

/-- What the parser takes from `m_config.c` and `m_option.h`: the constant
`M_OPT_UNKNOWN` and the value `tmp` that the setter called on line `line_num`
returns.  The setters are taken not to call back into the parser. -/
structure cfg_env where
  M_OPT_UNKNOWN : Int
  set_result : Nat → cfg_action → Int

/-- The local variables of `m_config_parse_config_file` that outlive one line, with
the calls made (`actions`) and the messages reported (`log`, with the line number). -/
structure parse_state where
  line_num : Nat
  errors : Nat
  ret : Int
  profile : Option (List Char)
  actions : List cfg_action
  log : List (Nat × cfg_error)
  deriving DecidableEq, Repr

/-- The loop body after the scanning of the line, given what the scanning found. -/
def apply_line (env : cfg_env) (st : parse_state) : line_result → parse_state
  | line_result.skip => st
  | line_result.err e =>
    { st with log := st.log ++ [(st.line_num, e)], errors := st.errors + 1, ret := -1 }
  | line_result.profile_decl name =>
    if name ≠ "default".toList then
      { st with profile := some name, actions := st.actions ++ [cfg_action.add_profile name] }
    else { st with profile := none }
  | line_result.option opt param extra =>
    let st1 :=
      if extra then
        { st with log := st.log ++ [(st.line_num, cfg_error.extra_characters)], ret := -1 }
      else st
    let act :=
      match st1.profile with
      | some p =>
        if opt = "profile-desc".toList then cfg_action.set_desc p param
        else cfg_action.set_profile_option p opt param
      | none => cfg_action.set_option0 opt param
    let tmp : Int :=
      match act with
      | cfg_action.set_desc _ _ => 1
      | _ => env.set_result st1.line_num act
    let st2 := { st1 with actions := st1.actions ++ [act] }
    if tmp < 0 then
      if tmp = env.M_OPT_UNKNOWN then
        { st2 with log := st2.log ++ [(st2.line_num, cfg_error.unknown_option)] }
      else { st2 with log := st2.log ++ [(st2.line_num, cfg_error.setting_failed)] }
    else st2

/-- The loop body from `line_num++` on, `line` being the buffer. -/
def process_line (env : cfg_env) (line : List Char) (st : parse_state) : parse_state :=
  apply_line env { st with line_num := st.line_num + 1 } (parse_line line)

/-- The exit of the loop through `too many errors`. -/
def too_many (st : parse_state) : parse_state :=
  { st with log := st.log ++ [(st.line_num, cfg_error.too_many_errors)] }

/-- The successive results of `fgets(line, size, fp)` on the rest of a file, `cur`
being the characters of the current call so far: a call ends after a newline, after
`size - 1` characters, or at the end of the file. -/
def fgets_acc (size : Nat) : List Char → List Char → List (List Char)
  | [], cur => if cur = [] then [] else [cur]
  | c :: rest, cur =>
    if c = '\n' ∨ cur.length + 2 ≥ size then (cur ++ [c]) :: fgets_acc size rest []
    else fgets_acc size rest (cur ++ [c])

/-- The results of the calls `fgets(line, MAX_LINE_LEN, fp)` on a file. -/
def fgets_lines (content : List Char) : List (List Char) :=
  fgets_acc MAX_LINE_LEN content []

/-- The buffer after `fgets` stored `chunk` and the terminating `NUL` into it. -/
def fgets_store (chunk line : List Char) : List Char :=
  chunk ++ NUL :: line.drop (chunk.length + 1)

/-- The `while (fgets(...))` loop over the remaining results of `fgets`; `line` is
the content of the buffer. -/
def parse_loop (env : cfg_env) : List (List Char) → List Char → parse_state → parse_state
  | [], _, st => st
  | chunk :: rest, line, st =>
    if st.errors ≥ 16 then too_many st
    else parse_loop env rest (fgets_store chunk line) (process_line env (fgets_store chunk line) st)

/-- The result of a call: the final local variables (`ret` is the return value)
and the value of the static `recursion_depth` after the call. -/
structure parse_result where
  st : parse_state
  recursion_depth : Int
  deriving DecidableEq, Repr

/-- The local variables at the start of a call. -/
def parse_init : parse_state :=
  { line_num := 0, errors := 0, ret := 1, profile := none, actions := [], log := [] }

/-- The function `m_config_parse_config_file`.  `recursion_depth` is the static
counter at entry, `mem` the buffer that `malloc` returns (`none` for `NULL`) and
`file` the content of `conffile` (`none` if it cannot be opened). -/
def m_config_parse_config_file (env : cfg_env) (recursion_depth : Int)
    (mem : Option (List Char)) (file : Option (List Char)) : parse_result :=
  let st :=
    if recursion_depth > MAX_RECURSION_DEPTH then
      { parse_init with ret := -1, log := [(0, cfg_error.too_deep)] }
    else
      match mem with
      | none => { parse_init with ret := -1 }
      | some buf =>
        match file with
        | none => { parse_init with ret := 0 }
        | some content => parse_loop env (fgets_lines content) buf parse_init
  { st := st, recursion_depth := recursion_depth - 1 }

/-- The contents of the buffer after each call of `fgets`. -/
def line_buffers : List (List Char) → List Char → List (List Char)
  | [], _ => []
  | chunk :: rest, line => fgets_store chunk line :: line_buffers rest (fgets_store chunk line)

/-- What the scanning finds on each line of a file, the buffer being `buf` at first. -/
def line_results (buf content : List Char) : List line_result :=
  (line_buffers (fgets_lines content) buf).map parse_line

/-- The `while` loop as a function of what the scanning finds on each line. -/
def run_results (env : cfg_env) : List line_result → parse_state → parse_state
  | [], st => st
  | r :: rest, st =>
    if st.errors ≥ 16 then too_many st
    else run_results env rest (apply_line env { st with line_num := st.line_num + 1 } r)

/-- A line that is counted in `errors`. -/
def is_err : line_result → Bool
  | line_result.err _ => true
  | _ => false

/-- A message for a line that the scanning rejects or flags, as opposed to a
message about the outcome of a setter call. -/
def is_scan_error : cfg_error → Bool
  | cfg_error.unknown_option => false
  | cfg_error.setting_failed => false
  | _ => true

/-- The name in a profile declaration line. -/
def decl_name : line_result → Option (List Char)
  | line_result.profile_decl name => some name
  | _ => none

/-- The section that the claim assigns after the lines `rs`: the profile named by
the most recent `[name]` line, or none (the global configuration) when there is no
such line or the most recent one is `[default]`. -/
def spec_section (rs : List line_result) : Option (List Char) :=
  match (rs.filterMap decl_name).getLast? with
  | none => none
  | some name => if name = "default".toList then none else some name

/-- The assignments that the claim expects from the lines `rs` that follow the lines
`before`: every `key = value` line with the section in force at that line. -/
def spec_applied : List line_result → List line_result →
    List (Option (List Char) × List Char × List Char)
  | _, [] => []
  | before, line_result.option opt param extra :: rest =>
    (spec_section before, opt, param)
      :: spec_applied (before ++ [line_result.option opt param extra]) rest
  | before, r :: rest => spec_applied (before ++ [r]) rest

/-- The section, key and value of a setter call (`add_profile` sets nothing). -/
def assignment_of : cfg_action → Option (Option (List Char) × List Char × List Char)
  | cfg_action.add_profile _ => none
  | cfg_action.set_desc p param => some (some p, "profile-desc".toList, param)
  | cfg_action.set_profile_option p opt param => some (some p, opt, param)
  | cfg_action.set_option0 opt param => some (none, opt, param)

/-- The return value mirrors the scanning messages of the log. -/
def ret_inv (st : parse_state) : Prop :=
  st.ret = (if st.log.any (fun x => is_scan_error x.2) then -1 else 1)
    ∧ (0 < st.errors → st.ret = -1)

/-- An error that the scanning of a line can end in. -/
def scan_result_ok : line_result → Prop
  | line_result.err e => is_scan_error e = true
  | _ => True

/-- The test of the loop that reads the option name. -/
def opt_char (c : Char) : Bool :=
  isprint c && decide (c ≠ ' ') && decide (c ≠ '#') && decide (c ≠ '=')

/-- The test of the loop that reads an unquoted parameter. -/
def val_char (c : Char) : Bool :=
  isprint c && !isspace c && decide (c ≠ '#')

/-- The option name has the form of a profile declaration. -/
def is_profile_form (opt : List Char) : Prop :=
  opt.length > 2 ∧ opt.head? = some '[' ∧ opt.getLast? = some ']'

/-- A file of 16 lines that each consist of `=` (a parse error), followed by the
line `foo=bar`. -/
def sixteen_errors_then_option : List Char :=
  "=\n=\n=\n=\n=\n=\n=\n=\n=\n=\n=\n=\n=\n=\n=\n=\nfoo=bar\n".toList

/-- One physical line of 10006 characters and its newline: a comment sign, 9998
letters and the text `foo=bar`. -/
def long_comment_line : List Char :=
  '#' :: (List.replicate 9997 'x' ++ ('x' :: "foo=bar\n".toList))

/-- An environment whose setters always succeed. -/
def env_ok : cfg_env := { M_OPT_UNKNOWN := -1, set_result := fun _ _ => 1 }

/-- An environment in which every option is unknown. -/
def env_unknown : cfg_env := { M_OPT_UNKNOWN := -1, set_result := fun _ _ => -1 }

/-- The layout of 8 bit planar YUV with three planes and the chroma shifts `w`, `h`. -/
def layout_yuv_planar8 (w h : Nat) : AVPixFmtDescriptor :=
  { comp := [⟨0, 0, 7⟩, ⟨1, 0, 7⟩, ⟨2, 0, 7⟩], log2_chroma_w := w, log2_chroma_h := h,
    flag_BE := false, flag_BITSTREAM := false, flag_HWACCEL := false,
    flag_RGB := false, flag_ALPHA := false }

/-- The index `sn` of `get_xv_buffer`: the plane of the XvImage from which plane `n`
of the returned image takes its pointer and stride. -/
def get_xv_buffer_sn (ctx : xvctx) (n : Nat) : Nat :=
  let swapuv : Bool := decide (ctx.xv_format = MP_FOURCC_YV12)
  if n > 0 ∧ swapuv = true then (if n = 1 then 2 else 1) else n

/-- The plane loop of `get_xv_buffer`: the source plane of each plane
`n < img.num_planes`, where `mp_image_setfmt` takes `num_planes` from the descriptor
of `image_format`. -/
def get_xv_buffer_planes (E : pixfmt_env) (ctx : xvctx) : List Nat :=
  (List.range (mp_imgfmt_get_desc E ctx.image_format).num_planes.toNat).map
    (get_xv_buffer_sn ctx)

/-- The slot indices that one call uses to access the pool: the argument that
`draw_image`, `draw_osd`, `redraw_frame` and `get_screenshot` pass to
`get_xv_buffer` (which reads `xvimage[buf_index]`), and the index into `xvimage[]`
in `flip_page`. -/
def slots_used (ctx : xvctx) : xv_op → List Int
  | .op_config _ _ _ => []
  | .op_draw_image => [ctx.current_buf]
  | .op_draw_osd => [ctx.current_buf]
  | .op_flip_page => [ctx.current_buf]
  | .op_redraw_frame => [ctx.visible_buf]
  | .op_get_screenshot => [ctx.visible_buf]

/-- The slot indices used by a sequence of calls, in the order of use. -/
def xv_run_slots (ctx : xvctx) : List xv_op → List Int
  | [] => []
  | o :: rest => slots_used ctx o ++ xv_run_slots (xv_step ctx o) rest

/-- A slot index that lies in `[0, num_buffers)`. -/
def slot_in_range (ctx : xvctx) (i : Int) : Bool :=
  decide (0 ≤ i) && decide (i < ctx.num_buffers)

/-- A file whose first line is a comment that ends in a double quote, and whose
second line opens a quoted value without closing it. -/
def unterminated_quote_after_comment : List Char :=
  [ '#', '2', '3', '4', '5', '6', '7', '8', DQUOTE, '\n', 'k', '=', DQUOTE, 'v', '\n' ]

/-- A file that consists of the line with the unterminated quoted value alone. -/
def unterminated_quote_alone : List Char :=
  [ 'k', '=', DQUOTE, 'v', '\n' ]

/-- A file that consists of the line `foo=bar baz`. -/
def option_with_extra_characters : List Char := "foo=bar baz\n".toList

/-! ## `demux/demux_lavf.c` -/

/-- What `handle_stream` takes from libavutil and libavcodec for the codec tag of a
video stream: the macro `MKTAG`, the constants `PIX_FMT_RGB24`, `PIX_FMT_BGR24` and
`CODEC_ID_RAWVIDEO`, and the functions `avcodec_pix_fmt_to_codec_tag` and
`mp_taglist_video`. -/
structure lavf_env where
  MKTAG : Nat → Char → Char → Char → Nat
  PIX_FMT_RGB24 : Nat
  PIX_FMT_BGR24 : Nat
  CODEC_ID_RAWVIDEO : Nat
  avcodec_pix_fmt_to_codec_tag : Nat → Nat
  mp_taglist_video : Nat → Nat

/-- The statement under `case PIX_FMT_RGB24:` of the switch in `handle_stream`. -/
def case_PIX_FMT_RGB24 (L : lavf_env) (_codec_tag : Nat) : Nat := L.MKTAG 24 'B' 'G' 'R'

/-- The statement under `case PIX_FMT_BGR24:` of the switch in `handle_stream`. -/
def case_PIX_FMT_BGR24 (L : lavf_env) (_codec_tag : Nat) : Nat := L.MKTAG 24 'R' 'G' 'B'

/-- The `switch (codec->pix_fmt)` of `handle_stream`: control enters at the matching
label and runs to the end of the switch, as no case ends in `break`. -/
def switch_pix_fmt (L : lavf_env) (pix_fmt codec_tag : Nat) : Nat :=
  if pix_fmt = L.PIX_FMT_RGB24 then
    case_PIX_FMT_BGR24 L (case_PIX_FMT_RGB24 L codec_tag)
  else if pix_fmt = L.PIX_FMT_BGR24 then case_PIX_FMT_BGR24 L codec_tag
  else codec_tag

/-- The value of `codec->codec_tag` (an `unsigned int`) after the video case of
`handle_stream`, from `codec_id`, `pix_fmt` and the tag the demuxer found. -/
def handle_stream_codec_tag (L : lavf_env) (codec_id pix_fmt codec_tag : Nat) : Nat :=
  if codec_id = L.CODEC_ID_RAWVIDEO then
    let tag := switch_pix_fmt L pix_fmt codec_tag
    if tag = 0 then L.avcodec_pix_fmt_to_codec_tag pix_fmt else tag
  else if codec_tag = 0 then
    let tag := L.mp_taglist_video codec_id
    if tag = 0 then 0xFFFFFFFF else tag
  else codec_tag

/-- An environment with the macro `MKTAG` as libavutil defines it
(`a | b << 8 | c << 16 | d << 24`) and distinct values for the constants. -/
def sample_lavf_env : lavf_env :=
  { MKTAG := fun a b c d => a + b.toNat * 256 + c.toNat * 65536 + d.toNat * 16777216,
    PIX_FMT_RGB24 := 2, PIX_FMT_BGR24 := 3, CODEC_ID_RAWVIDEO := 14,
    avcodec_pix_fmt_to_codec_tag := fun _ => 0,
    mp_taglist_video := fun _ => 0 }

/-- The loop of `demux_lavf_control` that looks for the current stream:
`pstreams` from index `i` on; the index of the first entry equal to `ds->id`, or -1. -/
def curridx_from : List Int → Int → Nat → Int
  | [], _, _ => -1
  | s :: rest, ds_id, i => if s = ds_id then (i : Int) else curridx_from rest ds_id (i + 1)

/-- The value of `curridx` after the loop. -/
def curridx (pstreams : List Int) (ds_id : Int) : Int := curridx_from pstreams ds_id 0

/-- The cases `DEMUXER_CTRL_SWITCH_AUDIO` and `DEMUXER_CTRL_SWITCH_VIDEO` of
`demux_lavf_control`: `pstreams` is the stream table of the kind (`nstreams` its
length), `ds_id` the field `ds->id` and `id` the value of `*arg` at entry.  The
result is `ds->id` and `*arg` after the call. -/
def demux_lavf_control_switch (pstreams : List Int) (ds_id id : Int) : Int × Int :=
  let nstreams : Int := pstreams.length
  let c := curridx pstreams ds_id
  let sel : Int × Int :=
    if id = -1 then
      let i := Int.tmod (c + 2) (nstreams + 1) - 1
      (i, if i ≥ 0 then pstreams.getD i.toNat 0 else -2)
    else if id ≥ 0 ∧ id < nstreams then (id, pstreams.getD id.toNat 0)
    else (-1, -2)
  if sel.1 = c then (ds_id, if c < 0 then -2 else c)
  else (sel.2, if sel.1 < 0 then -2 else sel.1)

/-- The field `ds->id` after a switch request with the argument -1 (`next track`). -/
def next_track (pstreams : List Int) (ds_id : Int) : Int :=
  (demux_lavf_control_switch pstreams ds_id (-1)).1

/-- The value of `ds->id` for the selection of rank `k`: no track (-2) for `k = 0`,
the stream `pstreams[k - 1]` otherwise. -/
def ds_of (pstreams : List Int) (k : Nat) : Int :=
  if k = 0 then -2 else pstreams.getD (k - 1) 0

/-- A table of three audio streams, the streams 1, 3 and 4 of the file. -/
def sample_astreams : List Int := [1, 3, 4]

/-! ## `video/filter/vf_mirror.c` -/

/-- The store `p[a] = v` into a plane; a plane is the function from the byte offset
(relative to the plane pointer) to the byte. -/
def mem_set (m : Int → Nat) (a : Int) (v : Nat) : Int → Nat :=
  fun i => if i = a then v else m i

/-- A sequence of byte stores, first store first. -/
def store (m : Int → Nat) (ws : List (Int × Nat)) : Int → Nat :=
  ws.foldl (fun m w => mem_set m w.1 w.2) m

/-- The stores of a copy of `n` bytes from `src + so` to `dst + d`: a byte
assignment for `n = 1`, the `short` assignment for `n = 2`, the three byte
assignments of `case 3`, the `int` assignment for `n = 4`. -/
def copy_bytes (src : Int → Nat) (d so : Int) (n : Nat) : List (Int × Nat) :=
  (List.range n).map (fun (j : Nat) => (d + (j : Int), src (so + (j : Int))))

/-- The number of rounds of the loop over `x` in `mirror`: `w2 = w >> 1` for the
packed formats UYVY and YUYV of `case 2`, `w` otherwise. -/
def mirror_count (w bpp fmt : Nat) : Nat :=
  if bpp = 2 ∧ (fmt = IMGFMT_UYVY ∨ fmt = IMGFMT_YUYV) then w >>> 1 else w

/-- The stores of round `x` of the loop over `x` in `mirror`, `d` and `s` being the
offsets of the row in `dst` and `src`; no store for a `bpp` without a case. -/
def mirror_body (src : Int → Nat) (d s : Int) (w bpp fmt x : Nat) : List (Int × Nat) :=
  match bpp with
  | 1 => copy_bytes src (d + x) (s + ((w : Int) - x - 1)) 1
  | 2 =>
    if fmt = IMGFMT_UYVY then
      let w2 : Int := ((w >>> 1 : Nat) : Int)
      [ (d + (x * 4 + 0), src (s + (0 + (w2 - x - 1) * 4))),
        (d + (x * 4 + 1), src (s + (3 + (w2 - x - 1) * 4))),
        (d + (x * 4 + 2), src (s + (2 + (w2 - x - 1) * 4))),
        (d + (x * 4 + 3), src (s + (1 + (w2 - x - 1) * 4))) ]
    else if fmt = IMGFMT_YUYV then
      let w2 : Int := ((w >>> 1 : Nat) : Int)
      [ (d + (x * 4 + 0), src (s + (2 + (w2 - x - 1) * 4))),
        (d + (x * 4 + 1), src (s + (1 + (w2 - x - 1) * 4))),
        (d + (x * 4 + 2), src (s + (0 + (w2 - x - 1) * 4))),
        (d + (x * 4 + 3), src (s + (3 + (w2 - x - 1) * 4))) ]
    else copy_bytes src (d + x * 2) (s + ((w : Int) - x - 1) * 2) 2
  | 3 => copy_bytes src (d + x * 3) (s + ((w : Int) - x - 1) * 3) 3
  | 4 => copy_bytes src (d + x * 4) (s + ((w : Int) - x - 1) * 4) 4
  | _ => []

/-- One round of the loop over `y` in `mirror`: the row at the offsets `d`, `s`. -/
def mirror_row (dst src : Int → Nat) (d s : Int) (w bpp fmt : Nat) : Int → Nat :=
  (List.range (mirror_count w bpp fmt)).foldl
    (fun m x => store m (mirror_body src d s w bpp fmt x)) dst

/-- The function `mirror`: the plane `dst` after the call.  In round `y` the
pointers `dst` and `src` have been advanced `y` times by the strides. -/
def mirror (dst src : Int → Nat) (dststride srcstride : Int) (w h bpp fmt : Nat) :
    Int → Nat :=
  (List.range h).foldl
    (fun m (y : Nat) => mirror_row m src (y * dststride) (y * srcstride) w bpp fmt) dst

/-- The fields of `struct mp_image` that `filter` reads or writes. -/
structure mp_image where
  flags : Nat
  bpp : Nat
  imgfmt : Nat
  w : Nat
  h : Nat
  planes : Nat → Int → Nat
  stride : Nat → Int
  chroma_x_shift : Nat
  chroma_y_shift : Nat

/-- The function `filter` of the mirror filter; `dmpi` is the image that
`vf_alloc_out_image` and `mp_image_copy_attributes` deliver, `mpi` the input. -/
def filter (dmpi mpi : mp_image) : mp_image :=
  if mpi.flags &&& MP_IMGFLAG_PLANAR ≠ 0 then
    let p0 := mirror (dmpi.planes 0) (mpi.planes 0) (dmpi.stride 0) (mpi.stride 0)
      dmpi.w dmpi.h 1 mpi.imgfmt
    let p1 := mirror (dmpi.planes 1) (mpi.planes 1) (dmpi.stride 1) (mpi.stride 1)
      (dmpi.w >>> mpi.chroma_x_shift) (dmpi.h >>> mpi.chroma_y_shift) 1 mpi.imgfmt
    let p2 := mirror (dmpi.planes 2) (mpi.planes 2) (dmpi.stride 2) (mpi.stride 2)
      (dmpi.w >>> mpi.chroma_x_shift) (dmpi.h >>> mpi.chroma_y_shift) 1 mpi.imgfmt
    { dmpi with planes := fun p =>
        if p = 0 then p0 else if p = 1 then p1 else if p = 2 then p2 else dmpi.planes p }
  else
    let p0 := mirror (dmpi.planes 0) (mpi.planes 0) (dmpi.stride 0) (mpi.stride 0)
      dmpi.w dmpi.h (dmpi.bpp >>> 3) mpi.imgfmt
    { dmpi with planes := fun p => if p = 0 then p0 else dmpi.planes p }

/-- A row of two YUYV pixels: the bytes Y0 = 1, U = 2, Y1 = 3, V = 4. -/
def yuyv_row : Int → Nat := fun i =>
  if i = 0 then 1 else if i = 1 then 2 else if i = 2 then 3 else if i = 3 then 4 else 0

/-- A row of three gray pixels of one byte: 10, 20, 30. -/
def gray_row : Int → Nat := fun i =>
  if i = 0 then 10 else if i = 1 then 20 else if i = 2 then 30 else 0

/-- A row of two RGB pixels of three bytes: (1, 2, 3) and (4, 5, 6). -/
def rgb_row : Int → Nat := fun i =>
  if i = 0 then 1 else if i = 1 then 2 else if i = 2 then 3
  else if i = 3 then 4 else if i = 4 then 5 else if i = 5 then 6 else 0

/-- An image of one row of `w` pixels of `bpp` bits in the packed format `imgfmt`
(not flagged planar), with the bytes `row` in plane 0. -/
def packed_image (imgfmt bpp w : Nat) (stride : Int) (row : Int → Nat) : mp_image :=
  { flags := 0, bpp := bpp, imgfmt := imgfmt, w := w, h := 1,
    planes := fun p => if p = 0 then row else fun _ => 0,
    stride := fun _ => stride, chroma_x_shift := 0, chroma_y_shift := 0 }

/-- A layout with two planes of 64 bits per pixel, the planes 0 and 3. -/
def layout_two_wide_planes : AVPixFmtDescriptor :=
  { comp := [⟨0, 7, 15⟩, ⟨3, 7, 15⟩], log2_chroma_w := 0, log2_chroma_h := 0,
    flag_BE := false, flag_BITSTREAM := false, flag_HWACCEL := false,
    flag_RGB := false, flag_ALPHA := false }

/-! ## Theorems : the Xv driver -/

theorem config_ok_fields (ctx : xvctx) (w h f : Nat) (hok : (config ctx w h f).2 = 0) :
    (config ctx w h f).1.current_buf = 0 ∧ (config ctx w h f).1.visible_buf = -1
      ∧ (config ctx w h f).1.num_buffers = 2 := by
  unfold config at hok ⊢
  simp only at hok ⊢
  split_ifs at hok ⊢ with h1 h2
  · simp at hok
  · simp at hok
  · simp

theorem flip_iterate (s : xvctx) (h0 : s.current_buf = 0) (h2 : s.num_buffers = 2) (n : Nat) :
    (flip_page^[n] s).num_buffers = 2
      ∧ (flip_page^[n] s).current_buf = ((n % 2 : Nat) : Int)
      ∧ (1 ≤ n → (flip_page^[n] s).visible_buf = (((n - 1) % 2 : Nat) : Int)) := by
  induction n with
  | zero => simp [h0, h2]
  | succ k ih =>
    obtain ⟨ihn, ihc, _⟩ := ih
    rw [Function.iterate_succ_apply']
    refine ⟨by simp [flip_page, ihn], ?_, fun _ => by simp [flip_page, ihc]⟩
    simp only [flip_page, ihn, ihc]
    rcases Nat.mod_two_eq_zero_or_one k with hk | hk
    · have : (k + 1) % 2 = 1 := by omega
      rw [hk, this]; decide
    · have : (k + 1) % 2 = 0 := by omega
      rw [hk, this]; decide

/-- C1: after a successful `config`, `n ≥ 1` calls of `flip_page` with nothing in
between leave `visible_buf = (n-1) mod 2` and `current_buf = n mod 2`; three
presents show the slots 0, 1, 0. -/
theorem C1_flip_page_round_robin (ctx : xvctx) (w h f n : Nat)
    (hok : (config ctx w h f).2 = 0) (hn : 1 ≤ n) :
    (flip_page^[n] (config ctx w h f).1).visible_buf = (((n - 1) % 2 : Nat) : Int)
      ∧ (flip_page^[n] (config ctx w h f).1).current_buf = ((n % 2 : Nat) : Int)
      ∧ [1, 2, 3].map (fun k => (flip_page^[k] (config ctx w h f).1).visible_buf)
          = [0, 1, 0] := by
  obtain ⟨hc, _, hb⟩ := config_ok_fields ctx w h f hok
  have key := flip_iterate (config ctx w h f).1 hc hb
  refine ⟨(key n).2.2 hn, (key n).2.1, ?_⟩
  have k1 := (key 1).2.2 (by decide)
  have k2 := (key 2).2.2 (by decide)
  have k3 := (key 3).2.2 (by decide)
  simp only [List.map, k1, k2, k3]
  decide

theorem C1_flip_page_round_robin_witness :
    (config (preinit_ctx [MP_FOURCC_YV12] 0 0) 640 480 IMGFMT_420P).2 = 0 ∧ 1 ≤ 5
    ∧ (flip_page^[5] (config (preinit_ctx [MP_FOURCC_YV12] 0 0) 640 480 IMGFMT_420P).1).visible_buf
        = (((5 - 1) % 2 : Nat) : Int) :=
  ⟨by decide, by decide,
   (C1_flip_page_round_robin (preinit_ctx [MP_FOURCC_YV12] 0 0) 640 480 IMGFMT_420P 5
      (by decide) (by decide)).1⟩

theorem xv_inv_config_ok (ctx : xvctx) (w h f : Nat) (hok : (config ctx w h f).2 = 0) :
    xv_inv (config ctx w h f).1 := by
  obtain ⟨hc, hv, hb⟩ := config_ok_fields ctx w h f hok
  exact ⟨hb, Or.inr (Or.inl hc), Or.inl hv⟩

theorem xv_inv_step (s : xvctx) (op : xv_op) (hs : xv_inv s) : xv_inv (xv_step s op) := by
  obtain ⟨hb, hc, hv⟩ := hs
  cases op with
  | op_config w h f =>
    simp only [xv_step, config]
    split_ifs
    · exact ⟨hb, hc, hv⟩
    · exact ⟨hb, hc, Or.inl rfl⟩
    · exact ⟨rfl, Or.inr (Or.inl rfl), Or.inl rfl⟩
  | op_draw_image => exact ⟨hb, hc, hv⟩
  | op_draw_osd => exact ⟨hb, hc, hv⟩
  | op_get_screenshot => exact ⟨hb, hc, hv⟩
  | op_redraw_frame => exact ⟨hb, hv, hv⟩
  | op_flip_page =>
    refine ⟨hb, ?_, hc⟩
    show Int.tmod (s.current_buf + 1) s.num_buffers = -1
      ∨ Int.tmod (s.current_buf + 1) s.num_buffers = 0
      ∨ Int.tmod (s.current_buf + 1) s.num_buffers = 1
    rw [hb]
    rcases hc with h | h | h <;> rw [h] <;> decide

theorem xv_run_snoc (s : xvctx) (ops : List xv_op) (op : xv_op) :
    xv_run s (ops ++ [op]) = xv_step (xv_run s ops) op := by
  simp [xv_run, List.foldl_append]

theorem xv_inv_run (s : xvctx) (ops : List xv_op) (hs : xv_inv s) : xv_inv (xv_run s ops) := by
  induction ops using List.reverseRecOn with
  | nil => exact hs
  | append_singleton l a ih => rw [xv_run_snoc]; exact xv_inv_step _ _ ih

theorem since_flip_snoc (ops : List xv_op) (op : xv_op) :
    since_flip (ops ++ [op])
      = if op = xv_op.op_flip_page then [] else op :: since_flip ops := by
  by_cases h : op = xv_op.op_flip_page <;> simp [since_flip, List.takeWhile, h]

theorem no_config_snoc (ops : List xv_op) (op : xv_op) (h : no_config (ops ++ [op]) = true) :
    no_config ops = true ∧ no_config [op] = true := by
  induction ops with
  | nil => exact ⟨rfl, by simpa using h⟩
  | cons a l ih => cases a <;> simp_all [no_config]

theorem flip_page_separates (s : xvctx) (hs : xv_inv s) :
    (flip_page s).current_buf ≠ (flip_page s).visible_buf := by
  obtain ⟨hb, hc, _⟩ := hs
  show Int.tmod (s.current_buf + 1) s.num_buffers ≠ s.current_buf
  rw [hb]
  rcases hc with h | h | h <;> rw [h] <;> decide

theorem write_slot_free_run (s : xvctx) (ops : List xv_op) (hs : xv_inv s)
    (hd : s.current_buf ≠ s.visible_buf) (hc : no_config ops = true)
    (hr : no_redraw_since_flip ops = true) :
    (xv_run s ops).current_buf ≠ (xv_run s ops).visible_buf := by
  induction ops using List.reverseRecOn with
  | nil => exact hd
  | append_singleton l a ih =>
    obtain ⟨hcl, hca⟩ := no_config_snoc l a hc
    rw [xv_run_snoc]
    have hinv := xv_inv_run s l hs
    simp only [no_redraw_since_flip, since_flip_snoc] at hr
    cases a with
    | op_config w h f => simp [no_config] at hca
    | op_flip_page => exact flip_page_separates _ hinv
    | op_redraw_frame => simp at hr
    | op_draw_image =>
      exact ih hcl (by simpa [no_redraw_since_flip] using hr)
    | op_draw_osd =>
      exact ih hcl (by simpa [no_redraw_since_flip] using hr)
    | op_get_screenshot =>
      exact ih hcl (by simpa [no_redraw_since_flip] using hr)

/-- C2 (as stated, refuted): after a successful `config`, the calls `flip_page`,
`redraw_frame` lead to a state in which the slot written by `draw_image` and
`draw_osd` is the slot on screen. -/
theorem C2_counterexample :
    (config (preinit_ctx [MP_FOURCC_YV12] 0 0) 640 480 IMGFMT_420P).2 = 0
      ∧ no_config [xv_op.op_flip_page, xv_op.op_redraw_frame] = true
      ∧ write_slot (xv_run (config (preinit_ctx [MP_FOURCC_YV12] 0 0) 640 480 IMGFMT_420P).1
            [xv_op.op_flip_page, xv_op.op_redraw_frame])
          = (xv_run (config (preinit_ctx [MP_FOURCC_YV12] 0 0) 640 480 IMGFMT_420P).1
            [xv_op.op_flip_page, xv_op.op_redraw_frame]).visible_buf := by
  decide

/-- C2 (amended): in every state reached from a successful `config` through calls
of `draw_image`, `draw_osd`, `flip_page`, `redraw_frame` and `get_screenshot` in
which no `redraw_frame` was called after the last `flip_page`, the slot written by
`draw_image` and `draw_osd` differs from the slot on screen; `redraw_frame` itself
makes the two equal. -/
theorem C2_write_slot_not_visible (ctx : xvctx) (w h f : Nat) (ops : List xv_op)
    (hok : (config ctx w h f).2 = 0) (hc : no_config ops = true)
    (hr : no_redraw_since_flip ops = true) :
    write_slot (xv_run (config ctx w h f).1 ops)
        ≠ (xv_run (config ctx w h f).1 ops).visible_buf
      ∧ write_slot (redraw_frame (xv_run (config ctx w h f).1 ops))
        = (redraw_frame (xv_run (config ctx w h f).1 ops)).visible_buf := by
  refine ⟨?_, rfl⟩
  obtain ⟨h0, hv, _⟩ := config_ok_fields ctx w h f hok
  exact write_slot_free_run _ ops (xv_inv_config_ok ctx w h f hok)
    (by rw [h0, hv]; decide) hc hr

theorem C2_write_slot_not_visible_witness :
    (config (preinit_ctx [MP_FOURCC_YV12] 0 0) 640 480 IMGFMT_420P).2 = 0
      ∧ no_config [xv_op.op_draw_image, xv_op.op_redraw_frame, xv_op.op_flip_page,
          xv_op.op_draw_osd] = true
      ∧ no_redraw_since_flip [xv_op.op_draw_image, xv_op.op_redraw_frame,
          xv_op.op_flip_page, xv_op.op_draw_osd] = true
      ∧ write_slot (xv_run (config (preinit_ctx [MP_FOURCC_YV12] 0 0) 640 480 IMGFMT_420P).1
            [xv_op.op_draw_image, xv_op.op_redraw_frame, xv_op.op_flip_page, xv_op.op_draw_osd])
          ≠ (xv_run (config (preinit_ctx [MP_FOURCC_YV12] 0 0) 640 480 IMGFMT_420P).1
            [xv_op.op_draw_image, xv_op.op_redraw_frame, xv_op.op_flip_page,
              xv_op.op_draw_osd]).visible_buf :=
  ⟨by decide, by decide, by decide,
   (C2_write_slot_not_visible (preinit_ctx [MP_FOURCC_YV12] 0 0) 640 480 IMGFMT_420P
      [xv_op.op_draw_image, xv_op.op_redraw_frame, xv_op.op_flip_page, xv_op.op_draw_osd]
      (by decide) (by decide) (by decide)).1⟩

/-- C3 (as stated, refuted): `redraw_frame`, also when reached through
`control(VOCTRL_REDRAW_FRAME)`, changes `current_buf`: after `config` and one
`flip_page` it moves `current_buf` from 1 to 0. -/
theorem C3_counterexample :
    (config (preinit_ctx [MP_FOURCC_YV12] 0 0) 640 480 IMGFMT_420P).2 = 0
      ∧ (flip_page (config (preinit_ctx [MP_FOURCC_YV12] 0 0) 640 480 IMGFMT_420P).1).current_buf
          = 1
      ∧ (redraw_frame
          (flip_page (config (preinit_ctx [MP_FOURCC_YV12] 0 0) 640 480 IMGFMT_420P).1)).current_buf
          = 0
      ∧ (control (flip_page (config (preinit_ctx [MP_FOURCC_YV12] 0 0) 640 480 IMGFMT_420P).1)
          voctrl.VOCTRL_REDRAW_FRAME).current_buf = 0 := by
  decide

/-- C3 (amended): `current_buf` is changed only by `flip_page` (advance by one mod
`num_buffers`), by a successful `config` (reset to 0) and by `redraw_frame`, also
as `control(VOCTRL_REDRAW_FRAME)` (set to `visible_buf`); `draw_image`,
`draw_osd`, `get_screenshot`, `resize`, `check_events`, a failing `config` and
every other `control` request leave it unchanged. -/
theorem C3_current_buf_frame (ctx : xvctx) (w h f : Nat) (e : Bool) (req : voctrl) :
    (draw_image ctx).current_buf = ctx.current_buf
      ∧ (draw_osd ctx).current_buf = ctx.current_buf
      ∧ (get_screenshot ctx).current_buf = ctx.current_buf
      ∧ (resize ctx).current_buf = ctx.current_buf
      ∧ (check_events ctx e).current_buf = ctx.current_buf
      ∧ (control ctx req).current_buf
          = (if req = voctrl.VOCTRL_REDRAW_FRAME then ctx.visible_buf else ctx.current_buf)
      ∧ (redraw_frame ctx).current_buf = ctx.visible_buf
      ∧ (flip_page ctx).current_buf = Int.tmod (ctx.current_buf + 1) ctx.num_buffers
      ∧ (config ctx w h f).1.current_buf
          = (if (config ctx w h f).2 = 0 then 0 else ctx.current_buf) := by
  refine ⟨rfl, rfl, rfl, rfl, ?_, ?_, rfl, rfl, ?_⟩
  · cases e <;> rfl
  · cases req <;> simp [control, resize, redraw_frame, get_screenshot]
  · unfold config
    simp only
    split_ifs <;> simp_all

/-- C4: in every state reached after a successful `config` through calls of
`config` (successful or failing), `draw_image`, `draw_osd`, `flip_page`,
`redraw_frame` and `get_screenshot`, `visible_buf` is -1 or a slot index in
`[0, num_buffers)` with `num_buffers = 2`, and it is -1 right after every
successful `config`. -/
theorem C4_visible_buf_valid (ctx : xvctx) (w h f : Nat) (ops : List xv_op)
    (hok : (config ctx w h f).2 = 0) :
    ((xv_run (config ctx w h f).1 ops).visible_buf = -1
        ∨ (0 ≤ (xv_run (config ctx w h f).1 ops).visible_buf
            ∧ (xv_run (config ctx w h f).1 ops).visible_buf
                < (xv_run (config ctx w h f).1 ops).num_buffers))
      ∧ (xv_run (config ctx w h f).1 ops).num_buffers = 2
      ∧ (config ctx w h f).1.visible_buf = -1
      ∧ ∀ w2 h2 f2, (config (xv_run (config ctx w h f).1 ops) w2 h2 f2).2 = 0 →
          (config (xv_run (config ctx w h f).1 ops) w2 h2 f2).1.visible_buf = -1 := by
  obtain ⟨hb, _, hv⟩ := xv_inv_run _ ops (xv_inv_config_ok ctx w h f hok)
  refine ⟨?_, hb, (config_ok_fields ctx w h f hok).2.1,
    fun w2 h2 f2 h2ok => (config_ok_fields _ w2 h2 f2 h2ok).2.1⟩
  rw [hb]
  rcases hv with h1 | h1 | h1 <;> rw [h1] <;> decide

theorem C4_visible_buf_valid_witness :
    (config (preinit_ctx [MP_FOURCC_YV12] 100 100) 64 48 IMGFMT_420P).2 = 0
      ∧ (xv_run (config (preinit_ctx [MP_FOURCC_YV12] 100 100) 64 48 IMGFMT_420P).1
          [xv_op.op_flip_page, xv_op.op_config 640 480 IMGFMT_420P,
           xv_op.op_redraw_frame, xv_op.op_flip_page]).num_buffers = 2 :=
  ⟨by decide,
   (C4_visible_buf_valid (preinit_ctx [MP_FOURCC_YV12] 100 100) 64 48 IMGFMT_420P
      [xv_op.op_flip_page, xv_op.op_config 640 480 IMGFMT_420P,
       xv_op.op_redraw_frame, xv_op.op_flip_page] (by decide)).2.1⟩

theorem config_scan_eq (format : Nat) (l : List Nat) (xv : Nat) :
    config_scan format l xv
      = if find_xv_format format ∈ l then find_xv_format format else xv := by
  induction l generalizing xv with
  | nil => simp [config_scan]
  | cons a l ih =>
    rw [config_scan, ih]
    by_cases h1 : find_xv_format format ∈ l
    · simp [h1]
    · by_cases h2 : a = find_xv_format format
      · simp [h1, h2]
      · have h3 : ¬ find_xv_format format = a := fun h => h2 h.symm
        simp [h1, h2, h3]

/-- What the negotiation of `config` and `query_format` does decide on: both accept
a format exactly when the fourcc of its first `fmt_table` entry is advertised. -/
theorem negotiation_first_entry (ctx : xvctx) (format : Nat) :
    (config_scan format ctx.fo 0 ≠ 0
        ↔ find_xv_format format ≠ 0 ∧ find_xv_format format ∈ ctx.fo)
      ∧ (query_format ctx format = true
        ↔ find_xv_format format ≠ 0 ∧ find_xv_format format ∈ ctx.fo) := by
  constructor
  · rw [config_scan_eq]
    by_cases h : find_xv_format format ∈ ctx.fo <;> simp [h]
  · unfold query_format
    by_cases h0 : find_xv_format format = 0
    · simp [h0]
    · simp only [h0, ne_eq, not_false_eq_true, if_true, List.any_eq_true, decide_eq_true_eq,
        true_and]
      constructor
      · rintro ⟨x, hx, rfl⟩; exact hx
      · intro h; exact ⟨_, h, rfl⟩

/-- C5 (the code at the failing input): `fmt_table` pairs `IMGFMT_420P` with the
fourcc `I420` and the port advertises `I420` (not `YV12`), yet `find_xv_format`
answers `YV12`, `config` returns -1 with `xv_format = 0`, and `query_format`
reports the format as unsupported. -/
theorem C5_i420_only_rejected :
    (⟨IMGFMT_420P, MP_FOURCC_I420⟩ : fmt_entry) ∈ fmt_table
      ∧ MP_FOURCC_I420 ∈ (preinit_ctx [MP_FOURCC_I420] 0 0).fo
      ∧ find_xv_format IMGFMT_420P = MP_FOURCC_YV12
      ∧ (config (preinit_ctx [MP_FOURCC_I420] 0 0) 640 480 IMGFMT_420P).2 = -1
      ∧ (config (preinit_ctx [MP_FOURCC_I420] 0 0) 640 480 IMGFMT_420P).1.xv_format = 0
      ∧ query_format (preinit_ctx [MP_FOURCC_I420] 0 0) IMGFMT_420P = false := by
  decide

/-- C6 (as stated, refuted): with `max_width = 100` set, `max_height = 0` not set
and a requested width of 200, `config` does not return -1. -/
theorem C6_counterexample :
    (preinit_ctx [MP_FOURCC_YV12] 100 0).max_width ≠ 0
      ∧ 200 > (preinit_ctx [MP_FOURCC_YV12] 100 0).max_width
      ∧ (config (preinit_ctx [MP_FOURCC_YV12] 100 0) 200 50 IMGFMT_420P).2 = 0 := by
  decide

/-- C6 (amended): `config` returns -1 whenever both maximum dimensions are set
(non-zero) and the requested width or height exceeds its maximum; in every other
case the dimensions are not a reason for rejection: the call returns -1 exactly
when the format negotiation leaves `xv_format = 0`, and 0 otherwise. -/
theorem C6_dimension_check (ctx : xvctx) (w h f : Nat) :
    (config ctx w h f).2
      = (if (ctx.max_width ≠ 0 ∧ ctx.max_height ≠ 0)
              ∧ (w > ctx.max_width ∨ h > ctx.max_height) then -1
         else if config_scan f ctx.fo 0 = 0 then -1 else 0) := by
  unfold config
  simp only
  split_ifs <;> rfl

/-! ## Theorems : image formats -/

theorem count_planes_eq (bpp : Nat → Int) :
    count_planes bpp = ((List.range 4).countP (fun p => decide (bpp p ≠ 0)) : Nat) := by
  have hr : List.range 4 = [0, 1, 2, 3] := by decide
  rw [hr]
  simp only [count_planes, List.foldl, List.countP_cons, List.countP_nil]
  by_cases h0 : bpp 0 = 0 <;> by_cases h1 : bpp 1 = 0 <;> by_cases h2 : bpp 2 = 0
    <;> by_cases h3 : bpp 3 = 0 <;> simp [h0, h1, h2, h3, int8]

/-- C10: for every pixel layout, the descriptor derived by `get_avutil_fmt` has
`num_planes` equal to the number of planes `p` in 0..3 with `bpp[p] != 0`. -/
theorem C10_num_planes_counts_bpp (E : pixfmt_env) (fmt : Nat) :
    (get_avutil_fmt E fmt).num_planes
      = ((List.range 4).countP (fun p => decide ((get_avutil_fmt E fmt).bpp p ≠ 0)) : Nat) := by
  unfold get_avutil_fmt
  by_cases h : E.pixfmt2imgfmt fmt = 0
  · simp [h, mp_imgfmt_desc_zero]
  · simp only [h, if_false]
    exact count_planes_eq _

theorem find_yuv_planar_in_spec (E : pixfmt_env) (xs ys planes bits : Int) (ids : List Nat)
    (hex : ∃ m ∈ ids, yuv_planar_match (mp_imgfmt_get_desc E m) xs ys planes bits = true) :
    ∃ m0 ∈ ids, yuv_planar_match (mp_imgfmt_get_desc E m0) xs ys planes bits = true
      ∧ find_yuv_planar_in E xs ys planes bits ids = (mp_imgfmt_get_desc E m0).id := by
  induction ids with
  | nil => obtain ⟨m, hm, _⟩ := hex; simp at hm
  | cons a l ih =>
    by_cases ha : yuv_planar_match (mp_imgfmt_get_desc E a) xs ys planes bits = true
    · exact ⟨a, List.mem_cons_self a l, ha, by simp [find_yuv_planar_in, ha]⟩
    · obtain ⟨m, hm, hmatch⟩ := hex
      have hml : m ∈ l := by
        rcases List.mem_cons.mp hm with h | h
        · subst h; exact absurd hmatch ha
        · exact h
      obtain ⟨m0, hm0, h1, h2⟩ := ih ⟨m, hml, hmatch⟩
      exact ⟨m0, List.mem_cons_of_mem a hm0, h1, by simp [find_yuv_planar_in, ha, h2]⟩

theorem yuv_planar_match_iff (d : mp_imgfmt_desc) (xs ys planes bits : Int) :
    yuv_planar_match d xs ys planes bits = true ↔
      d.id ≠ 0 ∧ d.flags &&& MP_IMGFLAG_YUV_P ≠ 0 ∧ d.num_planes = planes
        ∧ d.chroma_xs = xs ∧ d.chroma_ys = ys ∧ d.plane_bits = bits
        ∧ d.flags &&& MP_IMGFLAG_NE ≠ 0 := by
  simp only [yuv_planar_match, Bool.and_eq_true, decide_eq_true_eq]
  tauto

theorem get_desc_flag_id (E : pixfmt_env) (n : Nat)
    (h : (mp_imgfmt_get_desc E n).flags &&& MP_IMGFLAG_YUV_P ≠ 0) :
    (mp_imgfmt_get_desc E n).id ≠ 0 := by
  unfold mp_imgfmt_get_desc at h ⊢
  cases hp : E.imgfmt2pixfmt n with
  | none => simp [hp, mp_imgfmt_desc_zero] at h
  | some p =>
    simp only [hp] at h ⊢
    unfold get_avutil_fmt at h ⊢
    by_cases hz : E.pixfmt2imgfmt p = 0
    · simp [hz, mp_imgfmt_desc_zero] at h
    · simp [hz]

set_option maxRecDepth 1000000 in
theorem name_round_trip_all :
    ∀ big_endian : Bool, ∀ n ∈ (mp_imgfmt_list big_endian).map (fun e => e.name),
      (mp_imgfmt_to_name big_endian (mp_imgfmt_from_name big_endian n true)).map
          (fun c => mp_imgfmt_from_name big_endian c true)
        = some (mp_imgfmt_from_name big_endian n true) := by
  decide

/-- C8: for every name `n` of `mp_imgfmt_list` (hardware formats permitted), the id
of `n` has a canonical name, and that name resolves to the same id; `yv12` and
`420p` both resolve to `IMGFMT_420P`, whose canonical name is `420p`.  This holds
for either byte order of the host. -/
theorem C8_name_id_name_idempotent (big_endian : Bool) (n : String)
    (hn : n ∈ (mp_imgfmt_list big_endian).map (fun e => e.name)) :
    (mp_imgfmt_to_name big_endian (mp_imgfmt_from_name big_endian n true)).map
        (fun c => mp_imgfmt_from_name big_endian c true)
      = some (mp_imgfmt_from_name big_endian n true)
    ∧ mp_imgfmt_from_name big_endian "yv12" true = IMGFMT_420P
    ∧ mp_imgfmt_from_name big_endian "420p" true = IMGFMT_420P
    ∧ mp_imgfmt_to_name big_endian IMGFMT_420P = some "420p" := by
  refine ⟨name_round_trip_all big_endian n hn, ?_, ?_, ?_⟩
  · cases big_endian <;> decide
  · cases big_endian <;> decide
  · cases big_endian <;> decide

theorem C8_name_id_name_idempotent_witness :
    "y16" ∈ (mp_imgfmt_list false).map (fun e => e.name)
      ∧ mp_imgfmt_from_name false "y16" true = IMGFMT_Y16_LE
      ∧ mp_imgfmt_to_name false IMGFMT_Y16_LE = some "y16"
      ∧ (mp_imgfmt_to_name false (mp_imgfmt_from_name false "y16" true)).map
          (fun c => mp_imgfmt_from_name false c true)
        = some (mp_imgfmt_from_name false "y16" true) :=
  ⟨by decide, by decide, by decide,
   (C8_name_id_name_idempotent false "y16" (by decide)).1⟩

theorem casecmp_eq_zero_iff (a b : List Char) :
    casecmp a b = 0 ↔ a.map Char.toLower = b.map Char.toLower := by
  induction a generalizing b with
  | nil => cases b <;> simp [casecmp]
  | cons x xs ih =>
    cases b with
    | nil => simp [casecmp]
    | cons y ys =>
      by_cases hxy : x.toLower = y.toLower
      · simp [casecmp, hxy, ih]
      · by_cases hlt : x.toLower < y.toLower <;> simp [casecmp, hxy, hlt]

theorem from_name_in_find (l : List mp_imgfmt_entry) (name : String) (allow_hwaccel : Bool) :
    mp_imgfmt_from_name_in l name allow_hwaccel
      = match l.find? (fun p => decide (bstrcasecmp0 name p.name = 0)) with
        | none => 0
        | some p => if !allow_hwaccel && IMGFMT_IS_HWACCEL p.fmt then 0 else p.fmt := by
  induction l with
  | nil => rfl
  | cons a l ih =>
    by_cases h : bstrcasecmp0 name a.name = 0
    · simp [mp_imgfmt_from_name_in, List.find?, h]
    · simp [mp_imgfmt_from_name_in, List.find?, h, ih]

theorem from_name_in_case (l : List mp_imgfmt_entry) (name name2 : String) (allow_hwaccel : Bool)
    (h : name.toList.map Char.toLower = name2.toList.map Char.toLower) :
    mp_imgfmt_from_name_in l name2 allow_hwaccel = mp_imgfmt_from_name_in l name allow_hwaccel := by
  induction l with
  | nil => rfl
  | cons a l ih =>
    have hiff : bstrcasecmp0 name2 a.name = 0 ↔ bstrcasecmp0 name a.name = 0 := by
      simp only [bstrcasecmp0, casecmp_eq_zero_iff, h]
    by_cases h1 : bstrcasecmp0 name a.name = 0
    · simp [mp_imgfmt_from_name_in, h1, hiff.mpr h1]
    · have h2 : ¬ bstrcasecmp0 name2 a.name = 0 := fun hh => h1 (hiff.mp hh)
      simp [mp_imgfmt_from_name_in, h1, h2, ih]

theorem list_fmt_nonzero : ∀ big_endian : Bool, ∀ p ∈ mp_imgfmt_list big_endian, p.fmt ≠ 0 := by
  decide

/-- C9: `mp_imgfmt_from_name` returns the id of the first entry of
`mp_imgfmt_list` whose name equals `name` ignoring letter case (unless that id is
hardware-only and `allow_hwaccel` is false); the result is 0 exactly when no entry
matches or the first match is hardware-only with `allow_hwaccel` false; with
`allow_hwaccel` false the result is never a hardware-only id; and a name that
differs from `name` only in the case of letters gives the same result. -/
theorem C9_from_name_lookup (big_endian : Bool) (name name2 : String) (allow_hwaccel : Bool)
    (hcase : name.toList.map Char.toLower = name2.toList.map Char.toLower) :
    (∀ p : mp_imgfmt_entry, bstrcasecmp0 name p.name = 0
        ↔ name.toList.map Char.toLower = p.name.toList.map Char.toLower)
    ∧ mp_imgfmt_from_name big_endian name allow_hwaccel
        = (match (mp_imgfmt_list big_endian).find?
              (fun p => decide (bstrcasecmp0 name p.name = 0)) with
           | none => 0
           | some p => if !allow_hwaccel && IMGFMT_IS_HWACCEL p.fmt then 0 else p.fmt)
    ∧ (mp_imgfmt_from_name big_endian name allow_hwaccel = 0
        ↔ (mp_imgfmt_list big_endian).find?
              (fun p => decide (bstrcasecmp0 name p.name = 0)) = none
          ∨ ∃ p, (mp_imgfmt_list big_endian).find?
              (fun p => decide (bstrcasecmp0 name p.name = 0)) = some p
            ∧ IMGFMT_IS_HWACCEL p.fmt = true ∧ allow_hwaccel = false)
    ∧ IMGFMT_IS_HWACCEL (mp_imgfmt_from_name big_endian name false) = false
    ∧ mp_imgfmt_from_name big_endian name2 allow_hwaccel
        = mp_imgfmt_from_name big_endian name allow_hwaccel := by
  refine ⟨fun p => casecmp_eq_zero_iff _ _, from_name_in_find _ _ _, ?_, ?_,
    from_name_in_case _ _ _ _ hcase⟩
  · unfold mp_imgfmt_from_name
    rw [from_name_in_find]
    cases hf : (mp_imgfmt_list big_endian).find?
        (fun p => decide (bstrcasecmp0 name p.name = 0)) with
    | none => simp
    | some q =>
      have hq : q.fmt ≠ 0 := list_fmt_nonzero big_endian q (List.mem_of_find?_eq_some hf)
      cases allow_hwaccel <;> cases hh : IMGFMT_IS_HWACCEL q.fmt <;> simp [hh, hq]
  · unfold mp_imgfmt_from_name
    rw [from_name_in_find]
    cases hf : (mp_imgfmt_list big_endian).find?
        (fun p => decide (bstrcasecmp0 name p.name = 0)) with
    | none => simp; decide
    | some q =>
      cases hh : IMGFMT_IS_HWACCEL q.fmt
      · simp [hh]
      · simp [hh]; decide

theorem C9_from_name_lookup_witness :
    "VDPAU_h264".toList.map Char.toLower = "vdpau_H264".toList.map Char.toLower
      ∧ mp_imgfmt_from_name false "VDPAU_h264" true = IMGFMT_VDPAU_H264
      ∧ mp_imgfmt_from_name false "VDPAU_h264" false = 0
      ∧ mp_imgfmt_from_name false "vdpau_H264" true
          = mp_imgfmt_from_name false "VDPAU_h264" true :=
  ⟨by decide, by decide, by decide,
   (C9_from_name_lookup false "VDPAU_h264" "vdpau_H264" true (by decide)).2.2.2.2⟩

/-! ## Theorems : descriptor flags -/

theorem foldl_and_all (f : Nat → Bool) (l : List Nat) (b : Bool) :
    l.foldl (fun acc p => acc && f p) b = (b && l.all f) := by
  induction l generalizing b with
  | nil => simp
  | cons a l ih => simp [List.foldl, ih, Bool.and_assoc]

theorem same_depth_iff (bpp pdp : Nat → Int) (n : Int) :
    same_depth bpp pdp n = true ↔
      ∀ p : Nat, (p : Int) < n → pdp p = pdp 0 ∧ bpp p = bpp 0 := by
  unfold same_depth
  rw [foldl_and_all (fun p => decide (pdp p = pdp 0) && decide (bpp p = bpp 0))]
  simp only [Bool.true_and, List.all_eq_true, List.mem_range, Bool.and_eq_true,
    decide_eq_true_eq]
  constructor
  · intro h p hp; exact h p (by omega)
  · intro h p hp; exact h p (by omega)

theorem comp_step_bpp_ne (el : Int) (hel : el = 1 ∨ el = 8)
    (st : (Nat → Int) × (Nat → Int)) (d : AVComponentDescriptor) :
    (comp_step el st d).1 d.plane.val ≠ 0
      ∧ ∀ p, st.1 p ≠ 0 → (comp_step el st d).1 p ≠ 0 := by
  have hs := d.step_minus1.isLt
  have hv : int8 ((d.step_minus1.val + 1) * el) ≠ 0 := by
    unfold int8
    rcases hel with h | h <;> subst h <;> omega
  unfold comp_step
  constructor
  · by_cases h : st.1 d.plane.val = 0
    · simp [h, arr_set, hv]
    · simp [h]
  · intro p hp
    by_cases h : st.1 d.plane.val = 0
    · simp only [h, if_true, arr_set]
      by_cases hpe : p = d.plane.val
      · subst hpe; exact absurd h hp
      · simp [hpe, hp]
    · simp [h, hp]

theorem foldl_comp_step_bpp_ne (el : Int) (hel : el = 1 ∨ el = 8)
    (l : List AVComponentDescriptor) (st : (Nat → Int) × (Nat → Int)) :
    (∀ p, st.1 p ≠ 0 → (l.foldl (comp_step el) st).1 p ≠ 0)
      ∧ ∀ d ∈ l, (l.foldl (comp_step el) st).1 d.plane.val ≠ 0 := by
  induction l generalizing st with
  | nil => simp
  | cons a l ih =>
    obtain ⟨h1, h2⟩ := comp_step_bpp_ne el hel st a
    obtain ⟨i1, i2⟩ := ih (comp_step el st a)
    refine ⟨fun p hp => i1 p (h2 p hp), ?_⟩
    intro d hd
    rcases List.mem_cons.mp hd with h | h
    · subst h; exact i1 _ h1
    · exact i2 d h

theorem comp_loop_bpp_ne (pd : AVPixFmtDescriptor) (d : AVComponentDescriptor)
    (hd : d ∈ pd.comp) : (comp_loop pd).1 d.plane.val ≠ 0 := by
  unfold comp_loop
  refine (foldl_comp_step_bpp_ne _ ?_ pd.comp _).2 d hd
  cases pd.flag_BITSTREAM <;> simp
theorem lor_and_ne (a b m : Nat) : (a ||| b) &&& m ≠ 0 ↔ a &&& m ≠ 0 ∨ b &&& m ≠ 0 := by
  rw [Nat.and_distrib_right]
  constructor
  · intro h
    by_contra hc
    push_neg at hc
    exact h (by rw [hc.1, hc.2]; rfl)
  · intro h hc
    have h1 : ∀ i, (a &&& m ||| b &&& m).testBit i = false := by
      intro i; rw [hc]; exact Nat.zero_testBit i
    rcases h with h | h
    · apply h
      apply Nat.eq_of_testBit_eq
      intro i
      have := h1 i
      rw [Nat.testBit_or] at this
      simp only [Bool.or_eq_false_iff] at this
      rw [this.1]; exact (Nat.zero_testBit i).symm
    · apply h
      apply Nat.eq_of_testBit_eq
      intro i
      have := h1 i
      rw [Nat.testBit_or] at this
      simp only [Bool.or_eq_false_iff] at this
      rw [this.2]; exact (Nat.zero_testBit i).symm

example (r : Nat) (h : r &&& 4096 = 0) : ¬ ((0 ||| 8192 ||| r ||| 128) &&& 4096 ≠ 0) := by
  simp +decide [lor_and_ne, h]

example (r : Nat) : (0 ||| 8192 ||| r ||| 4096) &&& 4096 ≠ 0 := by
  simp +decide [lor_and_ne]

theorem lor_and_eq_zero (a b m : Nat) : (a ||| b) &&& m = 0 ↔ a &&& m = 0 ∧ b &&& m = 0 := by
  have := lor_and_ne a b m
  constructor
  · intro h
    by_contra hc
    exact (this.mpr (by tauto)) h
  · intro h
    by_contra hc
    rcases this.mp hc with h1 | h1
    · exact h1 h.1
    · exact h1 h.2

theorem get_avutil_fmt_flags (E : pixfmt_env) (fmt : Nat) (h : E.pixfmt2imgfmt fmt ≠ 0) :
    (get_avutil_fmt E fmt).flags
      = (if (!(E.av_pix_fmt_descriptors fmt).flag_HWACCEL
              && !(E.av_pix_fmt_descriptors fmt).flag_BITSTREAM) = true
         then (if flags_before_yuv_p E fmt &&& MP_IMGFLAG_YUV ≠ 0 then
                (if same_depth (comp_loop (E.av_pix_fmt_descriptors fmt)).1
                      (comp_loop (E.av_pix_fmt_descriptors fmt)).2
                      (count_planes (comp_loop (E.av_pix_fmt_descriptors fmt)).1) = true
                    ∧ ((E.av_pix_fmt_descriptors fmt).nb_components : Int)
                        = count_planes (comp_loop (E.av_pix_fmt_descriptors fmt)).1
                 then flags_before_yuv_p E fmt ||| MP_IMGFLAG_YUV_P
                 else flags_before_yuv_p E fmt)
               else flags_before_yuv_p E fmt) ||| MP_IMGFLAG_BYTE_ALIGNED
         else (if flags_before_yuv_p E fmt &&& MP_IMGFLAG_YUV ≠ 0 then
                (if same_depth (comp_loop (E.av_pix_fmt_descriptors fmt)).1
                      (comp_loop (E.av_pix_fmt_descriptors fmt)).2
                      (count_planes (comp_loop (E.av_pix_fmt_descriptors fmt)).1) = true
                    ∧ ((E.av_pix_fmt_descriptors fmt).nb_components : Int)
                        = count_planes (comp_loop (E.av_pix_fmt_descriptors fmt)).1
                 then flags_before_yuv_p E fmt ||| MP_IMGFLAG_YUV_P
                 else flags_before_yuv_p E fmt)
               else flags_before_yuv_p E fmt)) := by
  unfold get_avutil_fmt
  simp only [h, if_false]
  rfl

theorem flags_before_yuv_p_clear (E : pixfmt_env) (fmt : Nat)
    (hrgb : E.MP_IMGFLAG_RGB &&& MP_IMGFLAG_YUV_P = 0) :
    flags_before_yuv_p E fmt &&& MP_IMGFLAG_YUV_P = 0 := by
  unfold flags_before_yuv_p
  simp only [MP_IMGFLAG_YUV_P, MP_IMGFLAG_NE, MP_IMGFLAG_YUV, MP_IMGFLAG_ALPHA,
    MP_IMGFLAG_PLANAR] at hrgb ⊢
  split_ifs <;> simp +decide [lor_and_eq_zero, hrgb]

theorem yuvp_flag_imp (E : pixfmt_env) (fmt : Nat)
    (hrgb : E.MP_IMGFLAG_RGB &&& MP_IMGFLAG_YUV_P = 0)
    (hy : (get_avutil_fmt E fmt).flags &&& MP_IMGFLAG_YUV_P ≠ 0) :
    E.pixfmt2imgfmt fmt ≠ 0
      ∧ same_depth (comp_loop (E.av_pix_fmt_descriptors fmt)).1
          (comp_loop (E.av_pix_fmt_descriptors fmt)).2
          (count_planes (comp_loop (E.av_pix_fmt_descriptors fmt)).1) = true
      ∧ ((E.av_pix_fmt_descriptors fmt).nb_components : Int)
          = count_planes (comp_loop (E.av_pix_fmt_descriptors fmt)).1
      ∧ (get_avutil_fmt E fmt).flags &&& MP_IMGFLAG_PLANAR ≠ 0
      ∧ (get_avutil_fmt E fmt).flags &&& MP_IMGFLAG_YUV ≠ 0 := by
  have h : E.pixfmt2imgfmt fmt ≠ 0 := by
    intro h0
    unfold get_avutil_fmt at hy
    simp [h0, mp_imgfmt_desc_zero] at hy
  have hclear := flags_before_yuv_p_clear E fmt hrgb
  have hba : MP_IMGFLAG_BYTE_ALIGNED &&& MP_IMGFLAG_YUV_P = 0 := by decide
  have hyy : MP_IMGFLAG_YUV_P &&& MP_IMGFLAG_YUV_P ≠ 0 := by decide
  rw [get_avutil_fmt_flags E fmt h] at hy ⊢
  by_cases hyuv : flags_before_yuv_p E fmt &&& MP_IMGFLAG_YUV ≠ 0
  · by_cases hc : same_depth (comp_loop (E.av_pix_fmt_descriptors fmt)).1
          (comp_loop (E.av_pix_fmt_descriptors fmt)).2
          (count_planes (comp_loop (E.av_pix_fmt_descriptors fmt)).1) = true
        ∧ ((E.av_pix_fmt_descriptors fmt).nb_components : Int)
            = count_planes (comp_loop (E.av_pix_fmt_descriptors fmt)).1
    · have hpl : flags_before_yuv_p E fmt &&& MP_IMGFLAG_PLANAR ≠ 0 := by
        unfold flags_before_yuv_p
        simp only [hc.2.symm, if_true]
        exact (lor_and_ne _ _ _).mpr (Or.inr (by decide))
      refine ⟨h, hc.1, hc.2, ?_, ?_⟩
      · simp only [hyuv, hc, and_self, if_true, ne_eq, not_false_eq_true]
        split_ifs <;> simp [lor_and_ne, hpl]
      · simp only [hyuv, hc, and_self, if_true, ne_eq, not_false_eq_true]
        split_ifs <;> simp [lor_and_ne, hyuv]
    · exfalso
      simp only [hyuv, hc, if_true, if_false, ne_eq, not_false_eq_true] at hy
      split_ifs at hy <;> simp [lor_and_ne, hclear, hba] at hy
  · exfalso
    simp only [hyuv, if_false] at hy
    split_ifs at hy <;> simp [lor_and_ne, hclear, hba] at hy

theorem get_avutil_fmt_bpp (E : pixfmt_env) (fmt : Nat) (h : E.pixfmt2imgfmt fmt ≠ 0) :
    (get_avutil_fmt E fmt).bpp = (comp_loop (E.av_pix_fmt_descriptors fmt)).1
      ∧ (get_avutil_fmt E fmt).num_planes
          = count_planes (comp_loop (E.av_pix_fmt_descriptors fmt)).1 := by
  unfold get_avutil_fmt
  simp only [h, if_false]
  exact ⟨rfl, rfl⟩

theorem count_planes_initial (bpp : Nat → Int)
    (key : ∀ p : Nat, (p : Int) < count_planes bpp → bpp p ≠ 0) :
    count_planes bpp ≤ 4 ∧ ∀ p : Nat, p < 4 → (bpp p ≠ 0 ↔ (p : Int) < count_planes bpp) := by
  have k0 := key 0
  have k1 := key 1
  have k2 := key 2
  have k3 := key 3
  simp only [count_planes, List.foldl] at k0 k1 k2 k3 ⊢
  by_cases h0 : bpp 0 = 0 <;> by_cases h1 : bpp 1 = 0 <;> by_cases h2 : bpp 2 = 0
    <;> by_cases h3 : bpp 3 = 0
    <;> simp [h0, h1, h2, h3, int8] at k0 k1 k2 k3 ⊢
    <;> intro p hp <;> interval_cases p <;> simp [h0, h1, h2, h3]

/-- C11: for every layout in which plane 0 carries a component, if
`MP_IMGFLAG_YUV_P` is set in the descriptor then `MP_IMGFLAG_PLANAR` and
`MP_IMGFLAG_YUV` are set, `1 <= num_planes <= 4`, the planes with non-zero `bpp`
are exactly the planes below `num_planes`, and each of them has the `bpp` and the
bit depth of plane 0.  (`MP_IMGFLAG_RGB`, which the header leaves undefined, is
taken not to contain the bit of `MP_IMGFLAG_YUV_P`.) -/
theorem C11_yuv_p_implies_uniform_planes (E : pixfmt_env) (fmt : Nat)
    (hrgb : E.MP_IMGFLAG_RGB &&& MP_IMGFLAG_YUV_P = 0)
    (h0 : ∃ d ∈ (E.av_pix_fmt_descriptors fmt).comp, d.plane.val = 0)
    (hy : (get_avutil_fmt E fmt).flags &&& MP_IMGFLAG_YUV_P ≠ 0) :
    (get_avutil_fmt E fmt).flags &&& MP_IMGFLAG_PLANAR ≠ 0
      ∧ (get_avutil_fmt E fmt).flags &&& MP_IMGFLAG_YUV ≠ 0
      ∧ 1 ≤ (get_avutil_fmt E fmt).num_planes
      ∧ (get_avutil_fmt E fmt).num_planes ≤ 4
      ∧ (∀ p : Nat, p < 4 →
          ((get_avutil_fmt E fmt).bpp p ≠ 0 ↔ (p : Int) < (get_avutil_fmt E fmt).num_planes))
      ∧ (∀ p : Nat, (p : Int) < (get_avutil_fmt E fmt).num_planes →
          (get_avutil_fmt E fmt).bpp p = (get_avutil_fmt E fmt).bpp 0
            ∧ planedepth E fmt p = planedepth E fmt 0) := by
  obtain ⟨h, hsd, _, hpl, hyuv⟩ := yuvp_flag_imp E fmt hrgb hy
  obtain ⟨hb, hn⟩ := get_avutil_fmt_bpp E fmt h
  obtain ⟨d, hd, hd0⟩ := h0
  have hb0 : (comp_loop (E.av_pix_fmt_descriptors fmt)).1 0 ≠ 0 := by
    have := comp_loop_bpp_ne _ d hd
    rwa [hd0] at this
  have hall := (same_depth_iff _ _ _).mp hsd
  have key : ∀ p : Nat,
      (p : Int) < count_planes (comp_loop (E.av_pix_fmt_descriptors fmt)).1 →
        (comp_loop (E.av_pix_fmt_descriptors fmt)).1 p ≠ 0 := by
    intro p hp
    rw [(hall p hp).2]
    exact hb0
  obtain ⟨hle, hiff⟩ := count_planes_initial _ key
  rw [hb, hn]
  refine ⟨hpl, hyuv, ?_, hle, hiff, fun p hp => ⟨(hall p hp).2, (hall p hp).1⟩⟩
  have := (hiff 0 (by decide)).mp hb0
  omega

theorem C11_yuv_p_implies_uniform_planes_witness :
    (sample_env.MP_IMGFLAG_RGB &&& MP_IMGFLAG_YUV_P = 0)
      ∧ (∃ d ∈ (sample_env.av_pix_fmt_descriptors 1).comp, d.plane.val = 0)
      ∧ (get_avutil_fmt sample_env 1).flags &&& MP_IMGFLAG_YUV_P ≠ 0
      ∧ (get_avutil_fmt sample_env 1).num_planes = 3
      ∧ (get_avutil_fmt sample_env 1).bpp 2 = 16
      ∧ (get_avutil_fmt sample_env 1).flags &&& MP_IMGFLAG_PLANAR ≠ 0 :=
  ⟨by decide, ⟨⟨0, 1, 15⟩, by decide, by decide⟩, by decide, by decide, by decide,
   (C11_yuv_p_implies_uniform_planes sample_env 1 (by decide)
      ⟨⟨0, 1, 15⟩, by decide, by decide⟩ (by decide)).1⟩

/-- C12 (the code at the failing inputs): for 8 bit gray, a format with a single
plane, `MP_IMGFLAG_PLANAR` is set although `num_planes = 1`; for NV12, a format
with two planes, it is not set although `num_planes = 2`. -/
theorem C12_planar_flag_mismatch :
    (get_avutil_fmt (layout_env layout_gray8) 8).num_planes = 1
      ∧ (get_avutil_fmt (layout_env layout_gray8) 8).flags &&& MP_IMGFLAG_PLANAR ≠ 0
      ∧ (get_avutil_fmt (layout_env layout_nv12) 8).num_planes = 2
      ∧ (get_avutil_fmt (layout_env layout_nv12) 8).flags &&& MP_IMGFLAG_PLANAR = 0 := by
  decide

theorem get_avutil_fmt_shape (E : pixfmt_env) (fmt : Nat) (h : E.pixfmt2imgfmt fmt ≠ 0) :
    (get_avutil_fmt E fmt).id = E.pixfmt2imgfmt fmt
      ∧ (get_avutil_fmt E fmt).chroma_xs = int8 (E.av_pix_fmt_descriptors fmt).log2_chroma_w
      ∧ (get_avutil_fmt E fmt).chroma_ys = int8 (E.av_pix_fmt_descriptors fmt).log2_chroma_h
      ∧ (get_avutil_fmt E fmt).plane_bits
          = int8 ((comp_loop (E.av_pix_fmt_descriptors fmt)).2 0)
      ∧ (get_avutil_fmt E fmt).num_planes
          = count_planes (comp_loop (E.av_pix_fmt_descriptors fmt)).1 := by
  unfold get_avutil_fmt
  simp only [h, if_false]
  and_intros <;> first | rfl | trivial

theorem flags_before_yuv_p_yuv (E : pixfmt_env) (fmt : Nat)
    (hrgby : E.MP_IMGFLAG_RGB &&& MP_IMGFLAG_YUV = 0) :
    flags_before_yuv_p E fmt &&& MP_IMGFLAG_YUV ≠ 0
      ↔ (¬ (E.av_pix_fmt_descriptors fmt).flag_RGB = true
          ∧ ¬ (E.av_pix_fmt_descriptors fmt).flag_HWACCEL = true
          ∧ fmt ≠ E.PIX_FMT_MONOWHITE ∧ fmt ≠ E.PIX_FMT_MONOBLACK
          ∧ fmt ≠ E.PIX_FMT_PAL8) := by
  have hz : (0 : Nat) &&& MP_IMGFLAG_YUV = 0 := by decide
  have hn : MP_IMGFLAG_NE &&& MP_IMGFLAG_YUV = 0 := by decide
  have hy : MP_IMGFLAG_YUV &&& MP_IMGFLAG_YUV ≠ 0 := by decide
  have ha : MP_IMGFLAG_ALPHA &&& MP_IMGFLAG_YUV = 0 := by decide
  have hp : MP_IMGFLAG_PLANAR &&& MP_IMGFLAG_YUV = 0 := by decide
  unfold flags_before_yuv_p
  by_cases hc : ¬ (E.av_pix_fmt_descriptors fmt).flag_RGB = true
      ∧ ¬ (E.av_pix_fmt_descriptors fmt).flag_HWACCEL = true
      ∧ fmt ≠ E.PIX_FMT_MONOWHITE ∧ fmt ≠ E.PIX_FMT_MONOBLACK ∧ fmt ≠ E.PIX_FMT_PAL8
  · dsimp only
    rw [if_pos hc]
    refine iff_of_true ?_ hc
    split_ifs <;>
      simp only [lor_and_ne, hy, ne_eq, not_false_eq_true, or_true, true_or, not_true_eq_false]
  · dsimp only
    rw [if_neg hc]
    refine iff_of_false (not_not.mpr ?_) hc
    split_ifs <;> simp only [lor_and_eq_zero, hz, hn, ha, hp, hrgby, and_self]

theorem flags_before_yuv_p_ne_of_le (E : pixfmt_env) (fmt : Nat)
    (hle : (E.av_pix_fmt_descriptors fmt).flag_BE = false) :
    flags_before_yuv_p E fmt &&& MP_IMGFLAG_NE ≠ 0 := by
  have hn : MP_IMGFLAG_NE &&& MP_IMGFLAG_NE ≠ 0 := by decide
  have hc : (comp_loop (E.av_pix_fmt_descriptors fmt)).1 0 ≤ 8
      ∨ ¬ (E.av_pix_fmt_descriptors fmt).flag_BE = true := Or.inr (by simp [hle])
  unfold flags_before_yuv_p
  simp only [hc, if_true]
  split_ifs <;> simp only [lor_and_ne, hn, ne_eq, not_false_eq_true, or_true, true_or]

theorem get_avutil_fmt_flags_mono (E : pixfmt_env) (fmt : Nat) (h : E.pixfmt2imgfmt fmt ≠ 0)
    (m : Nat) (hm : flags_before_yuv_p E fmt &&& m ≠ 0) :
    (get_avutil_fmt E fmt).flags &&& m ≠ 0 := by
  rw [get_avutil_fmt_flags E fmt h]
  split_ifs <;> simp only [lor_and_ne, hm, ne_eq, not_false_eq_true, true_or]

theorem yuvp_flag_before (E : pixfmt_env) (fmt : Nat)
    (hrgb : E.MP_IMGFLAG_RGB &&& MP_IMGFLAG_YUV_P = 0)
    (hy : (get_avutil_fmt E fmt).flags &&& MP_IMGFLAG_YUV_P ≠ 0) :
    flags_before_yuv_p E fmt &&& MP_IMGFLAG_YUV ≠ 0 := by
  obtain ⟨h, _⟩ := yuvp_flag_imp E fmt hrgb hy
  have hclear := flags_before_yuv_p_clear E fmt hrgb
  have hba : MP_IMGFLAG_BYTE_ALIGNED &&& MP_IMGFLAG_YUV_P = 0 := by decide
  intro hyuv
  rw [get_avutil_fmt_flags E fmt h] at hy
  have hyuv2 : ¬ (flags_before_yuv_p E fmt &&& MP_IMGFLAG_YUV ≠ 0) := not_not.mpr hyuv
  simp only [hyuv2, if_false] at hy
  split_ifs at hy
  · exact hy ((lor_and_eq_zero _ _ _).mpr ⟨hclear, hba⟩)
  · exact hy hclear

theorem yuvp_flag_of (E : pixfmt_env) (fmt : Nat) (h : E.pixfmt2imgfmt fmt ≠ 0)
    (hyuv : flags_before_yuv_p E fmt &&& MP_IMGFLAG_YUV ≠ 0)
    (hsd : same_depth (comp_loop (E.av_pix_fmt_descriptors fmt)).1
        (comp_loop (E.av_pix_fmt_descriptors fmt)).2
        (count_planes (comp_loop (E.av_pix_fmt_descriptors fmt)).1) = true)
    (hnb : ((E.av_pix_fmt_descriptors fmt).nb_components : Int)
        = count_planes (comp_loop (E.av_pix_fmt_descriptors fmt)).1) :
    (get_avutil_fmt E fmt).flags &&& MP_IMGFLAG_YUV_P ≠ 0 := by
  have hyy : MP_IMGFLAG_YUV_P &&& MP_IMGFLAG_YUV_P ≠ 0 := by decide
  rw [get_avutil_fmt_flags E fmt h]
  simp only [hyuv, hsd, hnb, and_self, if_true, ne_eq, not_false_eq_true]
  split_ifs <;> simp only [lor_and_ne, hyy, ne_eq, not_false_eq_true, or_true, true_or]

theorem little_endian_twin_match (E : pixfmt_env) (p q : Nat)
    (hrgb : E.MP_IMGFLAG_RGB &&& MP_IMGFLAG_YUV_P = 0)
    (hrgby : E.MP_IMGFLAG_RGB &&& MP_IMGFLAG_YUV = 0)
    (hy : (get_avutil_fmt E p).flags &&& MP_IMGFLAG_YUV_P ≠ 0)
    (hq : E.pixfmt2imgfmt q ≠ 0)
    (hq1 : q ≠ E.PIX_FMT_MONOWHITE) (hq2 : q ≠ E.PIX_FMT_MONOBLACK)
    (hq3 : q ≠ E.PIX_FMT_PAL8)
    (htw : E.av_pix_fmt_descriptors q
      = { E.av_pix_fmt_descriptors p with flag_BE := false }) :
    yuv_planar_match (get_avutil_fmt E q) (get_avutil_fmt E p).chroma_xs
      (get_avutil_fmt E p).chroma_ys (get_avutil_fmt E p).num_planes
      (get_avutil_fmt E p).plane_bits = true := by
  obtain ⟨hp, hsd, hnb, _, _⟩ := yuvp_flag_imp E p hrgb hy
  obtain ⟨_, px, py, pb, pn⟩ := get_avutil_fmt_shape E p hp
  obtain ⟨qi, qx, qy, qb, qn⟩ := get_avutil_fmt_shape E q hq
  have hcl : comp_loop (E.av_pix_fmt_descriptors q) = comp_loop (E.av_pix_fmt_descriptors p) := by
    rw [htw]; rfl
  have hw : (E.av_pix_fmt_descriptors q).log2_chroma_w
      = (E.av_pix_fmt_descriptors p).log2_chroma_w := by rw [htw]
  have hh : (E.av_pix_fmt_descriptors q).log2_chroma_h
      = (E.av_pix_fmt_descriptors p).log2_chroma_h := by rw [htw]
  have hnc : (E.av_pix_fmt_descriptors q).nb_components
      = (E.av_pix_fmt_descriptors p).nb_components := by rw [htw]; rfl
  have hr : (E.av_pix_fmt_descriptors q).flag_RGB = (E.av_pix_fmt_descriptors p).flag_RGB := by
    rw [htw]
  have hhw : (E.av_pix_fmt_descriptors q).flag_HWACCEL
      = (E.av_pix_fmt_descriptors p).flag_HWACCEL := by rw [htw]
  have hbe : (E.av_pix_fmt_descriptors q).flag_BE = false := by rw [htw]
  have hpy := (flags_before_yuv_p_yuv E p hrgby).mp (yuvp_flag_before E p hrgb hy)
  have hqy : flags_before_yuv_p E q &&& MP_IMGFLAG_YUV ≠ 0 :=
    (flags_before_yuv_p_yuv E q hrgby).mpr
      ⟨by rw [hr]; exact hpy.1, by rw [hhw]; exact hpy.2.1, hq1, hq2, hq3⟩
  have hqp : (get_avutil_fmt E q).flags &&& MP_IMGFLAG_YUV_P ≠ 0 :=
    yuvp_flag_of E q hq hqy (by rw [hcl]; exact hsd) (by rw [hcl, hnc]; exact hnb)
  have hqn : (get_avutil_fmt E q).flags &&& MP_IMGFLAG_NE ≠ 0 :=
    get_avutil_fmt_flags_mono E q hq _ (flags_before_yuv_p_ne_of_le E q hbe)
  rw [yuv_planar_match_iff]
  refine ⟨by rw [qi]; exact hq, hqp, ?_, ?_, ?_, ?_, hqn⟩
  · rw [qn, pn, hcl]
  · rw [qx, px, hw]
  · rw [qy, py, hh]
  · rw [qb, pb, hcl]

theorem get_desc_id_of_table (E : pixfmt_env) (ids : List Nat)
    (hid : ∀ m ∈ ids, ∀ q, E.imgfmt2pixfmt m = some q →
      E.pixfmt2imgfmt q ≠ 0 → E.pixfmt2imgfmt q = m) :
    ∀ m ∈ ids, (mp_imgfmt_get_desc E m).id ≠ 0 → (mp_imgfmt_get_desc E m).id = m := by
  intro m hm hne
  unfold mp_imgfmt_get_desc at hne ⊢
  cases hq : E.imgfmt2pixfmt m with
  | none => simp [hq, mp_imgfmt_desc_zero] at hne
  | some q =>
    simp only [hq] at hne ⊢
    by_cases hz : E.pixfmt2imgfmt q = 0
    · exfalso
      apply hne
      unfold get_avutil_fmt
      simp [hz, mp_imgfmt_desc_zero]
    · rw [(get_avutil_fmt_shape E q hz).1]
      exact hid m hm q hq hz

/-- C7: for every format id `n` between `IMGFMT_START` and `IMGFMT_END` whose
descriptor has `MP_IMGFLAG_YUV_P` set, `mp_imgfmt_find_yuv_planar` applied to the
descriptor's `chroma_xs`, `chroma_ys`, `num_planes` and `plane_bits` returns a
non-zero id whose descriptor is again `MP_IMGFLAG_YUV_P` with the same four
fields.  The layout table and the id conversions are outside `img_format.c`; of
them it is assumed that the two conversions are inverse to each other on the known
ids (`hid`), and that a format whose descriptor is not flagged native-endian has a
little-endian twin in the table: a known format, other than the monochrome and
palette formats, whose layout is the same with `PIX_FMT_BE` cleared (`htwin`).
(`MP_IMGFLAG_RGB`, which the header leaves undefined, is taken not to contain the
bits of `MP_IMGFLAG_YUV` and `MP_IMGFLAG_YUV_P`.) -/
theorem C7_find_yuv_planar_round_trip (E : pixfmt_env) (n : Nat)
    (hn : n ∈ imgfmt_ids)
    (hrgb : E.MP_IMGFLAG_RGB &&& MP_IMGFLAG_YUV_P = 0)
    (hrgby : E.MP_IMGFLAG_RGB &&& MP_IMGFLAG_YUV = 0)
    (hid : ∀ m ∈ imgfmt_ids, ∀ q, E.imgfmt2pixfmt m = some q →
      E.pixfmt2imgfmt q ≠ 0 → E.pixfmt2imgfmt q = m)
    (hyuvp : (mp_imgfmt_get_desc E n).flags &&& MP_IMGFLAG_YUV_P ≠ 0)
    (htwin : (mp_imgfmt_get_desc E n).flags &&& MP_IMGFLAG_NE = 0 →
      ∃ m ∈ imgfmt_ids, ∃ p q, E.imgfmt2pixfmt n = some p ∧ E.imgfmt2pixfmt m = some q
        ∧ E.pixfmt2imgfmt q ≠ 0
        ∧ q ≠ E.PIX_FMT_MONOWHITE ∧ q ≠ E.PIX_FMT_MONOBLACK ∧ q ≠ E.PIX_FMT_PAL8
        ∧ E.av_pix_fmt_descriptors q
            = { E.av_pix_fmt_descriptors p with flag_BE := false }) :
    mp_imgfmt_find_yuv_planar E (mp_imgfmt_get_desc E n).chroma_xs
        (mp_imgfmt_get_desc E n).chroma_ys (mp_imgfmt_get_desc E n).num_planes
        (mp_imgfmt_get_desc E n).plane_bits ≠ 0
      ∧ (mp_imgfmt_get_desc E (mp_imgfmt_find_yuv_planar E (mp_imgfmt_get_desc E n).chroma_xs
          (mp_imgfmt_get_desc E n).chroma_ys (mp_imgfmt_get_desc E n).num_planes
          (mp_imgfmt_get_desc E n).plane_bits)).flags &&& MP_IMGFLAG_YUV_P ≠ 0
      ∧ (mp_imgfmt_get_desc E (mp_imgfmt_find_yuv_planar E (mp_imgfmt_get_desc E n).chroma_xs
          (mp_imgfmt_get_desc E n).chroma_ys (mp_imgfmt_get_desc E n).num_planes
          (mp_imgfmt_get_desc E n).plane_bits)).num_planes = (mp_imgfmt_get_desc E n).num_planes
      ∧ (mp_imgfmt_get_desc E (mp_imgfmt_find_yuv_planar E (mp_imgfmt_get_desc E n).chroma_xs
          (mp_imgfmt_get_desc E n).chroma_ys (mp_imgfmt_get_desc E n).num_planes
          (mp_imgfmt_get_desc E n).plane_bits)).chroma_xs = (mp_imgfmt_get_desc E n).chroma_xs
      ∧ (mp_imgfmt_get_desc E (mp_imgfmt_find_yuv_planar E (mp_imgfmt_get_desc E n).chroma_xs
          (mp_imgfmt_get_desc E n).chroma_ys (mp_imgfmt_get_desc E n).num_planes
          (mp_imgfmt_get_desc E n).plane_bits)).chroma_ys = (mp_imgfmt_get_desc E n).chroma_ys
      ∧ (mp_imgfmt_get_desc E (mp_imgfmt_find_yuv_planar E (mp_imgfmt_get_desc E n).chroma_xs
          (mp_imgfmt_get_desc E n).chroma_ys (mp_imgfmt_get_desc E n).num_planes
          (mp_imgfmt_get_desc E n).plane_bits)).plane_bits = (mp_imgfmt_get_desc E n).plane_bits := by
  have hid2 := get_desc_id_of_table E imgfmt_ids hid
  have hex : ∃ m ∈ imgfmt_ids, yuv_planar_match (mp_imgfmt_get_desc E m)
      (mp_imgfmt_get_desc E n).chroma_xs (mp_imgfmt_get_desc E n).chroma_ys
      (mp_imgfmt_get_desc E n).num_planes (mp_imgfmt_get_desc E n).plane_bits = true := by
    by_cases hne : (mp_imgfmt_get_desc E n).flags &&& MP_IMGFLAG_NE = 0
    · obtain ⟨m, hm, p, q, hp, hq, hqk, hq1, hq2, hq3, htw⟩ := htwin hne
      have dn : mp_imgfmt_get_desc E n = get_avutil_fmt E p := by
        unfold mp_imgfmt_get_desc; rw [hp]
      have dm : mp_imgfmt_get_desc E m = get_avutil_fmt E q := by
        unfold mp_imgfmt_get_desc; rw [hq]
      refine ⟨m, hm, ?_⟩
      rw [dn, dm]
      rw [dn] at hyuvp
      exact little_endian_twin_match E p q hrgb hrgby hyuvp hqk hq1 hq2 hq3 htw
    · exact ⟨n, hn, (yuv_planar_match_iff _ _ _ _ _).mpr
        ⟨get_desc_flag_id E n hyuvp, hyuvp, rfl, rfl, rfl, rfl, hne⟩⟩
  obtain ⟨m0, hm0, hmatch, hfind⟩ := find_yuv_planar_in_spec E _ _ _ _ imgfmt_ids hex
  obtain ⟨h1, h2, h3, h4, h5, h6, _⟩ := (yuv_planar_match_iff _ _ _ _ _).mp hmatch
  have hr : mp_imgfmt_find_yuv_planar E (mp_imgfmt_get_desc E n).chroma_xs
      (mp_imgfmt_get_desc E n).chroma_ys (mp_imgfmt_get_desc E n).num_planes
      (mp_imgfmt_get_desc E n).plane_bits = m0 := by
    unfold mp_imgfmt_find_yuv_planar
    rw [hfind]
    exact hid2 m0 hm0 h1
  rw [hr]
  exact ⟨fun h0 => h1 (by rw [hid2 m0 hm0 h1]; exact h0), h2, h3, h4, h5, h6⟩

theorem C7_find_yuv_planar_round_trip_witness :
    IMGFMT_420P16_BE ∈ imgfmt_ids
      ∧ (mp_imgfmt_get_desc sample_env IMGFMT_420P16_BE).flags &&& MP_IMGFLAG_YUV_P ≠ 0
      ∧ (mp_imgfmt_get_desc sample_env IMGFMT_420P16_BE).flags &&& MP_IMGFLAG_NE = 0
      ∧ sample_env.av_pix_fmt_descriptors 1
          = { sample_env.av_pix_fmt_descriptors 2 with flag_BE := false }
      ∧ mp_imgfmt_find_yuv_planar sample_env 1 1 3 16 = IMGFMT_420P16_LE
      ∧ mp_imgfmt_find_yuv_planar sample_env
          (mp_imgfmt_get_desc sample_env IMGFMT_420P16_BE).chroma_xs
          (mp_imgfmt_get_desc sample_env IMGFMT_420P16_BE).chroma_ys
          (mp_imgfmt_get_desc sample_env IMGFMT_420P16_BE).num_planes
          (mp_imgfmt_get_desc sample_env IMGFMT_420P16_BE).plane_bits ≠ 0 :=
  ⟨by decide, by decide, by decide, by decide, by decide,
   (C7_find_yuv_planar_round_trip sample_env IMGFMT_420P16_BE (by decide) (by decide)
      (by decide)
      (by
        intro m _ q hq hk
        simp only [sample_env] at hq hk ⊢
        split_ifs at hq hk ⊢ <;> simp_all)
      (by decide)
      (fun _ => ⟨IMGFMT_420P16_LE, by decide, 2, 1, by decide, by decide, by decide,
        by decide, by decide, by decide, by decide⟩)).1⟩

theorem parse_loop_eq_run (env : cfg_env) (chunks : List (List Char)) (line : List Char)
    (st : parse_state) :
    parse_loop env chunks line st
      = run_results env ((line_buffers chunks line).map parse_line) st := by
  induction chunks generalizing line st with
  | nil => rfl
  | cons c rest ih =>
    simp only [parse_loop, line_buffers, List.map_cons, run_results]
    split_ifs
    · rfl
    · rw [ih]; rfl

theorem parse_file_eq_run (env : cfg_env) (d : Int) (buf content : List Char)
    (hd : ¬ d > MAX_RECURSION_DEPTH) :
    (m_config_parse_config_file env d (some buf) (some content)).st
      = run_results env (line_results buf content) parse_init := by
  simp only [m_config_parse_config_file, hd, if_false, line_results]
  exact parse_loop_eq_run env _ _ _

theorem parse_line_scan_ok (line : List Char) : scan_result_ok (parse_line line) := by
  unfold parse_line
  simp only
  repeat' split
  all_goals trivial

theorem apply_line_option_any (env : cfg_env) (st : parse_state) (opt param : List Char)
    (extra : Bool) :
    (apply_line env st (line_result.option opt param extra)).ret
        = (if extra then -1 else st.ret)
      ∧ (apply_line env st (line_result.option opt param extra)).errors = st.errors
      ∧ (apply_line env st (line_result.option opt param extra)).line_num = st.line_num
      ∧ (apply_line env st (line_result.option opt param extra)).profile = st.profile
      ∧ ((apply_line env st (line_result.option opt param extra)).log.any
            (fun x => is_scan_error x.2))
          = (st.log.any (fun x => is_scan_error x.2) || extra) := by
  cases extra <;> simp only [apply_line, Bool.false_eq_true, if_false, if_true] <;>
    split_ifs <;> simp [List.any_append, is_scan_error]

theorem apply_line_ret_inv (env : cfg_env) (st : parse_state) (r : line_result)
    (hr : scan_result_ok r) (h : ret_inv st) : ret_inv (apply_line env st r) := by
  obtain ⟨h1, h2⟩ := h
  cases r with
  | skip => exact ⟨h1, h2⟩
  | err e =>
    have he : is_scan_error e = true := hr
    refine ⟨?_, fun _ => rfl⟩
    simp [apply_line, List.any_append, he]
  | profile_decl name =>
    simp only [apply_line]
    split_ifs <;> exact ⟨h1, h2⟩
  | option opt param extra =>
    obtain ⟨a1, a2, _, _, a5⟩ := apply_line_option_any env st opt param extra
    unfold ret_inv
    rw [a1, a2, a5]
    cases extra
    · simp only [Bool.or_false, Bool.false_eq_true, if_false]
      exact ⟨h1, h2⟩
    · simp

theorem run_results_ret_inv (env : cfg_env) (rs : List line_result) (st : parse_state)
    (hrs : ∀ r ∈ rs, scan_result_ok r) (h : ret_inv st) : ret_inv (run_results env rs st) := by
  induction rs generalizing st with
  | nil => exact h
  | cons r rest ih =>
    simp only [run_results]
    split_ifs with he
    · obtain ⟨h1, h2⟩ := h
      have hret : st.ret = -1 := h2 (by omega)
      refine ⟨?_, fun _ => hret⟩
      simp [too_many, List.any_append, is_scan_error, hret]
    · apply ih _ (fun r hr => hrs r (List.mem_cons_of_mem _ hr))
      apply apply_line_ret_inv env _ r (hrs r (List.mem_cons_self _ _))
      exact h

theorem line_results_scan_ok (buf content : List Char) :
    ∀ r ∈ line_results buf content, scan_result_ok r := by
  intro r hr
  simp only [line_results, List.mem_map] at hr
  obtain ⟨l, _, rfl⟩ := hr
  exact parse_line_scan_ok l

theorem apply_line_core (env env2 : cfg_env) (st st2 : parse_state) (r : line_result)
    (h : st.line_num = st2.line_num ∧ st.errors = st2.errors ∧ st.ret = st2.ret
      ∧ st.profile = st2.profile ∧ st.actions = st2.actions) :
    (apply_line env st r).line_num = (apply_line env2 st2 r).line_num
      ∧ (apply_line env st r).errors = (apply_line env2 st2 r).errors
      ∧ (apply_line env st r).ret = (apply_line env2 st2 r).ret
      ∧ (apply_line env st r).profile = (apply_line env2 st2 r).profile
      ∧ (apply_line env st r).actions = (apply_line env2 st2 r).actions := by
  obtain ⟨h1, h2, h3, h4, h5⟩ := h
  cases r with
  | skip => exact ⟨h1, h2, h3, h4, h5⟩
  | err e => simp [apply_line, h1, h2, h4, h5]
  | profile_decl name =>
    simp only [apply_line]
    split_ifs <;> simp [h1, h2, h3, h4, h5]
  | option opt param extra =>
    cases extra <;> simp only [apply_line, Bool.false_eq_true, if_false, if_true] <;>
      split_ifs <;> simp [h1, h2, h3, h4, h5]

theorem run_results_core (env env2 : cfg_env) (rs : List line_result) (st st2 : parse_state)
    (h : st.line_num = st2.line_num ∧ st.errors = st2.errors ∧ st.ret = st2.ret
      ∧ st.profile = st2.profile ∧ st.actions = st2.actions) :
    (run_results env rs st).line_num = (run_results env2 rs st2).line_num
      ∧ (run_results env rs st).errors = (run_results env2 rs st2).errors
      ∧ (run_results env rs st).ret = (run_results env2 rs st2).ret
      ∧ (run_results env rs st).profile = (run_results env2 rs st2).profile
      ∧ (run_results env rs st).actions = (run_results env2 rs st2).actions := by
  induction rs generalizing st st2 with
  | nil => exact h
  | cons r rest ih =>
    obtain ⟨h1, h2, h3, h4, h5⟩ := h
    by_cases he : st.errors ≥ 16
    · have he2 : st2.errors ≥ 16 := h2 ▸ he
      simp only [run_results, he, he2, if_true, too_many]
      exact ⟨h1, h2, h3, h4, h5⟩
    · have he2 : ¬ st2.errors ≥ 16 := h2 ▸ he
      simp only [run_results, he, he2, if_false]
      apply ih
      apply apply_line_core
      exact ⟨by simp [h1], h2, h3, h4, h5⟩

/-- C14 (as stated, refuted): a file whose only line sets an unknown option is
reported (`unknown option`) but the call returns 1, not -1; and a call at an
exceeded include depth returns -1, not 0, for a file that cannot be opened. -/
theorem C14_counterexample :
    (m_config_parse_config_file env_unknown 0 (some []) (some "foo=bar\n".toList)).st.log
        = [(1, cfg_error.unknown_option)]
      ∧ (m_config_parse_config_file env_unknown 0 (some []) (some "foo=bar\n".toList)).st.ret = 1
      ∧ (m_config_parse_config_file env_unknown 9 (some []) none).st.ret = -1 := by
  decide

/-- C14 (amended): the call returns -1 when the include depth is exceeded or the
line buffer cannot be allocated, whether or not the file can be opened; otherwise 0
exactly when the file cannot be opened; otherwise -1 when a scanning error (too
long option, parse error, needs a parameter, too long parameter, extra
characters) was reported for a line and 1 when none was.  A line whose option is
unknown or fails to be set is reported but has no influence on the return value:
the value is the same whatever the setters return. -/
theorem C14_return_value (env env2 : cfg_env) (d : Int) (mem file : Option (List Char)) :
    (m_config_parse_config_file env d mem file).st.ret
        = (if d > MAX_RECURSION_DEPTH then -1
           else if mem = none then -1
           else if file = none then 0
           else if (m_config_parse_config_file env d mem file).st.log.any
                (fun x => is_scan_error x.2) then -1
           else 1)
      ∧ (m_config_parse_config_file env d mem file).st.ret
          = (m_config_parse_config_file env2 d mem file).st.ret := by
  by_cases hd : d > MAX_RECURSION_DEPTH
  · simp [m_config_parse_config_file, hd]
  · cases mem with
    | none => simp [m_config_parse_config_file, hd]
    | some buf =>
      cases file with
      | none => simp [m_config_parse_config_file, hd]
      | some content =>
        rw [parse_file_eq_run env d buf content hd, parse_file_eq_run env2 d buf content hd]
        simp only [hd, if_false]
        refine ⟨?_, (run_results_core env env2 _ _ _ ⟨rfl, rfl, rfl, rfl, rfl⟩).2.2.1⟩
        have := (run_results_ret_inv env (line_results buf content) parse_init
          (line_results_scan_ok buf content) ⟨by decide, by decide⟩).1
        simpa using this

theorem apply_line_counts (env : cfg_env) (st : parse_state) (r : line_result) :
    (apply_line env st r).errors = st.errors + (if is_err r then 1 else 0)
      ∧ (apply_line env st r).line_num = st.line_num := by
  cases r with
  | skip => simp [apply_line, is_err]
  | err e => simp [apply_line, is_err]
  | profile_decl name =>
    simp only [apply_line, is_err]
    split_ifs <;> simp_all
  | option opt param extra =>
    cases extra <;> simp only [apply_line, is_err, Bool.false_eq_true, if_false, if_true] <;>
      split_ifs <;> simp

theorem run_results_line_num_ge (env : cfg_env) (rs : List line_result) (st : parse_state) :
    st.line_num ≤ (run_results env rs st).line_num := by
  induction rs generalizing st with
  | nil => exact le_refl _
  | cons r rest ih =>
    simp only [run_results]
    split_ifs
    · exact le_refl _
    · refine le_trans ?_ (ih _)
      rw [(apply_line_counts env _ r).2]
      exact Nat.le_succ _

theorem run_results_all (env : cfg_env) (rs : List line_result) (st : parse_state)
    (h : st.errors + rs.countP is_err < 16) :
    (run_results env rs st).line_num = st.line_num + rs.length
      ∧ (run_results env rs st).errors = st.errors + rs.countP is_err := by
  induction rs generalizing st with
  | nil => simp [run_results]
  | cons r rest ih =>
    have hlt : ¬ st.errors ≥ 16 := by omega
    simp only [run_results, hlt, if_false]
    obtain ⟨a1, a2⟩ := apply_line_counts env { st with line_num := st.line_num + 1 } r
    have hc : (r :: rest).countP is_err = rest.countP is_err + (if is_err r then 1 else 0) := by
      rw [List.countP_cons]
    rw [hc] at h
    obtain ⟨i1, i2⟩ := ih (apply_line env { st with line_num := st.line_num + 1 } r)
      (by rw [a1]; simp only; omega)
    refine ⟨?_, ?_⟩
    · rw [i1, a2, List.length_cons, Nat.add_assoc, Nat.add_comm 1]
    · rw [i2, a1, hc]
      show st.errors + _ + _ = _
      omega

theorem run_results_errs (env : cfg_env) (errs rest : List line_result) (st : parse_state)
    (hall : ∀ r ∈ errs, is_err r = true) (h16 : st.errors + errs.length = 16) :
    (run_results env (errs ++ rest) st).line_num = st.line_num + errs.length
      ∧ (run_results env (errs ++ rest) st).actions = st.actions
      ∧ (0 < errs.length → (run_results env (errs ++ rest) st).ret = -1) := by
  induction errs generalizing st with
  | nil =>
    have h : st.errors ≥ 16 := by simp at h16; omega
    cases rest with
    | nil => simp [run_results]
    | cons r rest => simp [run_results, h, too_many]
  | cons e errs ih =>
    have hlt : ¬ st.errors ≥ 16 := by simp at h16; omega
    have he : is_err e = true := hall e (List.mem_cons_self _ _)
    cases e with
    | err k =>
      rw [List.cons_append]
      simp only [run_results, hlt, if_false, apply_line]
      obtain ⟨i1, i2, i3⟩ := ih
        { line_num := st.line_num + 1, errors := st.errors + 1, ret := -1,
          profile := st.profile, actions := st.actions,
          log := st.log ++ [(st.line_num + 1, k)] }
        (fun r hr => hall r (List.mem_cons_of_mem _ hr))
        (by simp only [List.length_cons] at h16 ⊢; omega)
      refine ⟨by rw [i1]; simp only [List.length_cons]; omega, i2, fun _ => ?_⟩
      cases errs with
      | nil =>
        cases rest with
        | nil => simp [run_results]
        | cons r rest =>
          have : st.errors + 1 ≥ 16 := by simp at h16; omega
          simp [run_results, this, too_many]
      | cons e2 errs2 => exact i3 (by simp)
    | skip => simp [is_err] at he
    | profile_decl n => simp [is_err] at he
    | option a b c => simp [is_err] at he

theorem spec_section_snoc (before : List line_result) (r : line_result) :
    spec_section (before ++ [r])
      = match r with
        | line_result.profile_decl name =>
          if name = "default".toList then none else some name
        | _ => spec_section before := by
  cases r <;> simp [spec_section, decl_name, List.filterMap_append]

theorem apply_line_spec (env : cfg_env) (st : parse_state) (before : List line_result)
    (r : line_result) (hp : st.profile = spec_section before) :
    (apply_line env st r).profile = spec_section (before ++ [r])
      ∧ (apply_line env st r).actions.filterMap assignment_of
          = st.actions.filterMap assignment_of ++ spec_applied before [r] := by
  rw [spec_section_snoc]
  cases r with
  | skip => simp [apply_line, spec_applied, hp]
  | err e => simp [apply_line, spec_applied, hp]
  | profile_decl name =>
    simp only [apply_line, spec_applied]
    split_ifs <;> simp_all [List.filterMap_append, assignment_of]
  | option opt param extra =>
    cases extra <;> simp only [apply_line, Bool.false_eq_true, if_false, if_true, spec_applied] <;>
      cases hprof : st.profile <;>
      split_ifs <;> simp_all [List.filterMap_append, assignment_of]

theorem spec_applied_cons (before : List line_result) (r : line_result)
    (rest : List line_result) :
    spec_applied before (r :: rest)
      = spec_applied before [r] ++ spec_applied (before ++ [r]) rest := by
  cases r <;> simp [spec_applied]

theorem run_results_spec (env : cfg_env) (rs before : List line_result) (st : parse_state)
    (hp : st.profile = spec_section before) :
    (run_results env rs st).actions.filterMap assignment_of
      = st.actions.filterMap assignment_of
          ++ spec_applied before (rs.take ((run_results env rs st).line_num - st.line_num)) := by
  induction rs generalizing before st with
  | nil => simp [run_results, spec_applied]
  | cons r rest ih =>
    simp only [run_results]
    split_ifs with he
    · simp [too_many, spec_applied]
    · obtain ⟨c1, c2⟩ := apply_line_counts env { st with line_num := st.line_num + 1 } r
      obtain ⟨s1, s2⟩ := apply_line_spec env { st with line_num := st.line_num + 1 }
        before r hp
      have hge := run_results_line_num_ge env rest
        (apply_line env { st with line_num := st.line_num + 1 } r)
      rw [c2] at hge
      have hk : (run_results env rest
            (apply_line env { st with line_num := st.line_num + 1 } r)).line_num - st.line_num
          = ((run_results env rest
              (apply_line env { st with line_num := st.line_num + 1 } r)).line_num
              - (apply_line env { st with line_num := st.line_num + 1 } r).line_num) + 1 := by
        rw [c2]
        show _ = _ - (st.line_num + 1) + 1
        have : st.line_num + 1 ≤ (run_results env rest
            (apply_line env { st with line_num := st.line_num + 1 } r)).line_num := hge
        omega
      rw [hk, List.take_succ_cons, spec_applied_cons, ih _ _ s1, s2, List.append_assoc]

/-- C15 (as stated, refuted): a file with 16 malformed lines followed by the
well-formed line `foo=bar` has that line neither processed nor applied: the loop
stops at the 17th line with `too many errors`. -/
theorem C15_counterexample :
    (line_results [] sixteen_errors_then_option).countP is_err = 16
      ∧ (line_results [] sixteen_errors_then_option).getLast?
          = some (line_result.option "foo".toList "bar".toList false)
      ∧ (m_config_parse_config_file env_ok 0 (some []) (some sixteen_errors_then_option)).st.actions
          = []
      ∧ (m_config_parse_config_file env_ok 0 (some []) (some sixteen_errors_then_option)).st.line_num
          = 16
      ∧ (m_config_parse_config_file env_ok 0 (some []) (some sixteen_errors_then_option)).st.log.getLast?
          = some (16, cfg_error.too_many_errors) := by
  decide

/-- C15 (amended): parsing continues past the lines counted as errors (too long
option, parse error, needs a parameter, too long parameter; a line with extra
characters is reported but not counted) and is aborted when a line is read after 16
errors have accumulated.  For every file with at most 15 counted lines every line is
processed and every `key = value` line is applied, wherever it stands; for every
file whose first 16 lines are counted, parsing returns -1 with exactly 16 lines
processed and nothing applied, so line 17 and all later lines are not processed. -/
theorem C15_error_budget (env : cfg_env) (d : Int) (buf content : List Char)
    (hd : ¬ d > MAX_RECURSION_DEPTH) :
    ((line_results buf content).countP is_err < 16 →
        (m_config_parse_config_file env d (some buf) (some content)).st.line_num
            = (line_results buf content).length
          ∧ (m_config_parse_config_file env d (some buf) (some content)).st.actions.filterMap
              assignment_of = spec_applied [] (line_results buf content))
      ∧ (∀ errs rest : List line_result, line_results buf content = errs ++ rest →
          errs.length = 16 → (∀ r ∈ errs, is_err r = true) →
            (m_config_parse_config_file env d (some buf) (some content)).st.ret = -1
              ∧ (m_config_parse_config_file env d (some buf) (some content)).st.line_num = 16
              ∧ (m_config_parse_config_file env d (some buf) (some content)).st.actions = []) := by
  rw [parse_file_eq_run env d buf content hd]
  constructor
  · intro h
    have hall := run_results_all env (line_results buf content) parse_init
      (by simpa [parse_init] using h)
    have hspec := run_results_spec env (line_results buf content) [] parse_init rfl
    rw [hall.1] at hspec
    refine ⟨by simpa [parse_init] using hall.1, ?_⟩
    simpa [parse_init] using hspec
  · intro errs rest hsplit hlen hall
    rw [hsplit]
    obtain ⟨e1, e2, e3⟩ := run_results_errs env errs rest parse_init hall
      (by simp [parse_init, hlen])
    exact ⟨e3 (by omega), by simpa [parse_init, hlen] using e1, by simpa [parse_init] using e2⟩

theorem C15_error_budget_witness :
    (¬ (0 : Int) > MAX_RECURSION_DEPTH)
      ∧ (line_results [] "=\nfoo=bar\n= =\n[p]\nbaz = 1\n".toList).countP is_err < 16
      ∧ (m_config_parse_config_file env_ok 0 (some []) (some "=\nfoo=bar\n= =\n[p]\nbaz = 1\n".toList)).st.line_num
          = 5
      ∧ (m_config_parse_config_file env_ok 0 (some [])
            (some "=\nfoo=bar\n= =\n[p]\nbaz = 1\n".toList)).st.line_num
          = (line_results [] "=\nfoo=bar\n= =\n[p]\nbaz = 1\n".toList).length :=
  ⟨by decide, by decide, by decide,
   ((C15_error_budget env_ok 0 [] "=\nfoo=bar\n= =\n[p]\nbaz = 1\n".toList (by decide)).1
      (by decide)).1⟩

theorem run_results_line_count (env : cfg_env) (rs : List line_result) (st : parse_state) :
    (run_results env rs st).line_num - st.line_num ≤ rs.length
      ∧ ∀ i < rs.length,
          (i < (run_results env rs st).line_num - st.line_num
            ↔ st.errors + (rs.take i).countP is_err < 16) := by
  induction rs generalizing st with
  | nil => simp [run_results]
  | cons r rest ih =>
    simp only [run_results]
    split_ifs with he
    · refine ⟨by simp [too_many], ?_⟩
      intro i _
      simp only [too_many, Nat.sub_self, Nat.not_lt_zero, false_iff]
      omega
    · obtain ⟨c1, c2⟩ := apply_line_counts env { st with line_num := st.line_num + 1 } r
      have hge := run_results_line_num_ge env rest
        (apply_line env { st with line_num := st.line_num + 1 } r)
      obtain ⟨i1, i2⟩ := ih (apply_line env { st with line_num := st.line_num + 1 } r)
      rw [c2] at hge i1 i2
      rw [c1] at i2
      have hge2 : st.line_num + 1 ≤ (run_results env rest
          (apply_line env { st with line_num := st.line_num + 1 } r)).line_num := hge
      have i1b : (run_results env rest
          (apply_line env { st with line_num := st.line_num + 1 } r)).line_num
            - (st.line_num + 1) ≤ rest.length := i1
      refine ⟨by simp only [List.length_cons]; omega, ?_⟩
      intro i hi
      cases i with
      | zero =>
        simp only [List.take_zero, List.countP_nil, Nat.add_zero]
        omega
      | succ j =>
        have hj : j < rest.length := by simpa using hi
        have hij := i2 j hj
        have hij2 : (j < (run_results env rest
            (apply_line env { st with line_num := st.line_num + 1 } r)).line_num
              - (st.line_num + 1))
            ↔ st.errors + (if is_err r = true then 1 else 0)
                + List.countP is_err (List.take j rest) < 16 := hij
        rw [List.take_succ_cons, List.countP_cons]
        constructor
        · intro h
          have := hij2.mp (by omega)
          omega
        · intro h
          have := hij2.mpr (by omega)
          omega

/-- C19 (as stated, refuted): in a file of 16 malformed lines followed by the
well-formed line `foo=bar`, that line is not applied, while the claim lists it as
an assignment to the global configuration. -/
theorem C19_counterexample :
    (m_config_parse_config_file env_ok 0 (some [])
        (some sixteen_errors_then_option)).st.actions.filterMap assignment_of = []
      ∧ spec_applied [] (line_results [] sixteen_errors_then_option)
          = [(none, "foo".toList, "bar".toList)] := by
  decide

/-- C19 (amended): every `key = value` line that is preceded by fewer than 16 lines
counted as errors is applied to the profile named by the most recent preceding
`[name]` line, or to the global configuration when no section line precedes it or
the most recent one is `[default]`; the lines from the one that follows the 16th
counted error on are not applied.  The assignments made are those that
`spec_applied` lists for the first `k` lines, `k` being the number of lines
preceded by fewer than 16 counted errors, and for all lines when fewer than 16 lines
are counted.  The input `[profile1]\nfoo = bar\n` creates the profile `profile1` and
sets `foo=bar` in that profile and not globally. -/
theorem C19_section_assignment (env : cfg_env) (d : Int) (buf content : List Char)
    (hd : ¬ d > MAX_RECURSION_DEPTH) :
    (∃ k : Nat, k ≤ (line_results buf content).length
        ∧ (∀ i < (line_results buf content).length,
            (i < k ↔ ((line_results buf content).take i).countP is_err < 16))
        ∧ (m_config_parse_config_file env d (some buf) (some content)).st.actions.filterMap
            assignment_of = spec_applied [] ((line_results buf content).take k))
      ∧ ((line_results buf content).countP is_err < 16 →
          (m_config_parse_config_file env d (some buf) (some content)).st.actions.filterMap
            assignment_of = spec_applied [] (line_results buf content))
      ∧ (m_config_parse_config_file env_ok 0 (some [])
            (some "[profile1]\nfoo = bar\n".toList)).st.actions
          = [cfg_action.add_profile "profile1".toList,
             cfg_action.set_profile_option "profile1".toList "foo".toList "bar".toList]
      ∧ (m_config_parse_config_file env_ok 0 (some [])
            (some "[profile1]\nfoo = bar\n".toList)).st.ret = 1 := by
  have hspec := run_results_spec env (line_results buf content) [] parse_init rfl
  obtain ⟨hk1, hk2⟩ := run_results_line_count env (line_results buf content) parse_init
  refine ⟨?_, ?_, by decide, by decide⟩
  · refine ⟨(run_results env (line_results buf content) parse_init).line_num
        - parse_init.line_num, hk1, ?_, ?_⟩
    · intro i hi
      simpa [parse_init] using hk2 i hi
    · rw [parse_file_eq_run env d buf content hd]
      simpa [parse_init] using hspec
  · intro h
    rw [parse_file_eq_run env d buf content hd]
    have hall := run_results_all env (line_results buf content) parse_init
      (by simpa [parse_init] using h)
    rw [hall.1] at hspec
    simpa [parse_init] using hspec

theorem C19_section_assignment_witness :
    (¬ (0 : Int) > MAX_RECURSION_DEPTH)
      ∧ (line_results [] "[p]\nfoo = bar\n=\n[default]\nbaz = 1\n".toList).countP is_err < 16
      ∧ spec_applied [] (line_results [] "[p]\nfoo = bar\n=\n[default]\nbaz = 1\n".toList)
          = [(some "p".toList, "foo".toList, "bar".toList),
             (none, "baz".toList, "1".toList)]
      ∧ (m_config_parse_config_file env_ok 0 (some [])
            (some "[p]\nfoo = bar\n=\n[default]\nbaz = 1\n".toList)).st.actions.filterMap
              assignment_of
          = spec_applied [] (line_results [] "[p]\nfoo = bar\n=\n[default]\nbaz = 1\n".toList) :=
  ⟨by decide, by decide, by decide,
   (C19_section_assignment env_ok 0 [] "[p]\nfoo = bar\n=\n[default]\nbaz = 1\n".toList
      (by decide)).2.1 (by decide)⟩

theorem fgets_acc_spec (size : Nat) (hs : 2 ≤ size) (content cur : List Char)
    (hcur : cur.length + 1 < size) :
    (∀ chunk ∈ fgets_acc size content cur, 1 ≤ chunk.length ∧ chunk.length ≤ size - 1)
      ∧ (fgets_acc size content cur).flatten = cur ++ content := by
  induction content generalizing cur with
  | nil =>
    by_cases h : cur = []
    · simp [fgets_acc, h]
    · have : 1 ≤ cur.length := by
        cases cur with
        | nil => exact absurd rfl h
        | cons a l => simp
      simp [fgets_acc, h]
      omega
  | cons c rest ih =>
    by_cases h : c = '\n' ∨ cur.length + 2 ≥ size
    · obtain ⟨i1, i2⟩ := ih [] (by simp; omega)
      simp only [fgets_acc, h, if_true, List.mem_cons, List.flatten_cons, i2]
      refine ⟨?_, by simp⟩
      intro chunk hc
      rcases hc with rfl | hc
      · simp; omega
      · exact i1 chunk hc
    · obtain ⟨i1, i2⟩ := ih (cur ++ [c]) (by simp; omega)
      simp only [fgets_acc, h, if_false]
      exact ⟨i1, by simp [i2]⟩

theorem fgets_acc_fill (size : Nat) (pre cur rest : List Char)
    (hnl : ∀ c ∈ pre, c ≠ '\n') (hlen : cur.length + pre.length + 1 < size) :
    fgets_acc size (pre ++ rest) cur = fgets_acc size rest (cur ++ pre) := by
  induction pre generalizing cur with
  | nil => simp
  | cons c pre ih =>
    have hc : c ≠ '\n' := hnl c (List.mem_cons_self _ _)
    have hlt : ¬ (cur.length + 2 ≥ size) := by simp at hlen; omega
    rw [List.cons_append]
    simp only [fgets_acc, hc, hlt, or_self, if_false]
    rw [ih (cur ++ [c]) (fun x hx => hnl x (List.mem_cons_of_mem _ hx))
      (by simp at hlen ⊢; omega)]
    simp

theorem parse_line_comment (t : List Char) : parse_line ('#' :: t) = line_result.skip := by
  have h : skip_ws ('#' :: t) = '#' :: t := by
    simp [skip_ws, List.dropWhile, isspace]
  simp [parse_line, h, at0]

theorem parse_line_foo_bar (t : List Char) :
    parse_line ("foo=bar\n".toList ++ NUL :: t)
      = line_result.option "foo".toList "bar".toList false := by
  rfl

theorem fgets_long_line (xs : List Char) (hlen : xs.length = 9997)
    (hnl : ∀ c ∈ xs, c ≠ '\n') :
    fgets_lines ('#' :: (xs ++ ('x' :: "foo=bar\n".toList)))
      = [ '#' :: (xs ++ ['x']), "foo=bar\n".toList ] := by
  unfold fgets_lines
  have h1 := fgets_acc_fill MAX_LINE_LEN ('#' :: xs) [] ('x' :: "foo=bar\n".toList)
    (by
      intro c hc
      rcases List.mem_cons.mp hc with rfl | h
      · decide
      · exact hnl c h)
    (by simp [MAX_LINE_LEN, hlen])
  rw [List.cons_append] at h1
  rw [h1]
  have hfull : ([] ++ '#' :: xs).length + 2 ≥ MAX_LINE_LEN := by
    simp [MAX_LINE_LEN, hlen]
  rw [fgets_acc]
  simp only [hfull, or_true, if_true]
  have h2 : fgets_acc MAX_LINE_LEN "foo=bar\n".toList []
      = [ "foo=bar\n".toList ] := by decide
  rw [h2]
  simp

theorem fgets_long_comment_line :
    fgets_lines long_comment_line
      = [ '#' :: (List.replicate 9997 'x' ++ ['x']), "foo=bar\n".toList ] :=
  fgets_long_line (List.replicate 9997 'x') (List.length_replicate _ _)
    (fun c hc => by rw [List.eq_of_mem_replicate hc]; decide)

/-- C16 (the code at the failing input): the file consists of one physical line of
10006 characters and its newline (a comment sign, 9998 letters, then `foo=bar`).
Whatever the line buffer held before, no error is reported, the call returns 1, two
lines are counted, and the end of the physical line is applied as the option
`foo=bar`. -/
theorem C16_long_line_tail_applied (buf : List Char) :
    long_comment_line.length = 10007
      ∧ long_comment_line.count '\n' = 1
      ∧ (m_config_parse_config_file env_ok 0 (some buf) (some long_comment_line)).st.ret = 1
      ∧ (m_config_parse_config_file env_ok 0 (some buf) (some long_comment_line)).st.log = []
      ∧ (m_config_parse_config_file env_ok 0 (some buf) (some long_comment_line)).st.errors = 0
      ∧ (m_config_parse_config_file env_ok 0 (some buf) (some long_comment_line)).st.line_num
          = 2
      ∧ (m_config_parse_config_file env_ok 0 (some buf) (some long_comment_line)).st.actions
          = [cfg_action.set_option0 "foo".toList "bar".toList] := by
  have hl : long_comment_line.length = 10007 := by
    unfold long_comment_line
    rw [List.length_cons, List.length_append, List.length_replicate]
    rfl
  have hc : long_comment_line.count '\n' = 1 := by
    unfold long_comment_line
    rw [List.count_cons, List.count_append, List.count_replicate]
    rfl
  have hd : ¬ (0 : Int) > MAX_RECURSION_DEPTH := by decide
  have hrun : (m_config_parse_config_file env_ok 0 (some buf) (some long_comment_line)).st
      = { line_num := 2, errors := 0, ret := 1, profile := none,
          actions := [cfg_action.set_option0 "foo".toList "bar".toList], log := [] } := by
    simp only [m_config_parse_config_file, hd, if_false]
    rw [fgets_long_comment_line]
    simp only [parse_loop, process_line, fgets_store]
    rw [List.cons_append, parse_line_comment, parse_line_foo_bar]
    rfl
  rw [hrun]
  exact ⟨hl, hc, rfl, rfl, rfl, rfl, rfl⟩

theorem read_opt_append (k rest opt : List Char) (hk : ∀ c ∈ k, opt_char c = true)
    (hfit : opt.length + k.length < MAX_OPT_LEN) :
    read_opt (k ++ rest) opt = read_opt rest (opt ++ k) := by
  induction k generalizing opt with
  | nil => simp
  | cons c k ih =>
    have hc : opt_char c = true := hk c (List.mem_cons_self _ _)
    unfold opt_char at hc
    have hlt : ¬ (opt.length + 1 ≥ MAX_OPT_LEN) := by simp at hfit; omega
    rw [List.cons_append, read_opt]
    simp only [hc, if_true, hlt, if_false]
    rw [ih (opt ++ [c]) (fun x hx => hk x (List.mem_cons_of_mem _ hx))
      (by simp at hfit ⊢; omega)]
    simp

theorem read_opt_too_long (k rest opt : List Char) (hk : ∀ c ∈ k, opt_char c = true)
    (hopt : opt.length < MAX_OPT_LEN) (hlong : opt.length + k.length ≥ MAX_OPT_LEN) :
    read_opt (k ++ rest) opt = none := by
  induction k generalizing opt with
  | nil => simp at hlong; omega
  | cons c k ih =>
    have hc : opt_char c = true := hk c (List.mem_cons_self _ _)
    unfold opt_char at hc
    rw [List.cons_append, read_opt]
    simp only [hc, if_true]
    by_cases hlt : opt.length + 1 ≥ MAX_OPT_LEN
    · simp [hlt]
    · simp only [hlt, if_false]
      exact ih (opt ++ [c]) (fun x hx => hk x (List.mem_cons_of_mem _ hx))
        (by simp; omega) (by simp at hlong ⊢; omega)

theorem read_opt_stop (c : Char) (rest opt : List Char) (hc : opt_char c = false) :
    read_opt (c :: rest) opt = some (opt, c :: rest) := by
  unfold opt_char at hc
  rw [read_opt]
  simp only [hc, Bool.false_eq_true, if_false]

theorem read_unquoted_append (v rest param : List Char) (hv : ∀ c ∈ v, val_char c = true)
    (hfit : param.length + v.length < MAX_PARAM_LEN) :
    read_unquoted (v ++ rest) param = read_unquoted rest (param ++ v) := by
  induction v generalizing param with
  | nil => simp
  | cons c v ih =>
    have hc : val_char c = true := hv c (List.mem_cons_self _ _)
    unfold val_char at hc
    have hlt : ¬ (param.length + 1 ≥ MAX_PARAM_LEN) := by simp at hfit; omega
    rw [List.cons_append, read_unquoted]
    simp only [hc, if_true, hlt, if_false]
    rw [ih (param ++ [c]) (fun x hx => hv x (List.mem_cons_of_mem _ hx))
      (by simp at hfit ⊢; omega)]
    simp

theorem read_unquoted_too_long (v rest param : List Char) (hv : ∀ c ∈ v, val_char c = true)
    (hp : param.length < MAX_PARAM_LEN) (hlong : param.length + v.length ≥ MAX_PARAM_LEN) :
    read_unquoted (v ++ rest) param = none := by
  induction v generalizing param with
  | nil => simp at hlong; omega
  | cons c v ih =>
    have hc : val_char c = true := hv c (List.mem_cons_self _ _)
    unfold val_char at hc
    rw [List.cons_append, read_unquoted]
    simp only [hc, if_true]
    by_cases hlt : param.length + 1 ≥ MAX_PARAM_LEN
    · simp [hlt]
    · simp only [hlt, if_false]
      exact ih (param ++ [c]) (fun x hx => hv x (List.mem_cons_of_mem _ hx))
        (by simp; omega) (by simp at hlong ⊢; omega)

theorem read_unquoted_stop (c : Char) (rest param : List Char) (hc : val_char c = false) :
    read_unquoted (c :: rest) param = some (param, c :: rest) := by
  unfold val_char at hc
  rw [read_unquoted]
  simp only [hc, Bool.false_eq_true, if_false]

theorem read_quoted_append (q : Char) (v rest param : List Char) (hv : ∀ c ∈ v, c ≠ q)
    (hfit : param.length + v.length < MAX_PARAM_LEN) :
    read_quoted q (v ++ rest) param = read_quoted q rest (param ++ v) := by
  induction v generalizing param with
  | nil => simp
  | cons c v ih =>
    have hc : c ≠ q := hv c (List.mem_cons_self _ _)
    have hlt : ¬ (param.length + 1 ≥ MAX_PARAM_LEN) := by simp at hfit; omega
    rw [List.cons_append, read_quoted]
    simp only [hc, ne_eq, not_false_eq_true, if_true, hlt, if_false]
    rw [ih (param ++ [c]) (fun x hx => hv x (List.mem_cons_of_mem _ hx))
      (by simp at hfit ⊢; omega)]
    simp

theorem read_quoted_too_long (q : Char) (v rest param : List Char) (hv : ∀ c ∈ v, c ≠ q)
    (hp : param.length < MAX_PARAM_LEN) (hlong : param.length + v.length ≥ MAX_PARAM_LEN) :
    read_quoted q (v ++ rest) param = none := by
  induction v generalizing param with
  | nil => simp at hlong; omega
  | cons c v ih =>
    have hc : c ≠ q := hv c (List.mem_cons_self _ _)
    rw [List.cons_append, read_quoted]
    simp only [hc, ne_eq, not_false_eq_true, if_true]
    by_cases hlt : param.length + 1 ≥ MAX_PARAM_LEN
    · simp [hlt]
    · simp only [hlt, if_false]
      exact ih (param ++ [c]) (fun x hx => hv x (List.mem_cons_of_mem _ hx))
        (by simp; omega) (by simp at hlong ⊢; omega)

theorem read_quoted_stop (q : Char) (rest param : List Char) :
    read_quoted q (q :: rest) param = some (param, q :: rest) := by
  rw [read_quoted]
  simp

theorem cstr_of_no_nul (v : List Char) (h : NUL ∉ v) : cstr v = v := by
  unfold cstr
  rw [List.takeWhile_eq_self_iff]
  intro c hc
  simp only [decide_eq_true_eq]
  intro h0
  exact h (h0 ▸ hc)

theorem opt_char_not_space (c : Char) (h : opt_char c = true) :
    isspace c = false ∧ c ≠ NUL ∧ c ≠ '#' := by
  unfold opt_char isprint at h
  simp only [Bool.and_eq_true, decide_eq_true_eq] at h
  obtain ⟨⟨⟨⟨h1, h2⟩, h3⟩, h4⟩, h5⟩ := h
  refine ⟨?_, ?_, h4⟩
  · unfold isspace
    simp only [Bool.or_eq_false_iff, Bool.and_eq_false_iff, decide_eq_false_iff_not]
    exact ⟨h3, Or.inr (by omega)⟩
  · intro h0
    rw [h0] at h1
    exact absurd h1 (by decide)

theorem skip_ws_opt (k rest : List Char) (hne : k ≠ []) (hk : ∀ c ∈ k, opt_char c = true) :
    skip_ws (k ++ rest) = k ++ rest ∧ at0 (k ++ rest) ≠ NUL ∧ at0 (k ++ rest) ≠ '#' := by
  cases k with
  | nil => exact absurd rfl hne
  | cons c k =>
    obtain ⟨h1, h2, h3⟩ := opt_char_not_space c (hk c (List.mem_cons_self _ _))
    refine ⟨?_, ?_, ?_⟩
    · simp [skip_ws, List.dropWhile, h1]
    · simpa [at0] using h2
    · simpa [at0] using h3

theorem parse_line_name_too_long (k rest : List Char) (hne : k ≠ [])
    (hk : ∀ c ∈ k, opt_char c = true) (hlen : k.length ≥ MAX_OPT_LEN) :
    parse_line (k ++ rest) = line_result.err cfg_error.too_long_option := by
  obtain ⟨h1, h2, h3⟩ := skip_ws_opt k rest hne hk
  have h4 : read_opt (k ++ rest) [] = none :=
    read_opt_too_long k rest [] hk (by decide) (by simpa using hlen)
  unfold parse_line
  simp only [h1, h2, h3, or_self, if_false, h4]

theorem parse_line_name (k rest : List Char) (c : Char) (hne : k ≠ [])
    (hk : ∀ x ∈ k, opt_char x = true) (hlen : k.length < MAX_OPT_LEN)
    (hform : ¬ is_profile_form k) (hc : opt_char c = false) :
    parse_line (k ++ c :: rest)
      = (if at0 (skip_ws (c :: rest)) ≠ '=' then line_result.err cfg_error.needs_parameter
         else
           match (if at0 (skip_ws ((skip_ws (c :: rest)).drop 1)) = DQUOTE
                      ∨ at0 (skip_ws ((skip_ws (c :: rest)).drop 1)) = SQUOTE then
                    (read_quoted (at0 (skip_ws ((skip_ws (c :: rest)).drop 1)))
                      ((skip_ws ((skip_ws (c :: rest)).drop 1)).drop 1) []).map
                        (fun pr => (pr.1, pr.2.drop 1))
                  else read_unquoted (skip_ws ((skip_ws (c :: rest)).drop 1)) []) with
           | none => line_result.err cfg_error.too_long_parameter
           | some (param, l5) =>
             if param.length = 0 then line_result.err cfg_error.needs_parameter
             else line_result.option k (cstr param)
               (decide (at0 (skip_ws l5) ≠ NUL) && decide (at0 (skip_ws l5) ≠ '#'))) := by
  obtain ⟨h1, h2, h3⟩ := skip_ws_opt k (c :: rest) hne hk
  have h4 : read_opt (k ++ c :: rest) [] = some (k, c :: rest) := by
    rw [read_opt_append k (c :: rest) [] hk (by simpa using hlen)]
    simpa using read_opt_stop c rest ([] ++ k) hc
  have h5 : ¬ k.length = 0 := by
    intro h; exact hne (List.length_eq_zero.mp h)
  unfold is_profile_form at hform
  unfold parse_line
  simp only [h1, h2, h3, or_self, if_false, h4, h5, hform]

theorem skip_ws_space (c : Char) (l : List Char) (h : isspace c = true) :
    skip_ws (c :: l) = skip_ws l := by
  simp [skip_ws, List.dropWhile_cons, h]

theorem skip_ws_stop (c : Char) (l : List Char) (h : isspace c = false) :
    skip_ws (c :: l) = c :: l := by
  simp [skip_ws, List.dropWhile_cons, h]

theorem parse_line_quoted (k v stale : List Char) (q : Char)
    (hq : q = DQUOTE ∨ q = SQUOTE)
    (hne : k ≠ []) (hk : ∀ c ∈ k, opt_char c = true) (hklen : k.length < MAX_OPT_LEN)
    (hform : ¬ is_profile_form k)
    (hvne : v ≠ []) (hvlen : v.length < MAX_PARAM_LEN) (hvq : ∀ c ∈ v, c ≠ q)
    (hv0 : NUL ∉ v) :
    parse_line (k ++ ' ' :: '=' :: ' ' :: q :: (v ++ q :: '\n' :: NUL :: stale))
      = line_result.option k v false := by
  rw [parse_line_name k _ ' ' hne hk hklen hform (by decide)]
  have hqs : isspace q = false := by rcases hq with rfl | rfl <;> decide
  have hqe : q ≠ '=' := by rcases hq with rfl | rfl <;> decide
  have s1 : skip_ws (' ' :: '=' :: ' ' :: q :: (v ++ q :: '\n' :: NUL :: stale))
      = '=' :: ' ' :: q :: (v ++ q :: '\n' :: NUL :: stale) := by
    rw [skip_ws_space _ _ (by decide), skip_ws_stop _ _ (by decide)]
  have s2 : skip_ws (' ' :: q :: (v ++ q :: '\n' :: NUL :: stale))
      = q :: (v ++ q :: '\n' :: NUL :: stale) := by
    rw [skip_ws_space _ _ (by decide), skip_ws_stop _ _ hqs]
  have s3 : skip_ws ('\n' :: NUL :: stale) = NUL :: stale := by
    rw [skip_ws_space _ _ (by decide), skip_ws_stop _ _ (by decide)]
  have r1 : read_quoted q (v ++ q :: '\n' :: NUL :: stale) []
      = some (v, q :: '\n' :: NUL :: stale) := by
    rw [read_quoted_append q v _ [] hvq (by simpa using hvlen)]
    simpa using read_quoted_stop q ('\n' :: NUL :: stale) ([] ++ v)
  have hv1 : ¬ v.length = 0 := fun h => hvne (List.length_eq_zero.mp h)
  rw [s1]
  simp only [at0, List.headD_cons, List.drop_succ_cons, List.drop_zero, s2, hq, r1,
    Option.map_some', s3, ne_eq, not_true_eq_false, if_false, if_true, hv1,
    cstr_of_no_nul v hv0, decide_False, Bool.false_and]

theorem fgets_single_line (l : List Char) (hnl : ∀ c ∈ l, c ≠ '\n')
    (hlen : l.length + 1 < MAX_LINE_LEN) :
    fgets_lines (l ++ ['\n']) = [l ++ ['\n']] := by
  unfold fgets_lines
  rw [fgets_acc_fill MAX_LINE_LEN l [] ['\n'] hnl (by simpa using hlen)]
  simp [fgets_acc]

theorem parse_file_single_line (env : cfg_env) (buf l : List Char)
    (hnl : ∀ c ∈ l, c ≠ '\n') (hlen : l.length + 1 < MAX_LINE_LEN) :
    (m_config_parse_config_file env 0 (some buf) (some (l ++ ['\n']))).st
      = apply_line env { parse_init with line_num := 1 }
          (parse_line (l ++ '\n' :: NUL :: buf.drop (l.length + 2))) := by
  have hd : ¬ (0 : Int) > MAX_RECURSION_DEPTH := by decide
  simp only [m_config_parse_config_file, hd, if_false]
  rw [fgets_single_line l hnl hlen]
  simp only [parse_loop, process_line, fgets_store, parse_init]
  simp

theorem val_char_facts (c : Char) (h : val_char c = true) :
    isspace c = false ∧ c ≠ NUL := by
  unfold val_char isprint at h
  simp only [Bool.and_eq_true, decide_eq_true_eq, Bool.not_eq_true'] at h
  obtain ⟨⟨⟨h1, h2⟩, h3⟩, h4⟩ := h
  refine ⟨h3, ?_⟩
  intro h0
  rw [h0] at h1
  exact absurd h1 (by decide)

theorem parse_line_unquoted (k v stale : List Char)
    (hne : k ≠ []) (hk : ∀ c ∈ k, opt_char c = true) (hklen : k.length < MAX_OPT_LEN)
    (hform : ¬ is_profile_form k)
    (hvne : v ≠ []) (hv : ∀ c ∈ v, val_char c = true)
    (hvq : ∀ c ∈ v, c ≠ DQUOTE ∧ c ≠ SQUOTE) :
    parse_line (k ++ '=' :: (v ++ '\n' :: NUL :: stale))
      = (if v.length < MAX_PARAM_LEN then line_result.option k v false
         else line_result.err cfg_error.too_long_parameter) := by
  rw [parse_line_name k _ '=' hne hk hklen hform (by decide)]
  have hv1 : ¬ v.length = 0 := fun h => hvne (List.length_eq_zero.mp h)
  have hv0 : NUL ∉ v := fun h => (val_char_facts NUL (hv NUL h)).2 rfl
  obtain ⟨c, v2, hcv⟩ := List.exists_cons_of_ne_nil hvne
  have hc : val_char c = true := hv c (hcv ▸ List.mem_cons_self _ _)
  have hcq := hvq c (hcv ▸ List.mem_cons_self _ _)
  have s1 : skip_ws ('=' :: (v ++ '\n' :: NUL :: stale))
      = '=' :: (v ++ '\n' :: NUL :: stale) := skip_ws_stop _ _ (by decide)
  have s2 : skip_ws (v ++ '\n' :: NUL :: stale) = v ++ '\n' :: NUL :: stale := by
    rw [hcv, List.cons_append]
    exact skip_ws_stop _ _ (val_char_facts c hc).1
  have a2 : at0 (v ++ '\n' :: NUL :: stale) = c := by
    rw [hcv]; rfl
  have s3 : skip_ws ('\n' :: NUL :: stale) = NUL :: stale := by
    rw [skip_ws_space _ _ (by decide), skip_ws_stop _ _ (by decide)]
  have a1 : at0 ('=' :: (v ++ '\n' :: NUL :: stale)) = '=' := rfl
  rw [s1]
  simp only [a1, List.drop_succ_cons, List.drop_zero, ne_eq,
    not_true_eq_false, if_false, s2, a2, hcq.1, hcq.2, or_self]
  by_cases hlen : v.length < MAX_PARAM_LEN
  · have r1 : read_unquoted (v ++ '\n' :: NUL :: stale) []
        = some (v, '\n' :: NUL :: stale) := by
      rw [read_unquoted_append v _ [] hv (by simpa using hlen)]
      simpa using read_unquoted_stop '\n' (NUL :: stale) ([] ++ v) (by decide)
    simp only [r1, hv1, if_false, s3, at0, List.headD_cons, ne_eq, not_true_eq_false,
      decide_False, Bool.false_and, cstr_of_no_nul v hv0, hlen, if_true]
  · have r1 : read_unquoted (v ++ '\n' :: NUL :: stale) [] = none :=
      read_unquoted_too_long v _ [] hv (by decide) (by simp; omega)
    simp only [r1, hlen, if_false]

theorem parse_line_quoted_too_long (k v stale : List Char) (q : Char)
    (hq : q = DQUOTE ∨ q = SQUOTE)
    (hne : k ≠ []) (hk : ∀ c ∈ k, opt_char c = true) (hklen : k.length < MAX_OPT_LEN)
    (hform : ¬ is_profile_form k)
    (hvlen : v.length ≥ MAX_PARAM_LEN) (hvq : ∀ c ∈ v, c ≠ q) :
    parse_line (k ++ '=' :: q :: (v ++ q :: '\n' :: NUL :: stale))
      = line_result.err cfg_error.too_long_parameter := by
  rw [parse_line_name k _ '=' hne hk hklen hform (by decide)]
  have hqs : isspace q = false := by rcases hq with rfl | rfl <;> decide
  have s1 : skip_ws ('=' :: q :: (v ++ q :: '\n' :: NUL :: stale))
      = '=' :: q :: (v ++ q :: '\n' :: NUL :: stale) := skip_ws_stop _ _ (by decide)
  have s2 : skip_ws (q :: (v ++ q :: '\n' :: NUL :: stale))
      = q :: (v ++ q :: '\n' :: NUL :: stale) := skip_ws_stop _ _ hqs
  have r1 : read_quoted q (v ++ q :: '\n' :: NUL :: stale) [] = none :=
    read_quoted_too_long q v _ [] hvq (by decide) (by simpa using hvlen)
  rw [s1]
  simp only [at0, List.headD_cons, List.drop_succ_cons, List.drop_zero, s2, hq, r1,
    Option.map_none', ne_eq, not_true_eq_false, if_false, if_true]

theorem apply_line_option_global (env : cfg_env) (st : parse_state) (opt param : List Char)
    (hp : st.profile = none) :
    (apply_line env st (line_result.option opt param false)).actions
        = st.actions ++ [cfg_action.set_option0 opt param]
      ∧ (apply_line env st (line_result.option opt param false)).ret = st.ret
      ∧ (apply_line env st (line_result.option opt param false)).errors = st.errors := by
  simp only [apply_line, Bool.false_eq_true, if_false, hp]
  split_ifs <;> simp

theorem a_is_opt_char (k : List Char) (hk : ∀ c ∈ k, c = 'a') :
    (∀ c ∈ k, opt_char c = true) ∧ (∀ c ∈ k, c ≠ '\n') ∧ ¬ is_profile_form k := by
  refine ⟨fun c hc => by rw [hk c hc]; decide, fun c hc => by rw [hk c hc]; decide, ?_⟩
  rintro ⟨_, h2, _⟩
  cases k with
  | nil => simp at h2
  | cons c k =>
    simp only [List.head?_cons, Option.some.injEq] at h2
    have := hk c (List.mem_cons_self _ _)
    rw [this] at h2
    exact absurd h2 (by decide)

theorem name_limit (env : cfg_env) (buf k : List Char) (hk : ∀ c ∈ k, c = 'a')
    (hne : k ≠ []) (hle : k.length ≤ 1000) :
    (k.length = 1000 →
        (m_config_parse_config_file env 0 (some buf) (some ((k ++ ['=', '1']) ++ ['\n']))).st
          = { line_num := 1, errors := 1, ret := -1, profile := none, actions := [],
              log := [(1, cfg_error.too_long_option)] })
      ∧ (k.length = 999 →
        (m_config_parse_config_file env 0 (some buf)
            (some ((k ++ ['=', '1']) ++ ['\n']))).st.actions = [cfg_action.set_option0 k ['1']]
          ∧ (m_config_parse_config_file env 0 (some buf)
            (some ((k ++ ['=', '1']) ++ ['\n']))).st.ret = 1) := by
  obtain ⟨h1, h2, h3⟩ := a_is_opt_char k hk
  have hnl : ∀ c ∈ k ++ ['=', '1'], c ≠ '\n' := by
    intro c hc
    rcases List.mem_append.mp hc with h | h
    · exact h2 c h
    · simp only [List.mem_cons, List.mem_singleton, List.not_mem_nil, or_false] at h
      rcases h with rfl | rfl <;> decide
  have hlen : (k ++ ['=', '1']).length + 1 < MAX_LINE_LEN := by
    simp [MAX_LINE_LEN]; omega
  rw [parse_file_single_line env buf _ hnl hlen]
  constructor
  · intro h1000
    rw [List.append_assoc, parse_line_name_too_long k _ hne h1 (by simp [MAX_OPT_LEN, h1000])]
    rfl
  · intro h999
    have hp := parse_line_unquoted k ['1'] (buf.drop ((k ++ ['=', '1']).length + 2)) hne h1
      (by simp [MAX_OPT_LEN, h999]) h3 (by simp)
      (by intro c hc; rw [List.mem_singleton.mp hc]; decide)
      (by intro c hc; rw [List.mem_singleton.mp hc]; decide)
    have hrw : (k ++ ['=', '1']) ++
        '\n' :: NUL :: buf.drop ((k ++ ['=', '1']).length + 2)
        = k ++ '=' :: (['1'] ++ '\n' :: NUL :: buf.drop ((k ++ ['=', '1']).length + 2)) := by
      simp
    rw [hrw, hp]
    simp only [List.length_singleton, MAX_PARAM_LEN, Nat.one_lt_ofNat, if_true]
    obtain ⟨a1, a2, _⟩ := apply_line_option_global env { parse_init with line_num := 1 }
      k ['1'] rfl
    exact ⟨a1, a2⟩

theorem value_limit (env : cfg_env) (buf v : List Char) (hv : ∀ c ∈ v, c = 'v')
    (hne : v ≠ []) (hle : v.length ≤ 1500) :
    (v.length = 1500 →
        (m_config_parse_config_file env 0 (some buf) (some ((['a', '='] ++ v) ++ ['\n']))).st
          = { line_num := 1, errors := 1, ret := -1, profile := none, actions := [],
              log := [(1, cfg_error.too_long_parameter)] })
      ∧ (v.length = 1499 →
        (m_config_parse_config_file env 0 (some buf)
            (some ((['a', '='] ++ v) ++ ['\n']))).st.actions = [cfg_action.set_option0 ['a'] v]
          ∧ (m_config_parse_config_file env 0 (some buf)
            (some ((['a', '='] ++ v) ++ ['\n']))).st.ret = 1) := by
  have hvc : ∀ c ∈ v, val_char c = true := fun c hc => by rw [hv c hc]; decide
  have hvq : ∀ c ∈ v, c ≠ DQUOTE ∧ c ≠ SQUOTE := fun c hc => by rw [hv c hc]; decide
  have hnl : ∀ c ∈ ['a', '='] ++ v, c ≠ '\n' := by
    intro c hc
    rcases List.mem_append.mp hc with h | h
    · simp only [List.mem_cons, List.mem_singleton, List.not_mem_nil, or_false] at h
      rcases h with rfl | rfl <;> decide
    · rw [hv c h]; decide
  have hlen : (['a', '='] ++ v).length + 1 < MAX_LINE_LEN := by
    simp [MAX_LINE_LEN]; omega
  have hform : ¬ is_profile_form ['a'] := by
    rintro ⟨h, _⟩; simp at h
  have hp := parse_line_unquoted ['a'] v (buf.drop ((['a', '='] ++ v).length + 2))
    (by simp) (by intro c hc; rw [List.mem_singleton.mp hc]; decide)
    (by simp [MAX_OPT_LEN]) hform hne hvc hvq
  have hrw : (['a', '='] ++ v) ++ '\n' :: NUL :: buf.drop ((['a', '='] ++ v).length + 2)
      = ['a'] ++ '=' :: (v ++ '\n' :: NUL :: buf.drop ((['a', '='] ++ v).length + 2)) := by
    simp
  rw [parse_file_single_line env buf _ hnl hlen, hrw, hp]
  constructor
  · intro h1500
    simp only [h1500, MAX_PARAM_LEN, lt_self_iff_false, if_false]
    rfl
  · intro h1499
    simp only [h1499, MAX_PARAM_LEN, Nat.reduceLT, if_true]
    obtain ⟨a1, a2, _⟩ := apply_line_option_global env { parse_init with line_num := 1 }
      ['a'] v rfl
    exact ⟨a1, a2⟩

/-- C17 (the code at the failing inputs): the line `aaa...a=1` whose option name
has exactly 1000 characters is rejected with `too long option` and sets nothing,
while a name of 999 characters is accepted; the line `a=vvv...v` whose value has
exactly 1500 characters is rejected with `too long parameter`, while a value of
1499 characters is accepted. -/
theorem C17_limits_off_by_one :
    (m_config_parse_config_file env_ok 0 (some [])
        (some ((List.replicate 1000 'a' ++ ['=', '1']) ++ ['\n']))).st
        = { line_num := 1, errors := 1, ret := -1, profile := none, actions := [],
            log := [(1, cfg_error.too_long_option)] }
      ∧ (m_config_parse_config_file env_ok 0 (some [])
          (some ((List.replicate 999 'a' ++ ['=', '1']) ++ ['\n']))).st.actions
        = [cfg_action.set_option0 (List.replicate 999 'a') ['1']]
      ∧ (m_config_parse_config_file env_ok 0 (some [])
          (some ((['a', '='] ++ List.replicate 1500 'v') ++ ['\n']))).st
        = { line_num := 1, errors := 1, ret := -1, profile := none, actions := [],
            log := [(1, cfg_error.too_long_parameter)] }
      ∧ (m_config_parse_config_file env_ok 0 (some [])
          (some ((['a', '='] ++ List.replicate 1499 'v') ++ ['\n']))).st.actions
        = [cfg_action.set_option0 ['a'] (List.replicate 1499 'v')] := by
  have ha : ∀ n, ∀ c ∈ List.replicate n 'a', c = 'a' := fun n c hc => List.eq_of_mem_replicate hc
  have hv : ∀ n, ∀ c ∈ List.replicate n 'v', c = 'v' := fun n c hc => List.eq_of_mem_replicate hc
  have hne : ∀ (n : Nat) (c : Char), 0 < n → List.replicate n c ≠ [] := by
    intro n c hn h
    have := congrArg List.length h
    rw [List.length_replicate] at this
    simp at this
    omega
  refine ⟨?_, ?_, ?_, ?_⟩
  · exact (name_limit env_ok [] (List.replicate 1000 'a') (ha 1000) (hne 1000 'a' (by decide))
      (by rw [List.length_replicate])).1 (List.length_replicate _ _)
  · exact ((name_limit env_ok [] (List.replicate 999 'a') (ha 999) (hne 999 'a' (by decide))
      (by rw [List.length_replicate]; decide)).2 (List.length_replicate _ _)).1
  · exact (value_limit env_ok [] (List.replicate 1500 'v') (hv 1500) (hne 1500 'v' (by decide))
      (by rw [List.length_replicate])).1 (List.length_replicate _ _)
  · exact ((value_limit env_ok [] (List.replicate 1499 'v') (hv 1499) (hne 1499 'v' (by decide))
      (by rw [List.length_replicate]; decide)).2 (List.length_replicate _ _)).1

theorem depth_after_calls (env : cfg_env) (mem file : Option (List Char)) (n : Nat) (d : Int) :
    (fun x => (m_config_parse_config_file env x mem file).recursion_depth)^[n] d
      = d - (n : Int) := by
  induction n generalizing d with
  | zero => simp
  | succ k ih =>
    rw [Function.iterate_succ_apply, ih]
    simp only [m_config_parse_config_file]
    push_cast
    omega

/-- C18 (what the code does): the call never raises `recursion_depth`.  The guard
compares the value found at entry with `MAX_RECURSION_DEPTH` (above it, the call
returns -1 without reading the file; otherwise it runs as at depth 0), and every
call, on every path, leaves the counter one below the value at entry: starting
from 0, after `n` calls it is `-n`, so a first call returns with the counter at -1
instead of 0 and the guard can never fire. -/
theorem C18_recursion_depth_never_raised (env : cfg_env) (d : Int)
    (mem file : Option (List Char)) (n : Nat) :
    (m_config_parse_config_file env d mem file).recursion_depth = d - 1
      ∧ (m_config_parse_config_file env d mem file).st
          = (if d > MAX_RECURSION_DEPTH then
               { parse_init with ret := -1, log := [(0, cfg_error.too_deep)] }
             else (m_config_parse_config_file env 0 mem file).st)
      ∧ (m_config_parse_config_file env 0 mem file).recursion_depth = -1
      ∧ (fun x => (m_config_parse_config_file env x mem file).recursion_depth)^[n] 0
          = -(n : Int)
      ∧ ¬ ((fun x => (m_config_parse_config_file env x mem file).recursion_depth)^[n] 0
          > MAX_RECURSION_DEPTH) := by
  have hn := depth_after_calls env mem file n 0
  refine ⟨rfl, ?_, rfl, by rw [hn]; omega, ?_⟩
  · have h0 : ¬ (0 : Int) > MAX_RECURSION_DEPTH := by decide
    by_cases hd : d > MAX_RECURSION_DEPTH
    · simp [m_config_parse_config_file, hd]
    · simp [m_config_parse_config_file, hd, h0]
  · rw [hn]
    unfold MAX_RECURSION_DEPTH
    omega

/-- C20: for every option name `k` (non-empty, of characters that the name loop
accepts, shorter than `MAX_OPT_LEN`, not of the form `[...]`) and every non-empty
value `v` shorter than `MAX_PARAM_LEN` that contains neither the quote character
`q` (`"` or `'`) nor a `NUL`, the line `k = qvq` is scanned as the pair `(k, v)`
without any error, whatever the buffer holds behind the line; read from a file
(`v` then has no newline) it sets the global option `k` to `v` and the call returns
1.  For instance `key = "value with space"` yields the value `value with space`,
and spaces and `#` inside the quotes are kept. -/
theorem C20_quoted_value (env : cfg_env) (buf k v : List Char) (q : Char)
    (hq : q = DQUOTE ∨ q = SQUOTE)
    (hne : k ≠ []) (hk : ∀ c ∈ k, opt_char c = true) (hklen : k.length < MAX_OPT_LEN)
    (hform : ¬ is_profile_form k)
    (hvne : v ≠ []) (hvlen : v.length < MAX_PARAM_LEN) (hvq : ∀ c ∈ v, c ≠ q)
    (hv0 : NUL ∉ v) (hvnl : ∀ c ∈ v, c ≠ '\n') :
    (∀ stale : List Char,
        parse_line (k ++ ' ' :: '=' :: ' ' :: q :: (v ++ q :: '\n' :: NUL :: stale))
          = line_result.option k v false)
      ∧ (m_config_parse_config_file env 0 (some buf)
          (some ((k ++ ' ' :: '=' :: ' ' :: q :: (v ++ [q])) ++ ['\n']))).st.actions
          = [cfg_action.set_option0 k v]
      ∧ (m_config_parse_config_file env 0 (some buf)
          (some ((k ++ ' ' :: '=' :: ' ' :: q :: (v ++ [q])) ++ ['\n']))).st.ret = 1
      ∧ parse_line ("key = \"value with space\"\n".toList ++ [NUL])
          = line_result.option "key".toList "value with space".toList false
      ∧ parse_line ("key = 'a # b'\n".toList ++ [NUL])
          = line_result.option "key".toList "a # b".toList false := by
  have hscan := fun stale => parse_line_quoted k v stale q hq hne hk hklen hform hvne hvlen hvq hv0
  refine ⟨hscan, ?_, ?_, by decide, by decide⟩
  all_goals
    have hqn : q ≠ '\n' := by rcases hq with rfl | rfl <;> decide
    have hnl : ∀ c ∈ k ++ ' ' :: '=' :: ' ' :: q :: (v ++ [q]), c ≠ '\n' := by
      intro c hc
      rcases List.mem_append.mp hc with h | h
      · intro h0
        have := hk c h
        rw [h0] at this
        exact absurd this (by decide)
      · simp only [List.mem_cons, List.mem_append, List.mem_singleton, List.not_mem_nil,
          or_false] at h
        rcases h with rfl | rfl | rfl | rfl | h | rfl
        · decide
        · decide
        · decide
        · exact hqn
        · exact hvnl c h
        · exact hqn
    have hlen : (k ++ ' ' :: '=' :: ' ' :: q :: (v ++ [q])).length + 1 < MAX_LINE_LEN := by
      simp [MAX_LINE_LEN, MAX_OPT_LEN, MAX_PARAM_LEN] at hklen hvlen ⊢
      omega
    have hrw : (k ++ ' ' :: '=' :: ' ' :: q :: (v ++ [q])) ++ '\n' :: NUL ::
          buf.drop ((k ++ ' ' :: '=' :: ' ' :: q :: (v ++ [q])).length + 2)
        = k ++ ' ' :: '=' :: ' ' :: q :: (v ++ q :: '\n' :: NUL ::
          buf.drop ((k ++ ' ' :: '=' :: ' ' :: q :: (v ++ [q])).length + 2)) := by
      simp
    rw [parse_file_single_line env buf _ hnl hlen, hrw, hscan]
    obtain ⟨a1, a2, _⟩ := apply_line_option_global env { parse_init with line_num := 1 }
      k v rfl
    first | exact a1 | exact a2

theorem C20_quoted_value_witness :
    (DQUOTE = DQUOTE ∨ DQUOTE = SQUOTE)
      ∧ (∀ c ∈ "sub-font".toList, opt_char c = true)
      ∧ "DejaVu Sans #1".toList.length < MAX_PARAM_LEN
      ∧ (m_config_parse_config_file env_ok 0 (some [])
          (some (("sub-font".toList ++ ' ' :: '=' :: ' ' :: DQUOTE
            :: ("DejaVu Sans #1".toList ++ [DQUOTE])) ++ ['\n']))).st.actions
          = [cfg_action.set_option0 "sub-font".toList "DejaVu Sans #1".toList] :=
  ⟨by decide, by decide, by decide,
   (C20_quoted_value env_ok [] "sub-font".toList "DejaVu Sans #1".toList DQUOTE
      (by decide) (by decide) (by decide) (by decide) (by unfold is_profile_form; decide)
      (by decide) (by decide) (by decide) (by decide) (by decide)).2.1⟩

/-! ## Theorems : descriptor fields -/

/-- C24: for every descriptor and every plane index `p`, `xs[p]` and `ys[p]` are the
chroma shifts `chroma_xs` and `chroma_ys` when `p < num_planes` and `p` is 1 or 2,
and 0 in every other case. -/
theorem C24_plane_chroma_shift (E : pixfmt_env) (fmt p : Nat) :
    (get_avutil_fmt E fmt).xs p
        = (if (p : Int) < (get_avutil_fmt E fmt).num_planes ∧ (p = 1 ∨ p = 2)
           then (get_avutil_fmt E fmt).chroma_xs else 0)
      ∧ (get_avutil_fmt E fmt).ys p
        = (if (p : Int) < (get_avutil_fmt E fmt).num_planes ∧ (p = 1 ∨ p = 2)
           then (get_avutil_fmt E fmt).chroma_ys else 0) := by
  unfold get_avutil_fmt
  by_cases h : E.pixfmt2imgfmt fmt = 0
  · simp [h, mp_imgfmt_desc_zero]
  · simp only [h, if_false]
    constructor <;> split_ifs <;> simp_all

theorem comp_step_bpp_val (el : Int) (hel : el = 1 ∨ el = 8)
    (st : (Nat → Int) × (Nat → Int)) (d : AVComponentDescriptor)
    (h : ∀ p, ∃ s : Nat, s ≤ 8 ∧ st.1 p = (s : Int) * el) :
    ∀ p, ∃ s : Nat, s ≤ 8 ∧ (comp_step el st d).1 p = (s : Int) * el := by
  have hs := d.step_minus1.isLt
  intro p
  unfold comp_step
  by_cases h0 : st.1 d.plane.val = 0
  · simp only [h0, if_true, arr_set]
    by_cases hp : p = d.plane.val
    · refine ⟨d.step_minus1.val + 1, by omega, ?_⟩
      simp only [hp, if_true]
      unfold int8
      rcases hel with he | he <;> subst he <;> push_cast <;> omega
    · simp only [hp, if_false]
      exact h p
  · simp only [h0, if_false]
    exact h p

theorem comp_loop_bpp_val (pd : AVPixFmtDescriptor) :
    ∀ p, ∃ s : Nat, s ≤ 8 ∧ (comp_loop pd).1 p
      = (s : Int) * (if pd.flag_BITSTREAM then 1 else 8) := by
  unfold comp_loop
  have hel : (if pd.flag_BITSTREAM then (1 : Int) else 8) = 1
      ∨ (if pd.flag_BITSTREAM then (1 : Int) else 8) = 8 := by
    cases pd.flag_BITSTREAM <;> simp
  generalize (if pd.flag_BITSTREAM then (1 : Int) else 8) = el at hel ⊢
  have key : ∀ (l : List AVComponentDescriptor) (st : (Nat → Int) × (Nat → Int)),
      (∀ p, ∃ s : Nat, s ≤ 8 ∧ st.1 p = (s : Int) * el) →
      ∀ p, ∃ s : Nat, s ≤ 8 ∧ (l.foldl (comp_step el) st).1 p = (s : Int) * el := by
    intro l
    induction l with
    | nil => intro st h; exact h
    | cons a l ih =>
      intro st h
      exact ih _ (comp_step_bpp_val el hel st a h)
  exact key pd.comp _ (fun p => ⟨0, by omega, by simp⟩)

theorem get_avutil_fmt_bytes (E : pixfmt_env) (fmt : Nat) (h : E.pixfmt2imgfmt fmt ≠ 0)
    (p : Nat) :
    (get_avutil_fmt E fmt).bytes p
      = (if (!(E.av_pix_fmt_descriptors fmt).flag_HWACCEL
              && !(E.av_pix_fmt_descriptors fmt).flag_BITSTREAM) = true
            ∧ (p : Int) < count_planes (comp_loop (E.av_pix_fmt_descriptors fmt)).1
         then int8 (Int.tdiv ((comp_loop (E.av_pix_fmt_descriptors fmt)).1 p) 8) else 0) := by
  unfold get_avutil_fmt
  simp only [h, if_false]
  rfl

theorem flags_before_yuv_p_unaligned (E : pixfmt_env) (fmt : Nat)
    (hrgb : E.MP_IMGFLAG_RGB &&& MP_IMGFLAG_BYTE_ALIGNED = 0) :
    flags_before_yuv_p E fmt &&& MP_IMGFLAG_BYTE_ALIGNED = 0 := by
  unfold flags_before_yuv_p
  simp only [MP_IMGFLAG_NE, MP_IMGFLAG_YUV, MP_IMGFLAG_ALPHA, MP_IMGFLAG_PLANAR]
  split_ifs <;> simp only [lor_and_eq_zero, hrgb, and_true, true_and] <;> decide

theorem byte_aligned_flag_iff (E : pixfmt_env) (fmt : Nat) (h : E.pixfmt2imgfmt fmt ≠ 0)
    (hrgb : E.MP_IMGFLAG_RGB &&& MP_IMGFLAG_BYTE_ALIGNED = 0) :
    (get_avutil_fmt E fmt).flags &&& MP_IMGFLAG_BYTE_ALIGNED ≠ 0
      ↔ (!(E.av_pix_fmt_descriptors fmt).flag_HWACCEL
          && !(E.av_pix_fmt_descriptors fmt).flag_BITSTREAM) = true := by
  have hclear := flags_before_yuv_p_unaligned E fmt hrgb
  have hyp : MP_IMGFLAG_YUV_P &&& MP_IMGFLAG_BYTE_ALIGNED = 0 := by decide
  have hba : MP_IMGFLAG_BYTE_ALIGNED &&& MP_IMGFLAG_BYTE_ALIGNED ≠ 0 := by decide
  rw [get_avutil_fmt_flags E fmt h]
  by_cases ha : (!(E.av_pix_fmt_descriptors fmt).flag_HWACCEL
      && !(E.av_pix_fmt_descriptors fmt).flag_BITSTREAM) = true
  · rw [if_pos ha]
    simp only [ha, iff_true]
    exact (lor_and_ne _ _ _).mpr (Or.inr hba)
  · rw [if_neg ha]
    simp only [ha, iff_false, not_not]
    split_ifs
    · exact iff_false_intro (not_not.mpr ((lor_and_eq_zero _ _ _).mpr ⟨hclear, hyp⟩))
    · exact iff_false_intro (not_not.mpr hclear)
    · exact iff_false_intro (not_not.mpr hclear)

/-- C22: for every known format (one that `pixfmt2imgfmt` maps to an id),
`MP_IMGFLAG_BYTE_ALIGNED` is set in the descriptor if and only if the layout is
neither hardware-only nor bitstream; when it is set, `bpp[p] = 8 * bytes[p]` for
every plane `p < num_planes`, and when it is not set `bytes[p] = 0` for every
plane.  (`MP_IMGFLAG_RGB`, which the header leaves undefined, is taken not to
contain the bit of `MP_IMGFLAG_BYTE_ALIGNED`.) -/
theorem C22_byte_aligned (E : pixfmt_env) (fmt : Nat) (h : E.pixfmt2imgfmt fmt ≠ 0)
    (hrgb : E.MP_IMGFLAG_RGB &&& MP_IMGFLAG_BYTE_ALIGNED = 0) :
    ((get_avutil_fmt E fmt).flags &&& MP_IMGFLAG_BYTE_ALIGNED ≠ 0
        ↔ (E.av_pix_fmt_descriptors fmt).flag_HWACCEL = false
          ∧ (E.av_pix_fmt_descriptors fmt).flag_BITSTREAM = false)
      ∧ ((get_avutil_fmt E fmt).flags &&& MP_IMGFLAG_BYTE_ALIGNED ≠ 0 →
          ∀ p : Nat, (p : Int) < (get_avutil_fmt E fmt).num_planes →
            (get_avutil_fmt E fmt).bpp p = 8 * (get_avutil_fmt E fmt).bytes p)
      ∧ ((get_avutil_fmt E fmt).flags &&& MP_IMGFLAG_BYTE_ALIGNED = 0 →
          ∀ p : Nat, (get_avutil_fmt E fmt).bytes p = 0) := by
  have hiff := byte_aligned_flag_iff E fmt h hrgb
  obtain ⟨hb, hn⟩ := get_avutil_fmt_bpp E fmt h
  refine ⟨?_, ?_, ?_⟩
  · rw [hiff]
    cases (E.av_pix_fmt_descriptors fmt).flag_HWACCEL <;>
      cases (E.av_pix_fmt_descriptors fmt).flag_BITSTREAM <;> simp
  · intro hset p hp
    have ha := hiff.mp hset
    rw [hn] at hp
    rw [get_avutil_fmt_bytes E fmt h p, hb]
    simp only [ha, hp, and_self, if_true]
    obtain ⟨s, hs, hval⟩ := comp_loop_bpp_val (E.av_pix_fmt_descriptors fmt) p
    have hbs : (E.av_pix_fmt_descriptors fmt).flag_BITSTREAM = false := by
      cases hx : (E.av_pix_fmt_descriptors fmt).flag_BITSTREAM
      · rfl
      · rw [hx] at ha; simp at ha
    rw [hval, hbs]
    simp only [Bool.false_eq_true, if_false]
    have ht : Int.tdiv ((s : Int) * 8) 8 = s := by
      rw [Int.tdiv_eq_ediv (by positivity) (by omega)]
      omega
    rw [ht]
    unfold int8
    omega
  · intro hclr p
    have ha : ¬ ((!(E.av_pix_fmt_descriptors fmt).flag_HWACCEL
        && !(E.av_pix_fmt_descriptors fmt).flag_BITSTREAM) = true) := by
      intro hx; exact (hiff.mpr hx) hclr
    rw [get_avutil_fmt_bytes E fmt h p]
    simp [ha]

theorem C22_byte_aligned_witness :
    sample_env.pixfmt2imgfmt 1 ≠ 0
      ∧ sample_env.MP_IMGFLAG_RGB &&& MP_IMGFLAG_BYTE_ALIGNED = 0
      ∧ (get_avutil_fmt sample_env 1).bytes 2 = 2
      ∧ ((get_avutil_fmt sample_env 1).flags &&& MP_IMGFLAG_BYTE_ALIGNED ≠ 0
          ↔ (sample_env.av_pix_fmt_descriptors 1).flag_HWACCEL = false
            ∧ (sample_env.av_pix_fmt_descriptors 1).flag_BITSTREAM = false) :=
  ⟨by decide, by decide, by decide,
   (C22_byte_aligned sample_env 1 (by decide) (by decide)).1⟩
theorem comp_loop_bpp_nonneg (pd : AVPixFmtDescriptor) (p : Nat) :
    0 ≤ (comp_loop pd).1 p := by
  obtain ⟨s, _, hval⟩ := comp_loop_bpp_val pd p
  rw [hval]
  cases pd.flag_BITSTREAM <;> simp

theorem shiftRight_nonneg (m : Int) (n : Nat) (h : 0 ≤ m) : 0 ≤ m >>> n := by
  rw [Int.shiftRight_eq_div_pow]
  exact Int.ediv_nonneg h (by positivity)

theorem avgbpp16_eq (bpp : Nat → Int) (xs ys : Nat → Nat) :
    avgbpp16 bpp xs ys
      = (((16 * bpp 0) >>> xs 0) >>> ys 0) + (((16 * bpp 1) >>> xs 1) >>> ys 1)
        + (((16 * bpp 2) >>> xs 2) >>> ys 2) + (((16 * bpp 3) >>> xs 3) >>> ys 3) := by
  simp [avgbpp16]

theorem avgbpp16_nonneg (bpp : Nat → Int) (xs ys : Nat → Nat) (h : ∀ p, 0 ≤ bpp p) :
    0 ≤ avgbpp16 bpp xs ys := by
  rw [avgbpp16_eq]
  have k : ∀ p, 0 ≤ ((16 * bpp p) >>> xs p) >>> ys p := fun p =>
    shiftRight_nonneg _ _ (shiftRight_nonneg _ _ (by have := h p; omega))
  have := k 0; have := k 1; have := k 2; have := k 3
  omega

theorem avgbpp16_chroma (bpp : Nat → Int) (w h : Nat) :
    avgbpp16 bpp (fun p => if p = 1 ∨ p = 2 then w else 0)
        (fun p => if p = 1 ∨ p = 2 then h else 0)
      = (((16 * bpp 0) >>> (0 : Nat)) >>> (0 : Nat)) + (((16 * bpp 1) >>> w) >>> h)
        + (((16 * bpp 2) >>> w) >>> h) + (((16 * bpp 3) >>> (0 : Nat)) >>> (0 : Nat)) := by
  simp [avgbpp16]

theorem get_avutil_fmt_avg_bpp (E : pixfmt_env) (fmt : Nat) :
    (get_avutil_fmt E fmt).avg_bpp
      = int8 (Int.tdiv
          ((((16 * (get_avutil_fmt E fmt).bpp 0) >>> (0 : Nat)) >>> (0 : Nat))
            + (((16 * (get_avutil_fmt E fmt).bpp 1)
                  >>> (E.av_pix_fmt_descriptors fmt).log2_chroma_w)
                  >>> (E.av_pix_fmt_descriptors fmt).log2_chroma_h)
            + (((16 * (get_avutil_fmt E fmt).bpp 2)
                  >>> (E.av_pix_fmt_descriptors fmt).log2_chroma_w)
                  >>> (E.av_pix_fmt_descriptors fmt).log2_chroma_h)
            + (((16 * (get_avutil_fmt E fmt).bpp 3) >>> (0 : Nat)) >>> (0 : Nat))) 16) := by
  by_cases h : E.pixfmt2imgfmt fmt = 0
  · have hz : get_avutil_fmt E fmt = mp_imgfmt_desc_zero := by
      unfold get_avutil_fmt; simp [h]
    rw [hz]
    simp [mp_imgfmt_desc_zero, int8]
  · obtain ⟨hb, _⟩ := get_avutil_fmt_bpp E fmt h
    have ha : (get_avutil_fmt E fmt).avg_bpp
        = int8 (Int.tdiv (avgbpp16 (comp_loop (E.av_pix_fmt_descriptors fmt)).1
            (fun p => if p = 1 ∨ p = 2 then (E.av_pix_fmt_descriptors fmt).log2_chroma_w else 0)
            (fun p => if p = 1 ∨ p = 2 then (E.av_pix_fmt_descriptors fmt).log2_chroma_h else 0))
            16) := by
      unfold get_avutil_fmt
      simp only [h, if_false]
      rfl
    rw [ha, hb, avgbpp16_chroma]

theorem avg_sum_nonneg (E : pixfmt_env) (fmt : Nat) :
    0 ≤ (((16 * (get_avutil_fmt E fmt).bpp 0) >>> (0 : Nat)) >>> (0 : Nat))
          + (((16 * (get_avutil_fmt E fmt).bpp 1)
                >>> (E.av_pix_fmt_descriptors fmt).log2_chroma_w)
                >>> (E.av_pix_fmt_descriptors fmt).log2_chroma_h)
          + (((16 * (get_avutil_fmt E fmt).bpp 2)
                >>> (E.av_pix_fmt_descriptors fmt).log2_chroma_w)
                >>> (E.av_pix_fmt_descriptors fmt).log2_chroma_h)
          + (((16 * (get_avutil_fmt E fmt).bpp 3) >>> (0 : Nat)) >>> (0 : Nat)) := by
  have hb : ∀ p, 0 ≤ (get_avutil_fmt E fmt).bpp p := by
    intro p
    by_cases h : E.pixfmt2imgfmt fmt = 0
    · have hz : get_avutil_fmt E fmt = mp_imgfmt_desc_zero := by
        unfold get_avutil_fmt; simp [h]
      rw [hz]
      simp [mp_imgfmt_desc_zero]
    · rw [(get_avutil_fmt_bpp E fmt h).1]
      exact comp_loop_bpp_nonneg _ p
  have hn := avgbpp16_nonneg (get_avutil_fmt E fmt).bpp
    (fun p => if p = 1 ∨ p = 2 then (E.av_pix_fmt_descriptors fmt).log2_chroma_w else 0)
    (fun p => if p = 1 ∨ p = 2 then (E.av_pix_fmt_descriptors fmt).log2_chroma_h else 0) hb
  rw [avgbpp16_chroma] at hn
  exact hn

/-- C23 (as stated, refuted): for a layout with 64 bits per pixel on the planes 0
and 3 the sum is 2048 and the quotient 128, but the `int8_t` field `avg_bpp` holds
-128. -/
theorem C23_counterexample :
    (get_avutil_fmt (layout_env layout_two_wide_planes) 0).bpp 0 = 64
      ∧ (get_avutil_fmt (layout_env layout_two_wide_planes) 0).bpp 1 = 0
      ∧ (get_avutil_fmt (layout_env layout_two_wide_planes) 0).bpp 2 = 0
      ∧ (get_avutil_fmt (layout_env layout_two_wide_planes) 0).bpp 3 = 64
      ∧ Int.tdiv
          ((((16 * (get_avutil_fmt (layout_env layout_two_wide_planes) 0).bpp 0)
                >>> (0 : Nat)) >>> (0 : Nat))
            + (((16 * (get_avutil_fmt (layout_env layout_two_wide_planes) 0).bpp 1)
                >>> layout_two_wide_planes.log2_chroma_w)
                >>> layout_two_wide_planes.log2_chroma_h)
            + (((16 * (get_avutil_fmt (layout_env layout_two_wide_planes) 0).bpp 2)
                >>> layout_two_wide_planes.log2_chroma_w)
                >>> layout_two_wide_planes.log2_chroma_h)
            + (((16 * (get_avutil_fmt (layout_env layout_two_wide_planes) 0).bpp 3)
                >>> (0 : Nat)) >>> (0 : Nat))) 16 = 128
      ∧ (get_avutil_fmt (layout_env layout_two_wide_planes) 0).avg_bpp = -128 := by
  decide

/-- C23 (amended): for every layout, the descriptor's `avg_bpp` is the sum over the
planes `p = 0..3` of `(16 * bpp[p]) >> sx[p] >> sy[p]` divided by 16 with
truncation, where `sx[p]`, `sy[p]` are the layout's chroma shifts for `p = 1, 2` and
0 for `p = 0, 3`, as stored into the `int8_t` field: the quotient itself when it is
below 128 (sum below 2048), and the quotient reduced modulo 256 into -128..127 in
general.  It is 12 for 8 bit three-plane 4:2:0, 16 for 4:2:2 and 24 for 4:4:4. -/
theorem C23_avg_bpp_int8 :
    (∀ (E : pixfmt_env) (fmt : Nat),
        (get_avutil_fmt E fmt).avg_bpp
          = int8 (Int.tdiv
              ((((16 * (get_avutil_fmt E fmt).bpp 0) >>> (0 : Nat)) >>> (0 : Nat))
                + (((16 * (get_avutil_fmt E fmt).bpp 1)
                      >>> (E.av_pix_fmt_descriptors fmt).log2_chroma_w)
                      >>> (E.av_pix_fmt_descriptors fmt).log2_chroma_h)
                + (((16 * (get_avutil_fmt E fmt).bpp 2)
                      >>> (E.av_pix_fmt_descriptors fmt).log2_chroma_w)
                      >>> (E.av_pix_fmt_descriptors fmt).log2_chroma_h)
                + (((16 * (get_avutil_fmt E fmt).bpp 3) >>> (0 : Nat)) >>> (0 : Nat))) 16))
      ∧ (∀ (E : pixfmt_env) (fmt : Nat),
          (((16 * (get_avutil_fmt E fmt).bpp 0) >>> (0 : Nat)) >>> (0 : Nat))
            + (((16 * (get_avutil_fmt E fmt).bpp 1)
                  >>> (E.av_pix_fmt_descriptors fmt).log2_chroma_w)
                  >>> (E.av_pix_fmt_descriptors fmt).log2_chroma_h)
            + (((16 * (get_avutil_fmt E fmt).bpp 2)
                  >>> (E.av_pix_fmt_descriptors fmt).log2_chroma_w)
                  >>> (E.av_pix_fmt_descriptors fmt).log2_chroma_h)
            + (((16 * (get_avutil_fmt E fmt).bpp 3) >>> (0 : Nat)) >>> (0 : Nat)) < 2048 →
          (get_avutil_fmt E fmt).avg_bpp
            = Int.tdiv
                ((((16 * (get_avutil_fmt E fmt).bpp 0) >>> (0 : Nat)) >>> (0 : Nat))
                  + (((16 * (get_avutil_fmt E fmt).bpp 1)
                        >>> (E.av_pix_fmt_descriptors fmt).log2_chroma_w)
                        >>> (E.av_pix_fmt_descriptors fmt).log2_chroma_h)
                  + (((16 * (get_avutil_fmt E fmt).bpp 2)
                        >>> (E.av_pix_fmt_descriptors fmt).log2_chroma_w)
                        >>> (E.av_pix_fmt_descriptors fmt).log2_chroma_h)
                  + (((16 * (get_avutil_fmt E fmt).bpp 3) >>> (0 : Nat)) >>> (0 : Nat))) 16)
      ∧ (get_avutil_fmt (layout_env (layout_yuv_planar8 1 1)) 0).avg_bpp = 12
      ∧ (get_avutil_fmt (layout_env (layout_yuv_planar8 1 0)) 0).avg_bpp = 16
      ∧ (get_avutil_fmt (layout_env (layout_yuv_planar8 0 0)) 0).avg_bpp = 24 := by
  refine ⟨get_avutil_fmt_avg_bpp, ?_, by decide, by decide, by decide⟩
  intro E fmt hfit
  have hn := avg_sum_nonneg E fmt
  rw [get_avutil_fmt_avg_bpp]
  generalize (((16 * (get_avutil_fmt E fmt).bpp 0) >>> (0 : Nat)) >>> (0 : Nat))
      + (((16 * (get_avutil_fmt E fmt).bpp 1)
            >>> (E.av_pix_fmt_descriptors fmt).log2_chroma_w)
            >>> (E.av_pix_fmt_descriptors fmt).log2_chroma_h)
      + (((16 * (get_avutil_fmt E fmt).bpp 2)
            >>> (E.av_pix_fmt_descriptors fmt).log2_chroma_w)
            >>> (E.av_pix_fmt_descriptors fmt).log2_chroma_h)
      + (((16 * (get_avutil_fmt E fmt).bpp 3) >>> (0 : Nat)) >>> (0 : Nat)) = S at hn hfit ⊢
  rw [Int.tdiv_eq_ediv hn (by omega)]
  unfold int8
  omega

theorem C23_avg_bpp_int8_witness :
    (get_avutil_fmt sample_env 1).avg_bpp
      = Int.tdiv
          ((((16 * (get_avutil_fmt sample_env 1).bpp 0) >>> (0 : Nat)) >>> (0 : Nat))
            + (((16 * (get_avutil_fmt sample_env 1).bpp 1)
                  >>> (sample_env.av_pix_fmt_descriptors 1).log2_chroma_w)
                  >>> (sample_env.av_pix_fmt_descriptors 1).log2_chroma_h)
            + (((16 * (get_avutil_fmt sample_env 1).bpp 2)
                  >>> (sample_env.av_pix_fmt_descriptors 1).log2_chroma_w)
                  >>> (sample_env.av_pix_fmt_descriptors 1).log2_chroma_h)
            + (((16 * (get_avutil_fmt sample_env 1).bpp 3) >>> (0 : Nat)) >>> (0 : Nat))) 16 :=
  C23_avg_bpp_int8.2.1 sample_env 1 (by decide)

/-! ## Theorems : the plane map and the slot indices of the Xv driver -/

theorem find_xv_format_yv12 (f : Nat) (h : find_xv_format f = MP_FOURCC_YV12) :
    f = IMGFMT_420P := by
  unfold find_xv_format fmt_table at h
  simp only [find_xv_format_in] at h
  split_ifs at h with h1 h2 h3
  · exact h1.symm
  · exact absurd h (by decide)
  · exact absurd h (by decide)
  · exact absurd h (by decide)

theorem config_ok_format (ctx : xvctx) (w h f : Nat) (hok : (config ctx w h f).2 = 0) :
    (config ctx w h f).1.image_format = f
      ∧ ((config ctx w h f).1.xv_format = MP_FOURCC_YV12 → f = IMGFMT_420P) := by
  unfold config at hok ⊢
  simp only at hok ⊢
  split_ifs at hok ⊢ with h1 h2
  · simp at hok
  · simp at hok
  · refine ⟨rfl, ?_⟩
    simp only
    rw [config_scan_eq]
    intro hx
    split_ifs at hx with h3
    · exact find_xv_format_yv12 f hx
    · exact absurd hx (by decide)

/-- C25: `get_xv_buffer` takes plane `n` of the returned image from plane `s(n)` of
the XvImage.  When the negotiated fourcc is YV12, `s(0) = 0`, `s(1) = 2`, `s(2) = 1`;
for every other fourcc `s` is the identity; and after a successful `config`, with
`IMGFMT_420P` a three-plane format, `s` maps the plane indices below `num_planes`
of the configured image format into themselves and is its own inverse there. -/
theorem C25_plane_map (E : pixfmt_env) (ctx : xvctx) (w h f : Nat)
    (hok : (config ctx w h f).2 = 0)
    (h420 : (mp_imgfmt_get_desc E IMGFMT_420P).num_planes = 3) :
    ((config ctx w h f).1.xv_format = MP_FOURCC_YV12 →
        get_xv_buffer_sn (config ctx w h f).1 0 = 0
          ∧ get_xv_buffer_sn (config ctx w h f).1 1 = 2
          ∧ get_xv_buffer_sn (config ctx w h f).1 2 = 1)
      ∧ ((config ctx w h f).1.xv_format ≠ MP_FOURCC_YV12 →
          ∀ n, get_xv_buffer_sn (config ctx w h f).1 n = n)
      ∧ (∀ n ∈ get_xv_buffer_planes E (config ctx w h f).1,
          n ∈ List.range (mp_imgfmt_get_desc E (config ctx w h f).1.image_format).num_planes.toNat)
      ∧ (∀ n ∈ List.range (mp_imgfmt_get_desc E (config ctx w h f).1.image_format).num_planes.toNat,
          get_xv_buffer_sn (config ctx w h f).1 (get_xv_buffer_sn (config ctx w h f).1 n) = n) := by
  obtain ⟨hfmt, hyv⟩ := config_ok_format ctx w h f hok
  generalize (config ctx w h f).1 = c at hfmt hyv ⊢
  by_cases hx : c.xv_format = MP_FOURCC_YV12
  · have hf := hyv hx
    rw [hfmt, hf, h420]
    refine ⟨fun _ => ?_, fun hne => absurd hx hne, ?_, ?_⟩
    · simp [get_xv_buffer_sn, hx]
    · intro n hn
      unfold get_xv_buffer_planes at hn
      rw [hfmt, hf, h420] at hn
      simp only [List.mem_map, List.mem_range] at hn ⊢
      obtain ⟨m, hm, rfl⟩ := hn
      have hm3 : m < 3 := hm
      show get_xv_buffer_sn c m < 3
      interval_cases m <;> simp [get_xv_buffer_sn, hx]
    · intro n hn
      have hn3 : n < 3 := List.mem_range.mp hn
      interval_cases n <;> simp [get_xv_buffer_sn, hx]
  · have hid : ∀ n, get_xv_buffer_sn c n = n := by
      intro n; simp [get_xv_buffer_sn, hx]
    refine ⟨fun he => absurd he hx, fun _ => hid, ?_, ?_⟩
    · intro n hn
      unfold get_xv_buffer_planes at hn
      simp only [List.mem_map] at hn
      obtain ⟨m, hm, rfl⟩ := hn
      rw [hid]; exact hm
    · intro n _
      rw [hid, hid]

theorem C25_plane_map_witness :
    (config (preinit_ctx [MP_FOURCC_YV12] 0 0) 640 480 IMGFMT_420P).2 = 0
      ∧ (mp_imgfmt_get_desc sample_env IMGFMT_420P).num_planes = 3
      ∧ get_xv_buffer_planes sample_env
          (config (preinit_ctx [MP_FOURCC_YV12] 0 0) 640 480 IMGFMT_420P).1 = [0, 2, 1]
      ∧ ((config (preinit_ctx [MP_FOURCC_YV12] 0 0) 640 480 IMGFMT_420P).1.xv_format
            = MP_FOURCC_YV12 →
          get_xv_buffer_sn (config (preinit_ctx [MP_FOURCC_YV12] 0 0) 640 480 IMGFMT_420P).1 0 = 0
          ∧ get_xv_buffer_sn (config (preinit_ctx [MP_FOURCC_YV12] 0 0) 640 480 IMGFMT_420P).1 1 = 2
          ∧ get_xv_buffer_sn (config (preinit_ctx [MP_FOURCC_YV12] 0 0) 640 480 IMGFMT_420P).1 2 = 1) :=
  ⟨by decide, by decide, by decide,
   (C25_plane_map sample_env (preinit_ctx [MP_FOURCC_YV12] 0 0) 640 480 IMGFMT_420P
      (by decide) (by decide)).1⟩

/-- C26 (the code at the failing inputs): right after a successful `config`, `get_screenshot` and `redraw_frame` hand
the slot index `visible_buf = -1` to `get_xv_buffer`, and after `redraw_frame` also
`draw_image` and `flip_page` use the index -1: the indices used do not all lie in
`[0, num_buffers)`. -/
theorem C26_slot_index_out_of_range :
    (config (preinit_ctx [MP_FOURCC_YV12] 0 0) 640 480 IMGFMT_420P).2 = 0
      ∧ (config (preinit_ctx [MP_FOURCC_YV12] 0 0) 640 480 IMGFMT_420P).1.num_buffers = 2
      ∧ xv_run_slots (config (preinit_ctx [MP_FOURCC_YV12] 0 0) 640 480 IMGFMT_420P).1
          [xv_op.op_get_screenshot] = [-1]
      ∧ xv_run_slots (config (preinit_ctx [MP_FOURCC_YV12] 0 0) 640 480 IMGFMT_420P).1
          [xv_op.op_redraw_frame, xv_op.op_draw_image, xv_op.op_flip_page] = [-1, -1, -1]
      ∧ slot_in_range (config (preinit_ctx [MP_FOURCC_YV12] 0 0) 640 480 IMGFMT_420P).1 (-1)
          = false := by
  decide


/-! ## Theorems : what the parser reads and applies -/

theorem read_quoted_no_quote (q : Char) (l param : List Char) (h : ∀ c ∈ l, c ≠ q) :
    read_quoted q l param = none := by
  induction l generalizing param with
  | nil => rfl
  | cons c l ih =>
    have hc : c ≠ q := h c (List.mem_cons_self _ _)
    rw [read_quoted]
    simp only [hc, ne_eq, not_false_eq_true, if_true]
    split_ifs
    · rfl
    · exact ih _ (fun x hx => h x (List.mem_cons_of_mem _ hx))

theorem parse_line_unterminated (stale : List Char) (h : ∀ c ∈ stale, c ≠ DQUOTE) :
    parse_line (unterminated_quote_alone ++ NUL :: stale)
      = line_result.err cfg_error.too_long_parameter := by
  have hform : ¬ is_profile_form [ 'k' ] := by unfold is_profile_form; decide
  have e : unterminated_quote_alone ++ NUL :: stale
      = [ 'k' ] ++ '=' :: DQUOTE :: 'v' :: '\n' :: NUL :: stale := rfl
  rw [e, parse_line_name [ 'k' ] _ '=' (by decide) (by decide) (by decide) hform (by decide)]
  have s1 : skip_ws ('=' :: DQUOTE :: 'v' :: '\n' :: NUL :: stale)
      = '=' :: DQUOTE :: 'v' :: '\n' :: NUL :: stale := skip_ws_stop _ _ (by decide)
  have s2 : skip_ws (DQUOTE :: 'v' :: '\n' :: NUL :: stale)
      = DQUOTE :: 'v' :: '\n' :: NUL :: stale := skip_ws_stop _ _ (by decide)
  have r1 : read_quoted DQUOTE ('v' :: '\n' :: NUL :: stale) [] = none := by
    apply read_quoted_no_quote
    intro c hc
    simp only [List.mem_cons] at hc
    rcases hc with rfl | rfl | rfl | hc
    · decide
    · decide
    · decide
    · exact h c hc
  rw [s1]
  simp only [at0, List.headD_cons, List.drop_succ_cons, List.drop_zero, s2, r1,
    Option.map_none', ne_eq, not_true_eq_false, if_false, if_true, true_or]

/-- C27 (the code at the failing inputs): the loop that reads a quoted value does not stop at the end of the line.
For the line `k="v` the scan runs on behind the terminating `NUL`: when the buffer
still holds a double quote from an earlier, longer line, the line is accepted and
sets `k`; when the buffer holds no double quote behind the line, the line ends in
`too long parameter`.  The result for the line depends on what the buffer holds
behind it. -/
theorem C27_quoted_scan_passes_line_end :
    parse_line (unterminated_quote_alone ++ NUL :: [ '7', '8', DQUOTE, '\n', NUL ])
        = line_result.option [ 'k' ] [ 'v', '\n' ] false
      ∧ (∀ stale : List Char, (∀ c ∈ stale, c ≠ DQUOTE) →
          parse_line (unterminated_quote_alone ++ NUL :: stale)
            = line_result.err cfg_error.too_long_parameter)
      ∧ (m_config_parse_config_file env_ok 0 (some [])
            (some unterminated_quote_after_comment)).st.actions
          = [ cfg_action.set_option0 [ 'k' ] [ 'v', '\n' ] ]
      ∧ (m_config_parse_config_file env_ok 0 (some [])
            (some unterminated_quote_after_comment)).st.ret = 1
      ∧ (m_config_parse_config_file env_ok 0 (some [])
            (some unterminated_quote_alone)).st.actions = []
      ∧ (m_config_parse_config_file env_ok 0 (some [])
            (some unterminated_quote_alone)).st.ret = -1 :=
  ⟨by decide, parse_line_unterminated, by decide, by decide, by decide, by decide⟩

theorem C27_quoted_scan_passes_line_end_witness :
    (∀ c ∈ [ NUL, 'x', NUL ], c ≠ DQUOTE)
      ∧ parse_line (unterminated_quote_alone ++ NUL :: [ NUL, 'x', NUL ])
        = line_result.err cfg_error.too_long_parameter :=
  ⟨by decide, C27_quoted_scan_passes_line_end.2.1 [ NUL, 'x', NUL ] (by decide)⟩

/-- C28 (as stated, refuted): for the line `foo=bar baz` the parser reports
`extra characters` and the call returns -1, yet `foo=bar` is applied. -/
theorem C28_counterexample :
    (m_config_parse_config_file env_ok 0 (some [])
        (some option_with_extra_characters)).st.ret = -1
      ∧ (m_config_parse_config_file env_ok 0 (some [])
          (some option_with_extra_characters)).st.log = [(1, cfg_error.extra_characters)]
      ∧ (m_config_parse_config_file env_ok 0 (some [])
          (some option_with_extra_characters)).st.actions
        = [ cfg_action.set_option0 "foo".toList "bar".toList ] := by
  decide

/-- C28 (amended): a line that the scan rejects (`too long option`, `parse error`,
`needs a parameter`, `too long parameter`) sets the return value to -1 and applies
nothing, neither an option nor a profile declaration; a line reported with
`extra characters` sets the return value to -1 as well, but its option is applied,
to the profile in force or globally, with the value read before the extra
characters. -/
theorem C28_rejected_line_applies_nothing (env : cfg_env) (line : List Char)
    (st : parse_state) :
    (∀ e, parse_line line = line_result.err e →
        (process_line env line st).ret = -1
          ∧ (process_line env line st).actions = st.actions
          ∧ (process_line env line st).profile = st.profile
          ∧ (process_line env line st).errors = st.errors + 1)
      ∧ (∀ opt param, parse_line line = line_result.option opt param true →
          (process_line env line st).ret = -1
            ∧ (process_line env line st).errors = st.errors
            ∧ ∃ act, (process_line env line st).actions = st.actions ++ [act]
                ∧ assignment_of act = some (st.profile, opt, param)) := by
  constructor
  · intro e he
    unfold process_line
    rw [he]
    simp [apply_line]
  · intro opt param he
    unfold process_line
    rw [he]
    simp only [apply_line, if_true]
    cases hp : st.profile with
    | none =>
      refine ⟨?_, ?_, cfg_action.set_option0 opt param, ?_, rfl⟩ <;> split_ifs <;> simp
    | some p =>
      by_cases ho : opt = "profile-desc".toList
      · refine ⟨?_, ?_, cfg_action.set_desc p param, ?_, ?_⟩
        · simp [ho]
        · simp [ho]
        · simp [ho]
        · simp [assignment_of, ho]
      · refine ⟨?_, ?_, cfg_action.set_profile_option p opt param, ?_, rfl⟩ <;>
          simp only [ho, if_false] <;> split_ifs <;> simp

theorem C28_rejected_line_applies_nothing_witness :
    parse_line ("=\n".toList ++ [ NUL ]) = line_result.err cfg_error.parse_error
      ∧ (process_line env_ok ("=\n".toList ++ [ NUL ]) parse_init).ret = -1
      ∧ (process_line env_ok ("=\n".toList ++ [ NUL ]) parse_init).actions = []
      ∧ (process_line env_ok ("=\n".toList ++ [ NUL ]) parse_init).profile = none
      ∧ (process_line env_ok ("=\n".toList ++ [ NUL ]) parse_init).errors = 1 :=
  ⟨by decide,
   (C28_rejected_line_applies_nothing env_ok ("=\n".toList ++ [ NUL ]) parse_init).1
     cfg_error.parse_error (by decide)⟩

/-! ## Theorems : the lavf demuxer -/

/-- C29 (the code at the failing inputs): for a raw video stream, `handle_stream` leaves the same codec tag
`MKTAG(24,'R','G','B')` for `PIX_FMT_RGB24` and for `PIX_FMT_BGR24` (whenever that tag
is not 0): the assignment of `MKTAG(24,'B','G','R')` under `case PIX_FMT_RGB24` is
overwritten, as control falls through into `case PIX_FMT_BGR24`. -/
theorem C29_rgb24_tag_overwritten (L : lavf_env) (codec_tag : Nat)
    (hne : L.MKTAG 24 'R' 'G' 'B' ≠ 0) :
    handle_stream_codec_tag L L.CODEC_ID_RAWVIDEO L.PIX_FMT_RGB24 codec_tag
        = L.MKTAG 24 'R' 'G' 'B'
      ∧ handle_stream_codec_tag L L.CODEC_ID_RAWVIDEO L.PIX_FMT_BGR24 codec_tag
        = L.MKTAG 24 'R' 'G' 'B' := by
  unfold handle_stream_codec_tag switch_pix_fmt case_PIX_FMT_BGR24
  constructor
  · simp [hne]
  · by_cases h : L.PIX_FMT_BGR24 = L.PIX_FMT_RGB24 <;> simp [hne, h]

theorem C29_rgb24_tag_overwritten_witness :
    sample_lavf_env.MKTAG 24 'R' 'G' 'B' ≠ 0
      ∧ sample_lavf_env.PIX_FMT_RGB24 ≠ sample_lavf_env.PIX_FMT_BGR24
      ∧ sample_lavf_env.MKTAG 24 'B' 'G' 'R' ≠ sample_lavf_env.MKTAG 24 'R' 'G' 'B'
      ∧ handle_stream_codec_tag sample_lavf_env sample_lavf_env.CODEC_ID_RAWVIDEO
          sample_lavf_env.PIX_FMT_RGB24 0 = sample_lavf_env.MKTAG 24 'R' 'G' 'B'
      ∧ handle_stream_codec_tag sample_lavf_env sample_lavf_env.CODEC_ID_RAWVIDEO
          sample_lavf_env.PIX_FMT_BGR24 0 = sample_lavf_env.MKTAG 24 'R' 'G' 'B' :=
  ⟨by decide, by decide, by decide,
   C29_rgb24_tag_overwritten sample_lavf_env 0 (by decide)⟩

theorem curridx_from_range (l : List Int) (ds_id : Int) (i : Nat) :
    curridx_from l ds_id i = -1
      ∨ ((i : Int) ≤ curridx_from l ds_id i ∧ curridx_from l ds_id i < i + l.length) := by
  induction l generalizing i with
  | nil => left; rfl
  | cons s rest ih =>
    rw [curridx_from]
    split_ifs
    · right; simp
    · rcases ih (i + 1) with h | h
      · left; exact h
      · right
        simp only [List.length_cons]
        push_cast at h ⊢
        omega

theorem curridx_from_not_mem (l : List Int) (ds_id : Int) (i : Nat) (h : ds_id ∉ l) :
    curridx_from l ds_id i = -1 := by
  induction l generalizing i with
  | nil => rfl
  | cons s rest ih =>
    rw [curridx_from]
    have hs : s ≠ ds_id := fun e => h (e ▸ List.mem_cons_self _ _)
    simp only [hs, if_false]
    exact ih _ (fun hm => h (List.mem_cons_of_mem _ hm))

theorem curridx_from_getD (l : List Int) (hnd : l.Nodup) (c i : Nat) (hc : c < l.length) :
    curridx_from l (l.getD c 0) i = (i : Int) + c := by
  induction l generalizing c i with
  | nil => simp at hc
  | cons s rest ih =>
    rw [curridx_from]
    cases c with
    | zero => simp
    | succ k =>
      have hk : k < rest.length := by simpa using hc
      have hmem : rest.getD k 0 ∈ rest := by
        rw [List.getD_eq_getElem _ _ hk]
        exact List.getElem_mem _
      have hs : s ≠ rest.getD k 0 := by
        intro e
        exact (List.nodup_cons.mp hnd).1 (e ▸ hmem)
      simp only [List.getD_cons_succ, hs, if_false]
      rw [ih (List.nodup_cons.mp hnd).2 k (i + 1) hk]
      push_cast
      omega

theorem curridx_ds_of (p : List Int) (hnd : p.Nodup) (hpos : ∀ s ∈ p, 0 ≤ s) (k : Nat)
    (hk : k ≤ p.length) : curridx p (ds_of p k) = (k : Int) - 1 := by
  unfold curridx ds_of
  by_cases h0 : k = 0
  · subst h0
    simp only [if_true]
    rw [curridx_from_not_mem]
    · simp
    · intro hm
      have := hpos _ hm
      omega
  · simp only [h0, if_false]
    rw [curridx_from_getD p hnd (k - 1) 0 (by omega)]
    push_cast
    omega

theorem switch_next_ds_of (p : List Int) (hnd : p.Nodup) (hpos : ∀ s ∈ p, 0 ≤ s) (k : Nat)
    (hk : k ≤ p.length) :
    demux_lavf_control_switch p (ds_of p k) (-1)
      = (ds_of p ((k + 1) % (p.length + 1)),
         if (k + 1) % (p.length + 1) = 0 then -2
         else (((k + 1) % (p.length + 1) : Nat) : Int) - 1) := by
  have hc := curridx_ds_of p hnd hpos k hk
  unfold demux_lavf_control_switch
  simp only [hc, if_true]
  have e1 : (k : Int) - 1 + 2 = ((k + 1 : Nat) : Int) := by push_cast; omega
  have e2 : ((p.length : Int) + 1) = ((p.length + 1 : Nat) : Int) := by push_cast; rfl
  rw [e1, e2, Int.tmod_eq_emod (by positivity) (by positivity), ← Int.natCast_mod]
  by_cases hlt : k < p.length
  · have hm : (k + 1) % (p.length + 1) = k + 1 := Nat.mod_eq_of_lt (by omega)
    rw [hm]
    have a1 : ((k + 1 : Nat) : Int) - 1 = (k : Int) := by push_cast; omega
    have a2 : ¬ ((k : Int) = (k : Int) - 1) := by omega
    have a3 : (k : Int) ≥ 0 := by omega
    have a4 : ¬ ((k : Int) < 0) := by omega
    simp only [a1, a2, a3, a4, if_true, if_false, Int.toNat_ofNat, ds_of,
      Nat.add_sub_cancel, Nat.succ_ne_zero]
  · have hkn : k = p.length := by omega
    have hm : (k + 1) % (p.length + 1) = 0 := by rw [hkn]; exact Nat.mod_self _
    rw [hm]
    have b1 : ¬ (((0 : Nat) : Int) - 1 ≥ 0) := by decide
    have b2 : (((0 : Nat) : Int) - 1 < 0) := by decide
    simp only [b1, b2, if_true, if_false]
    by_cases hz : k = 0
    · subst hz
      simp [ds_of]
    · have b3 : ¬ (((0 : Nat) : Int) - 1 = (k : Int) - 1) := by omega
      simp only [b3, if_false, ds_of, if_true]

theorem next_track_iterate (p : List Int) (hnd : p.Nodup) (hpos : ∀ s ∈ p, 0 ≤ s)
    (k : Nat) (hk : k ≤ p.length) (m : Nat) :
    (next_track p)^[m] (ds_of p k) = ds_of p ((k + m) % (p.length + 1)) := by
  induction m with
  | zero =>
    simp only [Function.iterate_zero, id_eq, Nat.add_zero]
    rw [Nat.mod_eq_of_lt (by omega)]
  | succ m ih =>
    rw [Function.iterate_succ_apply', ih]
    have hb : (k + m) % (p.length + 1) ≤ p.length :=
      Nat.lt_succ_iff.mp (Nat.mod_lt _ (by omega))
    unfold next_track
    rw [switch_next_ds_of p hnd hpos _ hb]
    simp only
    rw [Nat.mod_add_mod]
    rfl

theorem switch_reported_range (p : List Int) (ds_id : Int) :
    (demux_lavf_control_switch p ds_id (-1)).2 = -2
      ∨ (0 ≤ (demux_lavf_control_switch p ds_id (-1)).2
          ∧ (demux_lavf_control_switch p ds_id (-1)).2 < p.length) := by
  have hr := curridx_from_range p ds_id 0
  unfold demux_lavf_control_switch
  simp only [if_true]
  generalize hcd : curridx p ds_id = c
  have hr2 : c = -1 ∨ (0 ≤ c ∧ c < p.length) := by
    unfold curridx at hcd
    rw [hcd] at hr
    simpa using hr
  have hpos1 : (0 : Int) ≤ c + 2 := by omega
  have hpos2 : (0 : Int) < (p.length : Int) + 1 := by omega
  have ht := Int.tmod_eq_emod hpos1 (le_of_lt hpos2)
  have hlt := Int.emod_lt_of_pos (c + 2) hpos2
  have hge := Int.emod_nonneg (c + 2) (ne_of_gt hpos2)
  rw [ht]
  generalize (c + 2) % ((p.length : Int) + 1) = r at hlt hge
  split_ifs <;> simp only <;> first | omega | exact Or.inl trivial

/-- C30: for a table `pstreams` of `n` distinct stream indices, the switch request
with the argument -1 goes from track `c` to track `c + 1` when `c + 1 < n`, from
track `n - 1` to no track (-2, reported as -2), and from no track to track 0 when
`n > 0`; `n + 1` requests return to the selection at the start; and the value
reported back is -2 or an index in `[0, n)`. -/
theorem C30_next_track_cycle (pstreams : List Int) (hnd : pstreams.Nodup)
    (hpos : ∀ s ∈ pstreams, 0 ≤ s) :
    (∀ c : Nat, c + 1 < pstreams.length →
        demux_lavf_control_switch pstreams (pstreams.getD c 0) (-1)
          = (pstreams.getD (c + 1) 0, (c : Int) + 1))
      ∧ (∀ c : Nat, c + 1 = pstreams.length →
          demux_lavf_control_switch pstreams (pstreams.getD c 0) (-1) = (-2, -2))
      ∧ (0 < pstreams.length →
          demux_lavf_control_switch pstreams (-2) (-1) = (pstreams.getD 0 0, 0))
      ∧ (∀ ds_id : Int, ds_id = -2 ∨ ds_id ∈ pstreams →
          (next_track pstreams)^[pstreams.length + 1] ds_id = ds_id)
      ∧ (∀ ds_id : Int,
          (demux_lavf_control_switch pstreams ds_id (-1)).2 = -2
            ∨ (0 ≤ (demux_lavf_control_switch pstreams ds_id (-1)).2
                ∧ (demux_lavf_control_switch pstreams ds_id (-1)).2 < pstreams.length)) := by
  refine ⟨?_, ?_, ?_, ?_, fun ds_id => switch_reported_range pstreams ds_id⟩
  · intro c hc
    have e : pstreams.getD c 0 = ds_of pstreams (c + 1) := by simp [ds_of]
    rw [e, switch_next_ds_of pstreams hnd hpos (c + 1) (by omega)]
    have hm : (c + 1 + 1) % (pstreams.length + 1) = c + 2 := Nat.mod_eq_of_lt (by omega)
    rw [hm]
    simp only [ds_of, Nat.succ_ne_zero, if_false, Nat.add_sub_cancel]
    congr 1
    push_cast
    omega
  · intro c hc
    have e : pstreams.getD c 0 = ds_of pstreams (c + 1) := by simp [ds_of]
    rw [e, switch_next_ds_of pstreams hnd hpos (c + 1) (by omega)]
    have hm : (c + 1 + 1) % (pstreams.length + 1) = 0 := by
      rw [hc]; exact Nat.mod_self _
    rw [hm]
    simp [ds_of]
  · intro hn
    have e : (-2 : Int) = ds_of pstreams 0 := by simp [ds_of]
    rw [e, switch_next_ds_of pstreams hnd hpos 0 (by omega)]
    have hm : (0 + 1) % (pstreams.length + 1) = 1 := Nat.mod_eq_of_lt (by omega)
    rw [hm]
    simp [ds_of]
  · intro ds_id hds
    have hk : ∃ k, k ≤ pstreams.length ∧ ds_id = ds_of pstreams k := by
      rcases hds with h | h
      · exact ⟨0, by omega, by simp [ds_of, h]⟩
      · obtain ⟨c, hc, hget⟩ := List.getElem_of_mem h
        refine ⟨c + 1, by omega, ?_⟩
        simp [ds_of, hc, hget]
    obtain ⟨k, hk, rfl⟩ := hk
    rw [next_track_iterate pstreams hnd hpos k hk, Nat.add_mod_right,
      Nat.mod_eq_of_lt (by omega)]

theorem C30_next_track_cycle_witness :
    sample_astreams.Nodup ∧ (∀ s ∈ sample_astreams, 0 ≤ s)
      ∧ demux_lavf_control_switch sample_astreams 3 (-1) = (4, 2)
      ∧ demux_lavf_control_switch sample_astreams 4 (-1) = (-2, -2)
      ∧ demux_lavf_control_switch sample_astreams (-2) (-1) = (1, 0)
      ∧ (∀ ds_id : Int, ds_id = -2 ∨ ds_id ∈ sample_astreams →
          (next_track sample_astreams)^[sample_astreams.length + 1] ds_id = ds_id) :=
  ⟨by decide, by decide, by decide, by decide, by decide,
   (C30_next_track_cycle sample_astreams (by decide) (by decide)).2.2.2.1⟩

/-! ## Theorems : the mirror filter -/

theorem store_append (m : Int → Nat) (a b : List (Int × Nat)) :
    store (store m a) b = store m (a ++ b) := by
  unfold store
  rw [List.foldl_append]

theorem foldl_store_flatMap {α : Type} (f : α → List (Int × Nat)) (l : List α)
    (m : Int → Nat) :
    l.foldl (fun m x => store m (f x)) m = store m (l.flatMap f) := by
  induction l generalizing m with
  | nil => rfl
  | cons a l ih =>
    rw [List.foldl_cons, ih, List.flatMap_cons, store_append]

theorem store_value (ws : List (Int × Nat)) (m : Int → Nat) (a : Int) (v : Nat)
    (hall : ∀ w ∈ ws, w.1 = a → w.2 = v) (hex : m a = v ∨ ∃ w ∈ ws, w.1 = a) :
    store m ws a = v := by
  induction ws generalizing m with
  | nil =>
    rcases hex with h | ⟨w, hw, _⟩
    · exact h
    · simp at hw
  | cons w ws ih =>
    show store (mem_set m w.1 w.2) ws a = v
    apply ih
    · intro w2 hw2; exact hall w2 (List.mem_cons_of_mem _ hw2)
    · by_cases hwa : w.1 = a
      · left
        simp only [mem_set, hwa, if_true]
        exact hall w (List.mem_cons_self _ _) hwa
      · rcases hex with h | ⟨w2, hw2, h2⟩
        · left
          have : ¬ a = w.1 := fun e => hwa e.symm
          simp only [mem_set, this, if_false]
          exact h
        · rcases List.mem_cons.mp hw2 with e | hm
          · exact absurd (e ▸ h2) hwa
          · right; exact ⟨w2, hm, h2⟩

theorem mirror_eq_store (dst src : Int → Nat) (ds ss : Int) (w h bpp fmt : Nat) :
    mirror dst src ds ss w h bpp fmt
      = store dst ((List.range h).flatMap (fun y =>
          (List.range (mirror_count w bpp fmt)).flatMap
            (fun x => mirror_body src (y * ds) (y * ss) w bpp fmt x))) := by
  have e : (fun (m : Int → Nat) (y : Nat) =>
        mirror_row m src (y * ds) (y * ss) w bpp fmt)
      = (fun (m : Int → Nat) (y : Nat) =>
          store m ((List.range (mirror_count w bpp fmt)).flatMap
            (fun x => mirror_body src (y * ds) (y * ss) w bpp fmt x))) := by
    funext m y
    unfold mirror_row
    rw [foldl_store_flatMap]
  unfold mirror
  rw [e, foldl_store_flatMap]

theorem divmod_unique (q q2 r r2 b : Int) (h0 : 0 ≤ r) (h1 : r < b) (h2 : 0 ≤ r2)
    (h3 : r2 < b) (he : q * b + r = q2 * b + r2) : q = q2 ∧ r = r2 := by
  have hb : b ≠ 0 := by omega
  have e1 : (r + q * b) / b = q := by
    rw [Int.add_mul_ediv_right _ _ hb, Int.ediv_eq_zero_of_lt h0 h1]; omega
  have e2 : (r2 + q2 * b) / b = q2 := by
    rw [Int.add_mul_ediv_right _ _ hb, Int.ediv_eq_zero_of_lt h2 h3]; omega
  have hq : q = q2 := by
    rw [← e1, ← e2]
    congr 1
    omega
  subst hq
  exact ⟨rfl, by omega⟩

theorem pixel_offset_lt (x w b j : Nat) (hx : x < w) (hj : j < b) :
    ((x : Int) * b + j) < (w : Int) * b := by
  have h1 : (x + 1) * b ≤ w * b := Nat.mul_le_mul_right b hx
  have h2 : x * b + j < (x + 1) * b := by rw [Nat.add_mul]; omega
  have h3 : x * b + j < w * b := lt_of_lt_of_le h2 h1
  exact_mod_cast h3

theorem mem_copy_bytes (src : Int → Nat) (d so : Int) (n : Nat) (p : Int × Nat) :
    p ∈ copy_bytes src d so n ↔ ∃ j : Nat, j < n ∧ p = (d + j, src (so + j)) := by
  unfold copy_bytes
  simp only [List.mem_map, List.mem_range]
  constructor
  · rintro ⟨j, hj, rfl⟩; exact ⟨j, hj, rfl⟩
  · rintro ⟨j, hj, rfl⟩; exact ⟨j, hj, rfl⟩

theorem mirror_body_plain (src : Int → Nat) (d s : Int) (w bpp fmt x : Nat)
    (hb : bpp = 1 ∨ bpp = 2 ∨ bpp = 3 ∨ bpp = 4)
    (hplain : ¬ (bpp = 2 ∧ (fmt = IMGFMT_UYVY ∨ fmt = IMGFMT_YUYV))) :
    mirror_body src d s w bpp fmt x
      = copy_bytes src (d + x * bpp) (s + ((w : Int) - x - 1) * bpp) bpp := by
  rcases hb with rfl | rfl | rfl | rfl
  · simp [mirror_body]
  · have h1 : ¬ fmt = IMGFMT_UYVY := fun e => hplain ⟨rfl, Or.inl e⟩
    have h2 : ¬ fmt = IMGFMT_YUYV := fun e => hplain ⟨rfl, Or.inr e⟩
    simp [mirror_body, h1, h2]
  · simp [mirror_body]
  · simp [mirror_body]

theorem mirror_plain (dst src : Int → Nat) (ds ss : Int) (w h bpp fmt : Nat)
    (hb : bpp = 1 ∨ bpp = 2 ∨ bpp = 3 ∨ bpp = 4)
    (hplain : ¬ (bpp = 2 ∧ (fmt = IMGFMT_UYVY ∨ fmt = IMGFMT_YUYV)))
    (hstride : (w : Int) * bpp ≤ ds)
    (y x j : Nat) (hy : y < h) (hx : x < w) (hj : j < bpp) :
    mirror dst src ds ss w h bpp fmt ((y : Int) * ds + ((x : Int) * bpp + j))
      = src ((y : Int) * ss + (((w : Int) - x - 1) * bpp + j)) := by
  rw [mirror_eq_store]
  have hc : mirror_count w bpp fmt = w := by
    unfold mirror_count; simp only [hplain, if_false]
  apply store_value
  · intro p hp ha
    simp only [List.mem_flatMap, List.mem_range, hc] at hp
    obtain ⟨y2, _, x2, hx2, hp⟩ := hp
    rw [mirror_body_plain _ _ _ _ _ _ _ hb hplain, mem_copy_bytes] at hp
    obtain ⟨j2, hj2, rfl⟩ := hp
    simp only at ha ⊢
    have b1 := pixel_offset_lt x w bpp j hx hj
    have b2 := pixel_offset_lt x2 w bpp j2 hx2 hj2
    have n1 : (0 : Int) ≤ (x : Int) * bpp + j := by positivity
    have n2 : (0 : Int) ≤ (x2 : Int) * bpp + j2 := by positivity
    have key := divmod_unique (y2 : Int) y ((x2 : Int) * bpp + j2) ((x : Int) * bpp + j) ds
      n2 (by omega) n1 (by omega) (by rw [← ha]; ring)
    have key2 := divmod_unique (x2 : Int) x j2 j bpp (by positivity) (by exact_mod_cast hj2)
      (by positivity) (by exact_mod_cast hj) key.2
    have e1 : (y2 : Int) = y := key.1
    have e2 : (x2 : Int) = x := key2.1
    have e3 : (j2 : Int) = j := key2.2
    rw [e1, e2, e3]
    congr 1
    ring
  · right
    refine ⟨((y : Int) * ds + ((x : Int) * bpp + j),
      src ((y : Int) * ss + (((w : Int) - x - 1) * bpp + j))), ?_, rfl⟩
    simp only [List.mem_flatMap, List.mem_range, hc]
    refine ⟨y, hy, x, hx, ?_⟩
    rw [mirror_body_plain _ _ _ _ _ _ _ hb hplain, mem_copy_bytes]
    exact ⟨j, hj, by simp only [Prod.mk.injEq]; constructor <;> [ring; (congr 1; ring)]⟩

theorem store_quads (dst src : Int → Nat) (ds ss : Int) (h n : Nat) (perm : Nat → Int)
    (body : Int → Int → Nat → List (Int × Nat))
    (hbody : ∀ d s x, body d s x
      = (List.range 4).map (fun (k : Nat) =>
          (d + ((x : Int) * 4 + k), src (s + (perm k + ((n : Int) - x - 1) * 4)))))
    (hstride : (n : Int) * 4 ≤ ds)
    (y x k : Nat) (hy : y < h) (hx : x < n) (hk : k < 4) :
    store dst ((List.range h).flatMap (fun (y : Nat) =>
        (List.range n).flatMap (fun x => body ((y : Int) * ds) ((y : Int) * ss) x)))
        ((y : Int) * ds + ((x : Int) * 4 + k))
      = src ((y : Int) * ss + (perm k + ((n : Int) - x - 1) * 4)) := by
  apply store_value
  · intro p hp ha
    simp only [List.mem_flatMap, List.mem_range, hbody, List.mem_map] at hp
    obtain ⟨y2, _, x2, hx2, k2, hk2, rfl⟩ := hp
    simp only at ha ⊢
    have key := divmod_unique (y2 : Int) y ((x2 : Int) * 4 + k2) ((x : Int) * 4 + k) ds
      (by positivity) (by omega) (by positivity) (by omega) ha
    have e1 : (y2 : Int) = y := key.1
    have e2 : x2 = x := by omega
    have e3 : k2 = k := by omega
    rw [e1, e2, e3]
  · right
    refine ⟨((y : Int) * ds + ((x : Int) * 4 + k),
      src ((y : Int) * ss + (perm k + ((n : Int) - x - 1) * 4))), ?_, rfl⟩
    simp only [List.mem_flatMap, List.mem_range, hbody, List.mem_map]
    exact ⟨y, hy, x, hx, k, hk, rfl⟩

theorem mirror_packed (dst src : Int → Nat) (ds ss : Int) (w h fmt : Nat) (perm : Nat → Int)
    (hf : (fmt = IMGFMT_UYVY ∧ perm 0 = 0 ∧ perm 1 = 3 ∧ perm 2 = 2 ∧ perm 3 = 1)
      ∨ (fmt = IMGFMT_YUYV ∧ perm 0 = 2 ∧ perm 1 = 1 ∧ perm 2 = 0 ∧ perm 3 = 3))
    (hstride : ((w >>> 1 : Nat) : Int) * 4 ≤ ds)
    (y x k : Nat) (hy : y < h) (hx : x < w >>> 1) (hk : k < 4) :
    mirror dst src ds ss w h 2 fmt ((y : Int) * ds + ((x : Int) * 4 + k))
      = src ((y : Int) * ss + (perm k + (((w >>> 1 : Nat) : Int) - x - 1) * 4)) := by
  rw [mirror_eq_store]
  have hc : mirror_count w 2 fmt = w >>> 1 := by
    unfold mirror_count
    rcases hf with ⟨e, _⟩ | ⟨e, _⟩ <;> simp [e]
  rw [hc]
  apply store_quads dst src ds ss h (w >>> 1) perm
    (fun d s x => mirror_body src d s w 2 fmt x) _ hstride y x k hy hx hk
  intro d s x
  have r4 : List.range 4 = [0, 1, 2, 3] := by decide
  rcases hf with ⟨e, p0, p1, p2, p3⟩ | ⟨e, p0, p1, p2, p3⟩
  · subst e
    simp [mirror_body, r4, p0, p1, p2, p3]
  · subst e
    have hne : ¬ IMGFMT_YUYV = IMGFMT_UYVY := by decide
    simp [mirror_body, r4, p0, p1, p2, p3, hne]

theorem mirror_bytes (dst src : Int → Nat) (ds ss : Int) (w h fmt : Nat)
    (hstride : (w : Int) ≤ ds) (y x : Nat) (hy : y < h) (hx : x < w) :
    mirror dst src ds ss w h 1 fmt ((y : Int) * ds + x)
      = src ((y : Int) * ss + ((w : Int) - x - 1)) := by
  have := mirror_plain dst src ds ss w h 1 fmt (Or.inl rfl) (by simp) (by simpa using hstride)
    y x 0 hy hx (by omega)
  simpa using this

/-- C21 (as stated, refuted): for a row of two YUYV pixels with the bytes Y0 = 1, U = 2,
Y1 = 3, V = 4 the filter writes 3, 2, 1, 4: the pixel at column 0 of the output
(bytes 3, 2) is not the input pixel at column 1 (bytes 3, 4). -/
theorem C21_counterexample :
    (filter (packed_image IMGFMT_YUYV 16 2 4 (fun _ => 0))
        (packed_image IMGFMT_YUYV 16 2 4 yuyv_row)).planes 0 0 = 3
      ∧ (filter (packed_image IMGFMT_YUYV 16 2 4 (fun _ => 0))
          (packed_image IMGFMT_YUYV 16 2 4 yuyv_row)).planes 0 1 = 2
      ∧ (filter (packed_image IMGFMT_YUYV 16 2 4 (fun _ => 0))
          (packed_image IMGFMT_YUYV 16 2 4 yuyv_row)).planes 0 2 = 1
      ∧ (filter (packed_image IMGFMT_YUYV 16 2 4 (fun _ => 0))
          (packed_image IMGFMT_YUYV 16 2 4 yuyv_row)).planes 0 3 = 4
      ∧ (packed_image IMGFMT_YUYV 16 2 4 yuyv_row).planes 0 2 = 3
      ∧ (packed_image IMGFMT_YUYV 16 2 4 yuyv_row).planes 0 3 = 4
      ∧ (filter (packed_image IMGFMT_YUYV 16 2 4 (fun _ => 0))
          (packed_image IMGFMT_YUYV 16 2 4 yuyv_row)).planes 0 1
        ≠ (packed_image IMGFMT_YUYV 16 2 4 yuyv_row).planes 0 3 := by
  decide

/-- C21 (amended): for an image not flagged planar whose pixels have 1, 2, 3 or 4
whole bytes, other than the packed formats YUYV and UYVY, the pixel at column `x` of
each row of plane 0 of the output is the input pixel at column `w - 1 - x` of the
same row.  For YUYV and UYVY the filter mirrors the pairs of pixels: the group of
four bytes at position `x` of the output row is the input group at position
`w/2 - 1 - x` with its two luma bytes exchanged and its chroma bytes in place.  For
an image flagged planar, the planes 0, 1 and 2 are mirrored byte by byte (planes of
one byte per sample), the chroma planes in their shifted size. -/
theorem C21_mirror_pixels (dmpi mpi : mp_image) :
    (mpi.flags &&& MP_IMGFLAG_PLANAR = 0 →
        (dmpi.bpp >>> 3 = 1 ∨ dmpi.bpp >>> 3 = 2 ∨ dmpi.bpp >>> 3 = 3 ∨ dmpi.bpp >>> 3 = 4) →
        ¬ (dmpi.bpp >>> 3 = 2 ∧ (mpi.imgfmt = IMGFMT_UYVY ∨ mpi.imgfmt = IMGFMT_YUYV)) →
        (dmpi.w : Int) * ((dmpi.bpp >>> 3 : Nat) : Int) ≤ dmpi.stride 0 →
        ∀ y x j : Nat, y < dmpi.h → x < dmpi.w → j < dmpi.bpp >>> 3 →
          (filter dmpi mpi).planes 0
              ((y : Int) * dmpi.stride 0 + ((x : Int) * ((dmpi.bpp >>> 3 : Nat) : Int) + j))
            = mpi.planes 0 ((y : Int) * mpi.stride 0
                + (((dmpi.w : Int) - x - 1) * ((dmpi.bpp >>> 3 : Nat) : Int) + j)))
      ∧ (mpi.flags &&& MP_IMGFLAG_PLANAR = 0 → dmpi.bpp >>> 3 = 2 →
          mpi.imgfmt = IMGFMT_YUYV →
          ((dmpi.w >>> 1 : Nat) : Int) * 4 ≤ dmpi.stride 0 →
          ∀ y x : Nat, y < dmpi.h → x < dmpi.w >>> 1 →
            (filter dmpi mpi).planes 0 ((y : Int) * dmpi.stride 0 + ((x : Int) * 4 + 0))
                = mpi.planes 0 ((y : Int) * mpi.stride 0
                    + (2 + (((dmpi.w >>> 1 : Nat) : Int) - x - 1) * 4))
              ∧ (filter dmpi mpi).planes 0 ((y : Int) * dmpi.stride 0 + ((x : Int) * 4 + 1))
                = mpi.planes 0 ((y : Int) * mpi.stride 0
                    + (1 + (((dmpi.w >>> 1 : Nat) : Int) - x - 1) * 4))
              ∧ (filter dmpi mpi).planes 0 ((y : Int) * dmpi.stride 0 + ((x : Int) * 4 + 2))
                = mpi.planes 0 ((y : Int) * mpi.stride 0
                    + (0 + (((dmpi.w >>> 1 : Nat) : Int) - x - 1) * 4))
              ∧ (filter dmpi mpi).planes 0 ((y : Int) * dmpi.stride 0 + ((x : Int) * 4 + 3))
                = mpi.planes 0 ((y : Int) * mpi.stride 0
                    + (3 + (((dmpi.w >>> 1 : Nat) : Int) - x - 1) * 4)))
      ∧ (mpi.flags &&& MP_IMGFLAG_PLANAR = 0 → dmpi.bpp >>> 3 = 2 →
          mpi.imgfmt = IMGFMT_UYVY →
          ((dmpi.w >>> 1 : Nat) : Int) * 4 ≤ dmpi.stride 0 →
          ∀ y x : Nat, y < dmpi.h → x < dmpi.w >>> 1 →
            (filter dmpi mpi).planes 0 ((y : Int) * dmpi.stride 0 + ((x : Int) * 4 + 0))
                = mpi.planes 0 ((y : Int) * mpi.stride 0
                    + (0 + (((dmpi.w >>> 1 : Nat) : Int) - x - 1) * 4))
              ∧ (filter dmpi mpi).planes 0 ((y : Int) * dmpi.stride 0 + ((x : Int) * 4 + 1))
                = mpi.planes 0 ((y : Int) * mpi.stride 0
                    + (3 + (((dmpi.w >>> 1 : Nat) : Int) - x - 1) * 4))
              ∧ (filter dmpi mpi).planes 0 ((y : Int) * dmpi.stride 0 + ((x : Int) * 4 + 2))
                = mpi.planes 0 ((y : Int) * mpi.stride 0
                    + (2 + (((dmpi.w >>> 1 : Nat) : Int) - x - 1) * 4))
              ∧ (filter dmpi mpi).planes 0 ((y : Int) * dmpi.stride 0 + ((x : Int) * 4 + 3))
                = mpi.planes 0 ((y : Int) * mpi.stride 0
                    + (1 + (((dmpi.w >>> 1 : Nat) : Int) - x - 1) * 4)))
      ∧ (mpi.flags &&& MP_IMGFLAG_PLANAR ≠ 0 →
          ((dmpi.w : Int) ≤ dmpi.stride 0 →
              ∀ y x : Nat, y < dmpi.h → x < dmpi.w →
                (filter dmpi mpi).planes 0 ((y : Int) * dmpi.stride 0 + x)
                  = mpi.planes 0 ((y : Int) * mpi.stride 0 + ((dmpi.w : Int) - x - 1)))
            ∧ (∀ p : Nat, p = 1 ∨ p = 2 →
                ((dmpi.w >>> mpi.chroma_x_shift : Nat) : Int) ≤ dmpi.stride p →
                ∀ y x : Nat, y < dmpi.h >>> mpi.chroma_y_shift →
                  x < dmpi.w >>> mpi.chroma_x_shift →
                  (filter dmpi mpi).planes p ((y : Int) * dmpi.stride p + x)
                    = mpi.planes p ((y : Int) * mpi.stride p
                        + (((dmpi.w >>> mpi.chroma_x_shift : Nat) : Int) - x - 1)))) := by
  refine ⟨?_, ?_, ?_, ?_⟩
  · intro hfl hb hplain hstride y x j hy hx hj
    have e : (filter dmpi mpi).planes 0
        = mirror (dmpi.planes 0) (mpi.planes 0) (dmpi.stride 0) (mpi.stride 0)
            dmpi.w dmpi.h (dmpi.bpp >>> 3) mpi.imgfmt := by
      unfold filter; simp [hfl]
    rw [e]
    exact mirror_plain _ _ _ _ _ _ _ _ hb hplain hstride y x j hy hx hj
  · intro hfl hb hf hstride y x hy hx
    have e : (filter dmpi mpi).planes 0
        = mirror (dmpi.planes 0) (mpi.planes 0) (dmpi.stride 0) (mpi.stride 0)
            dmpi.w dmpi.h 2 mpi.imgfmt := by
      unfold filter; simp [hfl, hb]
    rw [e]
    have k := mirror_packed (dmpi.planes 0) (mpi.planes 0) (dmpi.stride 0) (mpi.stride 0)
      dmpi.w dmpi.h mpi.imgfmt
      (fun k => if k = 0 then 2 else if k = 1 then 1 else if k = 2 then 0 else 3)
      (Or.inr ⟨hf, rfl, rfl, rfl, rfl⟩) hstride y x
    exact ⟨by simpa using k 0 hy hx (by omega), by simpa using k 1 hy hx (by omega),
      by simpa using k 2 hy hx (by omega), by simpa using k 3 hy hx (by omega)⟩
  · intro hfl hb hf hstride y x hy hx
    have e : (filter dmpi mpi).planes 0
        = mirror (dmpi.planes 0) (mpi.planes 0) (dmpi.stride 0) (mpi.stride 0)
            dmpi.w dmpi.h 2 mpi.imgfmt := by
      unfold filter; simp [hfl, hb]
    rw [e]
    have k := mirror_packed (dmpi.planes 0) (mpi.planes 0) (dmpi.stride 0) (mpi.stride 0)
      dmpi.w dmpi.h mpi.imgfmt
      (fun k => if k = 0 then 0 else if k = 1 then 3 else if k = 2 then 2 else 1)
      (Or.inl ⟨hf, rfl, rfl, rfl, rfl⟩) hstride y x
    exact ⟨by simpa using k 0 hy hx (by omega), by simpa using k 1 hy hx (by omega),
      by simpa using k 2 hy hx (by omega), by simpa using k 3 hy hx (by omega)⟩
  · intro hfl
    constructor
    · intro hstride y x hy hx
      have e : (filter dmpi mpi).planes 0
          = mirror (dmpi.planes 0) (mpi.planes 0) (dmpi.stride 0) (mpi.stride 0)
              dmpi.w dmpi.h 1 mpi.imgfmt := by
        unfold filter; simp [hfl]
      rw [e]
      exact mirror_bytes _ _ _ _ _ _ _ hstride y x hy hx
    · intro p hp hstride y x hy hx
      have e : (filter dmpi mpi).planes p
          = mirror (dmpi.planes p) (mpi.planes p) (dmpi.stride p) (mpi.stride p)
              (dmpi.w >>> mpi.chroma_x_shift) (dmpi.h >>> mpi.chroma_y_shift) 1
              mpi.imgfmt := by
        unfold filter
        rcases hp with rfl | rfl <;> simp [hfl]
      rw [e]
      exact mirror_bytes _ _ _ _ _ _ _ hstride y x hy hx

theorem C21_mirror_pixels_witness :
    (filter (packed_image IMGFMT_RGB24 24 2 6 (fun _ => 0))
        (packed_image IMGFMT_RGB24 24 2 6 rgb_row)).planes 0
          (((0 : Nat) : Int) * (packed_image IMGFMT_RGB24 24 2 6 (fun _ => 0)).stride 0
            + (((0 : Nat) : Int)
                * (((packed_image IMGFMT_RGB24 24 2 6 (fun _ => 0)).bpp >>> 3 : Nat) : Int)
                + ((2 : Nat) : Int)))
      = (packed_image IMGFMT_RGB24 24 2 6 rgb_row).planes 0
          (((0 : Nat) : Int) * (packed_image IMGFMT_RGB24 24 2 6 rgb_row).stride 0
            + ((((packed_image IMGFMT_RGB24 24 2 6 (fun _ => 0)).w : Int)
                  - ((0 : Nat) : Int) - 1)
                * (((packed_image IMGFMT_RGB24 24 2 6 (fun _ => 0)).bpp >>> 3 : Nat) : Int)
                + ((2 : Nat) : Int))) :=
  (C21_mirror_pixels (packed_image IMGFMT_RGB24 24 2 6 (fun _ => 0))
      (packed_image IMGFMT_RGB24 24 2 6 rgb_row)).1
    (by decide) (by decide) (by decide) (by decide) 0 0 2 (by decide) (by decide) (by decide)

end Mpv
